import Mathlib

/-!
# NavIC RMC/GGA sentence decoder

A shallow embedding of `navic_rmc_gga.cpp` and `navic_rmc_gga++.h`.

Conventions of the embedding.

* A `char` is its character code, a natural number (`'$'` is 36, `','` is 44,
  `'*'` is 42, CR is 13, LF is 10, `'.'` is 46, `'-'` is 45, `'0'` is 48,
  `'A'` is 65, ...).  Comparisons between characters are comparisons between
  codes, which is what the C code does on ASCII input.
* A C string (`const char *`) is the list of the codes before its terminating
  NUL.  The 15-byte term buffer of the decoder is kept as a map from index to
  byte, because bytes left over from earlier terms can be read back by the
  checksum test; `cstr` reads the C string stored in it.
* `uint8_t`, `uint16_t`, `uint32_t` values are natural numbers reduced with
  `% 2^w` where the C code can overflow; `int32_t` and `int` values are
  integers, wrapped with `toInt32`.
* `millis()` is the external clock: every operation that reads it takes the
  reading as the argument `now`.
* The registry of custom descriptors (an intrusive singly linked list of
  caller-owned objects) is the list of the descriptors in link order; the
  pointer `customCandidates` is the position of the descriptor it points to.
-/

namespace NavIC

/-! ## C library functions used by the code -/

/-- `isdigit` of `<ctype.h>`. -/
def isdigit (c : Nat) : Bool := decide (48 ≤ c) && decide (c ≤ 57)

/-- `isspace` of `<ctype.h>` (C locale): space, TAB, LF, VT, FF, CR. -/
def isspace (c : Nat) : Bool := decide (c = 32) || (decide (9 ≤ c) && decide (c ≤ 13))

/-- The digit loop of `atol`: accumulates the decimal value of the leading digits. -/
def atolDigits : List Nat → Nat → Nat
  | [], acc => acc
  | c :: cs, acc => if isdigit c then atolDigits cs (10 * acc + (c - 48)) else acc

/-- `atol` of `<stdlib.h>`: skips white space, reads an optional sign and the
leading decimal digits; the value is the mathematical one (overflow of `long`,
undefined in C, is not modelled).  `s.headD 0` is the first character, the
terminating NUL for the empty string. -/
def atol (s : List Nat) : Int :=
  let s := s.dropWhile isspace
  if s.headD 0 = 45 then - (atolDigits s.tail 0 : Int)
  else if s.headD 0 = 43 then (atolDigits s.tail 0 : Int)
  else (atolDigits s 0 : Int)

/-- `strcmp` of `<string.h>` on C strings: negative, zero or positive. -/
def strcmp : List Nat → List Nat → Int
  | [], [] => 0
  | [], _ :: _ => -1
  | _ :: _, [] => 1
  | a :: as, b :: bs => if a < b then -1 else if b < a then 1 else strcmp as bs

/-- Conversion of an integer to `int32_t` (two's-complement wrap-around). -/
def toInt32 (x : Int) : Int := (x + 2147483648) % 4294967296 - 2147483648

/-- Conversion of an integer to `uint32_t`. -/
def toUint32 (x : Int) : Nat := (x % 4294967296).toNat

/-! ## Data model (`navic_rmc_gga++.h`) -/

/-- `struct RawDegrees`. -/
structure RawDegrees where
  deg : Nat
  billionths : Nat
  negative : Bool
  deriving DecidableEq, Repr

/-- `struct NavIC_Location`. -/
structure NavIC_Location where
  valid : Bool
  updated : Bool
  rawLatData : RawDegrees
  rawLngData : RawDegrees
  rawNewLatData : RawDegrees
  rawNewLngData : RawDegrees
  lastCommitTime : Nat
  deriving DecidableEq, Repr

/-- `struct NavIC_date`. -/
structure NavIC_date where
  valid : Bool
  updated : Bool
  date : Nat
  newDate : Nat
  lastCommitTime : Nat
  deriving DecidableEq, Repr

/-- `struct NavIC_time`. -/
structure NavIC_time where
  valid : Bool
  updated : Bool
  time : Nat
  newTime : Nat
  lastCommitTime : Nat
  deriving DecidableEq, Repr

/-- `struct NavIC_decimal` (also its subclasses `NavIC_speed`, `NavIC_course`,
`NavIC_altitudes`, `NavIC_HDOP`, which add only unit conversions). -/
structure NavIC_decimal where
  valid : Bool
  updated : Bool
  lastCommitTime : Nat
  val : Int
  newval : Int
  deriving DecidableEq, Repr

/-- `struct NavIC_integer`. -/
structure NavIC_integer where
  valid : Bool
  updated : Bool
  lastCommitTime : Nat
  val : Nat
  newval : Nat
  deriving DecidableEq, Repr

/-- `class NavIC_CUSTOM`.  The two 16-byte buffers are kept as the C strings
they hold; the link `next` is the descriptor's successor in the registry list. -/
structure NavIC_CUSTOM where
  stagingBuffer : List Nat
  buffer : List Nat
  lastCommitTime : Nat
  valid : Bool
  updated : Bool
  sentenceName : List Nat
  termNumber : Int
  deriving DecidableEq, Repr

/-- Modelled from the spec: the enumerators `NAVIC_SENTENCE_GNGGA`,
`NAVIC_SENTENCE_GNRMC`, `NAVIC_SENTENCE_OTHER` used by `navic_rmc_gga.cpp` are not
declared under these names in the header, whose anonymous enum lists the three
sentence types (GGA, RMC, OTHER) in this order; they take the values 0, 1, 2. -/
def NAVIC_SENTENCE_GNGGA : Nat := 0

/-- Modelled from the spec: second enumerator of the sentence-type enum (see
`NAVIC_SENTENCE_GNGGA`). -/
def NAVIC_SENTENCE_GNRMC : Nat := 1

/-- Modelled from the spec: third enumerator of the sentence-type enum (see
`NAVIC_SENTENCE_GNGGA`). -/
def NAVIC_SENTENCE_OTHER : Nat := 2

/-- `_GNRMCterm`, the string "GNRMC". -/
def _GNRMCterm : List Nat := [71, 78, 82, 77, 67]

/-- `_GNGGAterm`, the string "GNGGA". -/
def _GNGGAterm : List Nat := [71, 78, 71, 71, 65]

/-- `class navic_gn_rmc_gga`: the decoder. -/
structure navic_gn_rmc_gga where
  location : NavIC_Location
  date : NavIC_date
  time : NavIC_time
  speed : NavIC_decimal
  course : NavIC_decimal
  altitude : NavIC_decimal
  satellites : NavIC_integer
  hdop : NavIC_decimal
  parity : Nat
  isChecksumTerm : Bool
  term : Nat → Nat
  curSentenceType : Nat
  curTermNumber : Nat
  curTermOffset : Nat
  sentenceHasFix : Bool
  customElts : List NavIC_CUSTOM
  customCandidates : Option Nat
  encodedCharCount : Nat
  sentencesWithFixCount : Nat
  failedChecksumCount : Nat
  passedChecksumCount : Nat

/-- The C string stored from index `i` on in a buffer of which `n` more bytes
are looked at. -/
def cstrFrom (t : Nat → Nat) : Nat → Nat → List Nat
  | _, 0 => []
  | i, n + 1 => if t i = 0 then [] else t i :: cstrFrom t (i + 1) n

/-- The C string held by the 15-byte term buffer `char term[15]`. -/
def cstr (t : Nat → Nat) : List Nat := cstrFrom t 0 15

/-! ## Internal utilities (`navic_rmc_gga.cpp`) -/

/-- `navic_gn_rmc_gga::fromHex`. -/
def fromHex (a : Nat) : Int :=
  if 65 ≤ a ∧ a ≤ 70 then (a : Int) - 65 + 10
  else if 97 ≤ a ∧ a ≤ 102 then (a : Int) - 97 + 10
  else (a : Int) - 48

/-- `navic_gn_rmc_gga::parseDecimal`: a number with up to two decimal digits,
in hundredths.  `term.getD i 0` is `term[i]`, the terminating NUL included. -/
def parseDecimal (term : List Nat) : Int :=
  let negative : Bool := decide (term.getD 0 0 = 45)
  let term := if negative then term.tail else term
  let ret := toInt32 (100 * toInt32 (atol term))
  let term := term.dropWhile isdigit
  let ret :=
    if term.getD 0 0 = 46 ∧ isdigit (term.getD 1 0) = true then
      let ret := toInt32 (ret + 10 * ((term.getD 1 0 : Int) - 48))
      if isdigit (term.getD 2 0) = true then toInt32 (ret + ((term.getD 2 0 : Int) - 48))
      else ret
    else ret
  if negative then toInt32 (-ret) else ret

/-- The loop `while (isdigit(*++term))` of `parseDegrees`, with the running
`multiplier` and `tenMillionthsOfMinutes`. -/
def parseDegreesLoop : List Nat → Nat → Nat → Nat
  | [], _, acc => acc
  | c :: cs, multiplier, acc =>
    if isdigit c then
      parseDegreesLoop cs (multiplier / 10) ((acc + (c - 48) * (multiplier / 10)) % 4294967296)
    else acc

/-- `navic_gn_rmc_gga::parseDegrees`: the NMEA format DDMM.MMMM. -/
def parseDegrees (term : List Nat) : RawDegrees :=
  let leftOfDecimal := toUint32 (atol term)
  let minutes := (leftOfDecimal % 100) % 65536
  let multiplier := 10000000
  let tenMillionthsOfMinutes := (minutes * multiplier) % 4294967296
  let deg := (leftOfDecimal / 100) % 65536
  let term := term.dropWhile isdigit
  let tenMillionthsOfMinutes :=
    if term.getD 0 0 = 46 then parseDegreesLoop term.tail multiplier tenMillionthsOfMinutes
    else tenMillionthsOfMinutes
  { deg := deg
    billionths := ((5 * tenMillionthsOfMinutes + 1) % 4294967296) / 3
    negative := false }

/-! ## Staged fields: set and commit -/

/-- `NavIC_Location::commit`. -/
def NavIC_Location.commit (now : Nat) (l : NavIC_Location) : NavIC_Location :=
  { l with
    rawLatData := l.rawNewLatData
    rawLngData := l.rawNewLngData
    lastCommitTime := now
    valid := true
    updated := true }

/-- `NavIC_Location::setLatitude`. -/
def NavIC_Location.setLatitude (term : List Nat) (l : NavIC_Location) : NavIC_Location :=
  { l with rawNewLatData := parseDegrees term }

/-- `NavIC_Location::setLongitude`. -/
def NavIC_Location.setLongitude (term : List Nat) (l : NavIC_Location) : NavIC_Location :=
  { l with rawNewLngData := parseDegrees term }

/-- `NavIC_date::commit`. -/
def NavIC_date.commit (now : Nat) (d : NavIC_date) : NavIC_date :=
  { d with date := d.newDate, lastCommitTime := now, valid := true, updated := true }

/-- `NavIC_time::commit`. -/
def NavIC_time.commit (now : Nat) (t : NavIC_time) : NavIC_time :=
  { t with time := t.newTime, lastCommitTime := now, valid := true, updated := true }

/-- `NavIC_time::setTime`: `newTime = (uint32_t)parseDecimal(term)`. -/
def NavIC_time.setTime (term : List Nat) (t : NavIC_time) : NavIC_time :=
  { t with newTime := toUint32 (parseDecimal term) }

/-- `NavIC_date::setDate`: `newDate = atol(term)`, stored in a `uint32_t`. -/
def NavIC_date.setDate (term : List Nat) (d : NavIC_date) : NavIC_date :=
  { d with newDate := toUint32 (atol term) }

/-- `NavIC_date::year`: the value returned and the object after the call. -/
def NavIC_date.year (d : NavIC_date) : Nat × NavIC_date :=
  (((d.date % 100) % 65536 + 2000) % 65536, { d with updated := false })

/-- `NavIC_date::month`. -/
def NavIC_date.month (d : NavIC_date) : Nat × NavIC_date :=
  (((d.date / 100) % 100) % 256, { d with updated := false })

/-- `NavIC_date::day`. -/
def NavIC_date.day (d : NavIC_date) : Nat × NavIC_date :=
  ((d.date / 10000) % 256, { d with updated := false })

/-- `NavIC_time::hour`. -/
def NavIC_time.hour (t : NavIC_time) : Nat × NavIC_time :=
  ((t.time / 1000000) % 256, { t with updated := false })

/-- `NavIC_time::minute`. -/
def NavIC_time.minute (t : NavIC_time) : Nat × NavIC_time :=
  (((t.time / 10000) % 100) % 256, { t with updated := false })

/-- `NavIC_time::second`. -/
def NavIC_time.second (t : NavIC_time) : Nat × NavIC_time :=
  (((t.time / 100) % 100) % 256, { t with updated := false })

/-- `NavIC_time::centisecond`. -/
def NavIC_time.centisecond (t : NavIC_time) : Nat × NavIC_time :=
  ((t.time % 100) % 256, { t with updated := false })

/-- `NavIC_Location::rawLat`. -/
def NavIC_Location.rawLat (l : NavIC_Location) : RawDegrees × NavIC_Location :=
  (l.rawLatData, { l with updated := false })

/-- `NavIC_Location::rawLng`. -/
def NavIC_Location.rawLng (l : NavIC_Location) : RawDegrees × NavIC_Location :=
  (l.rawLngData, { l with updated := false })

/-- `NavIC_decimal::commit`. -/
def NavIC_decimal.commit (now : Nat) (d : NavIC_decimal) : NavIC_decimal :=
  { d with val := d.newval, lastCommitTime := now, valid := true, updated := true }

/-- `NavIC_decimal::set`. -/
def NavIC_decimal.set (term : List Nat) (d : NavIC_decimal) : NavIC_decimal :=
  { d with newval := parseDecimal term }

/-- `NavIC_decimal::value`. -/
def NavIC_decimal.value (d : NavIC_decimal) : Int × NavIC_decimal :=
  (d.val, { d with updated := false })

/-- `NavIC_integer::commit`. -/
def NavIC_integer.commit (now : Nat) (d : NavIC_integer) : NavIC_integer :=
  { d with val := d.newval, lastCommitTime := now, valid := true, updated := true }

/-- `NavIC_integer::set`: `newval = atol(term)`, stored in a `uint32_t`. -/
def NavIC_integer.set (term : List Nat) (d : NavIC_integer) : NavIC_integer :=
  { d with newval := toUint32 (atol term) }

/-- `NavIC_CUSTOM::commit`: `strcpy(buffer, stagingBuffer)`. -/
def NavIC_CUSTOM.commit (now : Nat) (p : NavIC_CUSTOM) : NavIC_CUSTOM :=
  { p with buffer := p.stagingBuffer, lastCommitTime := now, valid := true, updated := true }

/-- `NavIC_CUSTOM::set`: `strncpy(stagingBuffer, term, sizeof(stagingBuffer))`
with a 16-byte staging buffer. -/
def NavIC_CUSTOM.set (term : List Nat) (p : NavIC_CUSTOM) : NavIC_CUSTOM :=
  { p with stagingBuffer := term.take 16 }

/-! ## The custom-field registry -/

/-- `navic_gn_rmc_gga::insertCustom` on the registry list: the new descriptor
goes in front of the first entry with a greater name, or an equal name and a
greater term number. -/
def insertCustom (pElt : NavIC_CUSTOM) (sentenceName : List Nat) (termNumber : Int) :
    List NavIC_CUSTOM → List NavIC_CUSTOM
  | [] => [pElt]
  | e :: rest =>
    let cmp := strcmp sentenceName e.sentenceName
    if cmp < 0 ∨ (cmp = 0 ∧ termNumber < e.termNumber) then pElt :: e :: rest
    else e :: insertCustom pElt sentenceName termNumber rest

/-- The position at which `insertCustom` links the new descriptor. -/
def insertPos (sentenceName : List Nat) (termNumber : Int) : List NavIC_CUSTOM → Nat
  | [] => 0
  | e :: rest =>
    let cmp := strcmp sentenceName e.sentenceName
    if cmp < 0 ∨ (cmp = 0 ∧ termNumber < e.termNumber) then 0
    else insertPos sentenceName termNumber rest + 1

/-- `NavIC_CUSTOM::begin` (also the registering constructor): a descriptor with
cleared buffers is linked into the registry of the decoder.  The descriptor
`customCandidates` points to keeps its identity, so its position moves by one
when the new descriptor is linked in front of it. -/
def NavIC_CUSTOM.begin (navic : navic_gn_rmc_gga) (_sentenceName : List Nat)
    (_termNumber : Int) : navic_gn_rmc_gga :=
  let p : NavIC_CUSTOM :=
    { stagingBuffer := [], buffer := [], lastCommitTime := 0, valid := false,
      updated := false, sentenceName := _sentenceName, termNumber := _termNumber }
  { navic with
    customElts := insertCustom p _sentenceName _termNumber navic.customElts
    customCandidates :=
      navic.customCandidates.map
        (fun i => if insertPos _sentenceName _termNumber navic.customElts ≤ i then i + 1 else i) }

/-- The loop `for (p = customCandidates; p != NULL && strcmp(p->sentenceName,
customCandidates->sentenceName) == 0; p = p->next) p->commit();` from the
descriptor `p` on, `name` being `customCandidates->sentenceName`. -/
def commitLoop (now : Nat) (name : List Nat) : List NavIC_CUSTOM → List NavIC_CUSTOM
  | [] => []
  | p :: ps =>
    if strcmp p.sentenceName name = 0 then p.commit now :: commitLoop now name ps
    else p :: ps

/-- The commit loop of `endOfTermHandler` on the registry: the descriptors in
front of `customCandidates` are not visited. -/
def commitCustom (now : Nat) (elts : List NavIC_CUSTOM) : Option Nat → List NavIC_CUSTOM
  | none => elts
  | some i =>
    match elts.drop i with
    | [] => elts
    | c :: rest => elts.take i ++ commitLoop now c.sentenceName (c :: rest)

/-- The loop `for (p = customCandidates; p != NULL && strcmp(...) == 0 &&
p->termNumber <= curTermNumber; p = p->next) if (p->termNumber == curTermNumber)
p->set(term);` from the descriptor `p` on. -/
def setLoop (name : List Nat) (curTermNumber : Nat) (term : List Nat) :
    List NavIC_CUSTOM → List NavIC_CUSTOM
  | [] => []
  | p :: ps =>
    if strcmp p.sentenceName name = 0 ∧ p.termNumber ≤ (curTermNumber : Int) then
      (if p.termNumber = (curTermNumber : Int) then p.set term else p)
        :: setLoop name curTermNumber term ps
    else p :: ps

/-- The staging loop of `endOfTermHandler` on the registry. -/
def setCustom (curTermNumber : Nat) (term : List Nat) (elts : List NavIC_CUSTOM) :
    Option Nat → List NavIC_CUSTOM
  | none => elts
  | some i =>
    match elts.drop i with
    | [] => elts
    | c :: rest => elts.take i ++ setLoop c.sentenceName curTermNumber term (c :: rest)

/-- The scan `for (customCandidates = customElts; customCandidates != NULL &&
strcmp(customCandidates->sentenceName, term) < 0; customCandidates =
customCandidates->next);`: the position reached, counted from `i`, or `none`
for the end of the list. -/
def scanCandidates (term : List Nat) : List NavIC_CUSTOM → Nat → Option Nat
  | [], _ => none
  | p :: ps, i => if strcmp p.sentenceName term < 0 then scanCandidates term ps (i + 1) else some i

/-- The candidate search of `endOfTermHandler`: the scan, then
`if (customCandidates != NULL && strcmp(customCandidates->sentenceName, term) > 0)
customCandidates = NULL;`. -/
def findCandidates (term : List Nat) (elts : List NavIC_CUSTOM) : Option Nat :=
  match scanCandidates term elts 0 with
  | none => none
  | some i =>
    match elts.drop i with
    | [] => none
    | c :: _ => if strcmp c.sentenceName term > 0 then none else some i

/-! ## The decoder -/

/-- The constructor `navic_gn_rmc_gga::navic_gn_rmc_gga()`.  Members the
constructors leave uninitialised (pending values, commit times, the term
buffer past its first byte) are zero, as for an object with static storage. -/
def init : navic_gn_rmc_gga :=
  { location :=
      { valid := false, updated := false,
        rawLatData := { deg := 0, billionths := 0, negative := false },
        rawLngData := { deg := 0, billionths := 0, negative := false },
        rawNewLatData := { deg := 0, billionths := 0, negative := false },
        rawNewLngData := { deg := 0, billionths := 0, negative := false },
        lastCommitTime := 0 }
    date := { valid := false, updated := false, date := 0, newDate := 0, lastCommitTime := 0 }
    time := { valid := false, updated := false, time := 0, newTime := 0, lastCommitTime := 0 }
    speed := { valid := false, updated := false, lastCommitTime := 0, val := 0, newval := 0 }
    course := { valid := false, updated := false, lastCommitTime := 0, val := 0, newval := 0 }
    altitude := { valid := false, updated := false, lastCommitTime := 0, val := 0, newval := 0 }
    satellites := { valid := false, updated := false, lastCommitTime := 0, val := 0, newval := 0 }
    hdop := { valid := false, updated := false, lastCommitTime := 0, val := 0, newval := 0 }
    parity := 0
    isChecksumTerm := false
    term := fun _ => 0
    curSentenceType := NAVIC_SENTENCE_OTHER
    curTermNumber := 0
    curTermOffset := 0
    sentenceHasFix := false
    customElts := []
    customCandidates := none
    encodedCharCount := 0
    sentencesWithFixCount := 0
    failedChecksumCount := 0
    passedChecksumCount := 0 }

/-- The macro `COMBINE(sentence_type, term_number)`. -/
def COMBINE (sentence_type term_number : Nat) : Nat := (sentence_type <<< 5) ||| term_number

/-- The commit `switch (curSentenceType)` of `endOfTermHandler`. -/
def commitBuiltin (now : Nat) (s : navic_gn_rmc_gga) : navic_gn_rmc_gga :=
  if s.curSentenceType = NAVIC_SENTENCE_GNRMC then
    let s := { s with date := s.date.commit now, time := s.time.commit now }
    if s.sentenceHasFix then
      { s with
        location := s.location.commit now
        speed := s.speed.commit now
        course := s.course.commit now }
    else s
  else if s.curSentenceType = NAVIC_SENTENCE_GNGGA then
    let s := { s with time := s.time.commit now }
    let s :=
      if s.sentenceHasFix then
        { s with location := s.location.commit now, altitude := s.altitude.commit now }
      else s
    { s with satellites := s.satellites.commit now, hdop := s.hdop.commit now }
  else s

/-- The cases of the dispatch `switch` of `endOfTermHandler` for the value `key`
of the switch expression, `term` being the C string in the term buffer and
`term0` its first byte. -/
def dispatchKey (key : Nat) (term : List Nat) (term0 : Nat) (s : navic_gn_rmc_gga) :
    navic_gn_rmc_gga :=
  if key = COMBINE NAVIC_SENTENCE_GNRMC 1 ∨ key = COMBINE NAVIC_SENTENCE_GNGGA 1 then
    { s with time := s.time.setTime term }
  else if key = COMBINE NAVIC_SENTENCE_GNRMC 2 then
    { s with sentenceHasFix := decide (term0 = 65) }
  else if key = COMBINE NAVIC_SENTENCE_GNRMC 3 ∨ key = COMBINE NAVIC_SENTENCE_GNGGA 2 then
    { s with location := s.location.setLatitude term }
  else if key = COMBINE NAVIC_SENTENCE_GNRMC 4 ∨ key = COMBINE NAVIC_SENTENCE_GNGGA 3 then
    { s with location :=
        { s.location with
          rawNewLatData := { s.location.rawNewLatData with negative := decide (term0 = 83) } } }
  else if key = COMBINE NAVIC_SENTENCE_GNRMC 5 ∨ key = COMBINE NAVIC_SENTENCE_GNGGA 4 then
    { s with location := s.location.setLongitude term }
  else if key = COMBINE NAVIC_SENTENCE_GNRMC 6 ∨ key = COMBINE NAVIC_SENTENCE_GNGGA 5 then
    { s with location :=
        { s.location with
          rawNewLngData := { s.location.rawNewLngData with negative := decide (term0 = 87) } } }
  else if key = COMBINE NAVIC_SENTENCE_GNRMC 7 then
    { s with speed := s.speed.set term }
  else if key = COMBINE NAVIC_SENTENCE_GNRMC 8 then
    { s with course := s.course.set term }
  else if key = COMBINE NAVIC_SENTENCE_GNRMC 9 then
    { s with date := s.date.setDate term }
  else if key = COMBINE NAVIC_SENTENCE_GNGGA 6 then
    { s with sentenceHasFix := decide (term0 > 48) }
  else if key = COMBINE NAVIC_SENTENCE_GNGGA 7 then
    { s with satellites := s.satellites.set term }
  else if key = COMBINE NAVIC_SENTENCE_GNGGA 8 then
    { s with hdop := s.hdop.set term }
  else if key = COMBINE NAVIC_SENTENCE_GNGGA 9 then
    { s with altitude := s.altitude.set term }
  else s

/-- The dispatch `switch (COMBINE(curSentenceType, curTermNumber))` of
`endOfTermHandler`. -/
def dispatch (term : List Nat) (term0 : Nat) (s : navic_gn_rmc_gga) : navic_gn_rmc_gga :=
  dispatchKey (COMBINE s.curSentenceType s.curTermNumber) term term0 s

/-- The statement `passedChecksumCount++`. -/
def countPassed (s : navic_gn_rmc_gga) : navic_gn_rmc_gga :=
  { s with passedChecksumCount := (s.passedChecksumCount + 1) % 4294967296 }

/-- The statement `if (sentenceHasFix) ++sentencesWithFixCount;`. -/
def countFix (s : navic_gn_rmc_gga) : navic_gn_rmc_gga :=
  if s.sentenceHasFix then
    { s with sentencesWithFixCount := (s.sentencesWithFixCount + 1) % 4294967296 }
  else s

/-- The loop that commits the custom listeners of the sentence. -/
def commitCustoms (now : Nat) (s : navic_gn_rmc_gga) : navic_gn_rmc_gga :=
  { s with customElts := commitCustom now s.customElts s.customCandidates }

/-- The checksum-passed block of `endOfTermHandler` (the body of
`if (checksum == parity)`): counters, built-in commits, custom commits. -/
def commitSentence (now : Nat) (s : navic_gn_rmc_gga) : navic_gn_rmc_gga :=
  commitCustoms now (commitBuiltin now (countFix (countPassed s)))

/-- The checksum-term block of `endOfTermHandler` (the body of
`if (isChecksumTerm)`), `term0` and `term1` being `term[0]` and `term[1]`. -/
def checksumTerm (now : Nat) (term0 term1 : Nat) (s : navic_gn_rmc_gga) :
    Bool × navic_gn_rmc_gga :=
  let checksum : Int := (16 * fromHex term0 + fromHex term1) % 256
  if checksum = (s.parity : Int) then (true, commitSentence now s)
  else (false, { s with failedChecksumCount := (s.failedChecksumCount + 1) % 4294967296 })

/-- The first-term block of `endOfTermHandler` (the body of
`if (curTermNumber == 0)`), `term` being the C string in the term buffer. -/
def firstTerm (term : List Nat) (s : navic_gn_rmc_gga) : navic_gn_rmc_gga :=
  let curSentenceType :=
    if strcmp term _GNRMCterm = 0 then NAVIC_SENTENCE_GNRMC
    else if strcmp term _GNGGAterm = 0 then NAVIC_SENTENCE_GNGGA
    else NAVIC_SENTENCE_OTHER
  { s with
    curSentenceType := curSentenceType
    customCandidates := findCandidates term s.customElts }

/-- The rest of `endOfTermHandler` (a term that is neither the checksum nor the
first): built-in dispatch, then custom staging; `term` is the C string in the
term buffer and `term0` its first byte. -/
def dataTerm (term : List Nat) (term0 : Nat) (s : navic_gn_rmc_gga) : navic_gn_rmc_gga :=
  let s :=
    if s.curSentenceType ≠ NAVIC_SENTENCE_OTHER ∧ term0 ≠ 0 then dispatch term term0 s
    else s
  { s with customElts := setCustom s.curTermNumber term s.customElts s.customCandidates }

/-- `navic_gn_rmc_gga::endOfTermHandler`: processes a just-completed term;
returns true if a sentence has just passed the checksum test. -/
def endOfTermHandler (now : Nat) (s : navic_gn_rmc_gga) : Bool × navic_gn_rmc_gga :=
  if s.isChecksumTerm then checksumTerm now (s.term 0) (s.term 1) s
  else if s.curTermNumber = 0 then (false, firstTerm (cstr s.term) s)
  else (false, dataTerm (cstr s.term) (s.term 0) s)

/-- The statement `parity ^= (uint8_t)c` of `case ','`, which the other
terminators do not execute. -/
def terminatorParity (c : Nat) (s : navic_gn_rmc_gga) : navic_gn_rmc_gga :=
  if c = 44 then { s with parity := (s.parity ^^^ 44) % 256 } else s

/-- The statement `term[curTermOffset] = 0`. -/
def terminateTerm (s : navic_gn_rmc_gga) : navic_gn_rmc_gga :=
  { s with term := Function.update s.term s.curTermOffset 0 }

/-- The statements `++curTermNumber; curTermOffset = 0; isChecksumTerm = c == '*';`. -/
def nextTerm (c : Nat) (s : navic_gn_rmc_gga) : navic_gn_rmc_gga :=
  { s with
    curTermNumber := (s.curTermNumber + 1) % 256
    curTermOffset := 0
    isChecksumTerm := decide (c = 42) }

/-- The term-terminator case of `encode` (`','`, CR, LF, `'*'`), after the
character count has been incremented. -/
def encodeTerminator (now : Nat) (c : Nat) (s : navic_gn_rmc_gga) : Bool × navic_gn_rmc_gga :=
  let s := terminatorParity c s
  let r := if s.curTermOffset < 15 then endOfTermHandler now (terminateTerm s) else (false, s)
  (r.1, nextTerm c r.2)

/-- The sentence-begin case of `encode` (`'$'`). -/
def encodeBegin (s : navic_gn_rmc_gga) : navic_gn_rmc_gga :=
  { s with
    curTermNumber := 0
    curTermOffset := 0
    parity := 0
    curSentenceType := NAVIC_SENTENCE_OTHER
    isChecksumTerm := false
    sentenceHasFix := false }

/-- The default case of `encode` (ordinary characters). -/
def encodeOrdinary (c : Nat) (s : navic_gn_rmc_gga) : navic_gn_rmc_gga :=
  let s :=
    if s.curTermOffset < 14 then
      { s with
        term := Function.update s.term s.curTermOffset c
        curTermOffset := s.curTermOffset + 1 }
    else s
  if s.isChecksumTerm then s else { s with parity := (s.parity ^^^ c) % 256 }

/-- The statement `++encodedCharCount`. -/
def countChar (s : navic_gn_rmc_gga) : navic_gn_rmc_gga :=
  { s with encodedCharCount := (s.encodedCharCount + 1) % 4294967296 }

/-- `navic_gn_rmc_gga::encode`: processes one character; `now` is the reading
of `millis()` during the call. -/
def encode (now : Nat) (c : Nat) (s : navic_gn_rmc_gga) : Bool × navic_gn_rmc_gga :=
  let s := countChar s
  if c = 44 ∨ c = 13 ∨ c = 10 ∨ c = 42 then encodeTerminator now c s
  else if c = 36 then (false, encodeBegin s)
  else (false, encodeOrdinary c s)

/-- Feeding a sequence of characters, one `encode` call each; `clock k` is the
reading of `millis()` during the `k`-th call. -/
def feed (clock : Nat → Nat) : List Nat → navic_gn_rmc_gga → navic_gn_rmc_gga
  | [], s => s
  | c :: cs, s => feed (fun k => clock (k + 1)) cs (encode (clock 0) c s).2

/-- The values returned by the `encode` calls of `feed`, in order. -/
def results (clock : Nat → Nat) : List Nat → navic_gn_rmc_gga → List Bool
  | [], _ => []
  | c :: cs, s => (encode (clock 0) c s).1 :: results (fun k => clock (k + 1)) cs (encode (clock 0) c s).2

/-! ## Observations used by the statements -/

/-- What a caller can read of a location: the valid and updated flags, the
committed coordinates and the commit time (not the pending coordinates). -/
def NavIC_Location.visible (l : NavIC_Location) : Bool × Bool × RawDegrees × RawDegrees × Nat :=
  (l.valid, l.updated, l.rawLatData, l.rawLngData, l.lastCommitTime)

/-- The committed side of a date. -/
def NavIC_date.visible (d : NavIC_date) : Bool × Bool × Nat × Nat :=
  (d.valid, d.updated, d.date, d.lastCommitTime)

/-- The committed side of a time. -/
def NavIC_time.visible (t : NavIC_time) : Bool × Bool × Nat × Nat :=
  (t.valid, t.updated, t.time, t.lastCommitTime)

/-- The committed side of a decimal field. -/
def NavIC_decimal.visible (d : NavIC_decimal) : Bool × Bool × Int × Nat :=
  (d.valid, d.updated, d.val, d.lastCommitTime)

/-- The committed side of an integer field. -/
def NavIC_integer.visible (d : NavIC_integer) : Bool × Bool × Nat × Nat :=
  (d.valid, d.updated, d.val, d.lastCommitTime)

/-- The committed side of a custom descriptor. -/
def NavIC_CUSTOM.visible (p : NavIC_CUSTOM) : Bool × Bool × List Nat × Nat :=
  (p.valid, p.updated, p.buffer, p.lastCommitTime)

/-- The committed side of a decoder: that of each built-in field and of each
registered custom descriptor, in registry order. -/
structure Committed where
  location : Bool × Bool × RawDegrees × RawDegrees × Nat
  date : Bool × Bool × Nat × Nat
  time : Bool × Bool × Nat × Nat
  speed : Bool × Bool × Int × Nat
  course : Bool × Bool × Int × Nat
  altitude : Bool × Bool × Int × Nat
  satellites : Bool × Bool × Nat × Nat
  hdop : Bool × Bool × Int × Nat
  custom : List (Bool × Bool × List Nat × Nat)

/-- The committed side of the decoder `s`. -/
def committed (s : navic_gn_rmc_gga) : Committed :=
  { location := s.location.visible
    date := s.date.visible
    time := s.time.visible
    speed := s.speed.visible
    course := s.course.visible
    altitude := s.altitude.visible
    satellites := s.satellites.visible
    hdop := s.hdop.visible
    custom := s.customElts.map NavIC_CUSTOM.visible }

/-- The XOR of the bytes of a sentence body. -/
def xorAll (body : List Nat) : Nat := body.foldl (fun p c => p ^^^ c) 0

/-- The character `c` is a hexadecimal digit, upper or lower case, of value `v`. -/
def isHexOf (v c : Nat) : Prop :=
  (v < 10 ∧ c = 48 + v) ∨ (10 ≤ v ∧ v < 16 ∧ (c = 55 + v ∨ c = 87 + v))

instance (v c : Nat) : Decidable (isHexOf v c) := by unfold isHexOf; infer_instance

/-- The parser state and counters a character-level scan keeps track of:
parity, checksum-term flag, and the three sentence counters. -/
def ctl (s : navic_gn_rmc_gga) : Nat × Bool × Nat × Nat × Nat :=
  (s.parity, s.isChecksumTerm, s.passedChecksumCount, s.failedChecksumCount,
    s.sentencesWithFixCount)

/-- The parity byte after the characters of `body`, starting from `p`. -/
def parityFold (p : Nat) (body : List Nat) : Nat := body.foldl (fun p c => (p ^^^ c) % 256) p

/-- An ordinary character: none of the five characters `encode` singles out. -/
def isOrdinary (c : Nat) : Prop := c ≠ 44 ∧ c ≠ 13 ∧ c ≠ 10 ∧ c ≠ 42 ∧ c ≠ 36

/-- The text "GNRMC,123519,A,4807.038,N,01131.000,E,022.4,084.4,230394,003.1,W",
the body of the worked example of the specification. -/
def exampleBody : List Nat :=
  [71, 78, 82, 77, 67, 44, 49, 50, 51, 53, 49, 57, 44, 65, 44, 52, 56, 48, 55, 46, 48, 51,
    56, 44, 78, 44, 48, 49, 49, 51, 49, 46, 48, 48, 48, 44, 69, 44, 48, 50, 50, 46, 52, 44, 48,
    56, 52, 46, 52, 44, 50, 51, 48, 51, 57, 52, 44, 48, 48, 51, 46, 49, 44, 87]

/-- The worked example as a sentence: `'$'`, `exampleBody`, `'*'`, the checksum
digits "74" of the body, CR, LF. -/
def exampleSentence : List Nat := 36 :: (exampleBody ++ [42, 55, 52, 13, 10])

/-- A decoder with one registered custom descriptor ("GNRMC", term 7) that has
decoded `exampleSentence`, the `k`-th call at time `1000 + k`. -/
def exampleDecoder : navic_gn_rmc_gga :=
  feed (fun k => 1000 + k) exampleSentence (NavIC_CUSTOM.begin init _GNRMCterm 7)

/-- Every character of the text is a decimal digit. -/
def allDigits (l : List Nat) : Prop := ∀ c ∈ l, isdigit c = true

instance (l : List Nat) : Decidable (allDigits l) := by unfold allDigits; infer_instance

/-- The value of a string of decimal digits (0 for the empty string). -/
def decimalValue (l : List Nat) : Nat := l.foldl (fun a c => 10 * a + (c - 48)) 0

/-- The text `[-] I [. F]`: an optional minus sign, the integer digits `I`, and
an optional decimal point followed by the fraction digits `F`. -/
def decimalText (neg : Bool) (I : List Nat) (F : Option (List Nat)) : List Nat :=
  (if neg then [45] else []) ++ I ++ (match F with | none => [] | some f => 46 :: f)

/-- The hundredths `10 * f1 + f2` given by the first two fraction digits (0 for
an absent digit); later digits are ignored. -/
def fracHundredths (F : Option (List Nat)) : Nat :=
  10 * ((F.getD []).getD 0 48 - 48) + ((F.getD []).getD 1 48 - 48)

/-- The reference value `s * (100 * value(I) + 10 * f1 + f2)`. -/
def decimalReference (neg : Bool) (I : List Nat) (F : Option (List Nat)) : Int :=
  (if neg then -1 else 1) * ((100 * decimalValue I + fracHundredths F : Nat) : Int)

/-- The decoder with its scanner state blanked: what is left is what the
completed terms of a sentence have produced (fields, sentence type, term
number, fix flag, registry, candidates, sentence counters). -/
def sem (s : navic_gn_rmc_gga) : navic_gn_rmc_gga :=
  { s with
    term := fun _ => 0
    curTermOffset := 0
    parity := 0
    encodedCharCount := 0
    isChecksumTerm := false }

/-- The term buffer after the ordinary characters `t` have been received from
offset `o` on: characters past index 13 are dropped. -/
def written (T : Nat → Nat) : Nat → List Nat → Nat → Nat
  | _, [] => T
  | o, c :: cs => if o < 14 then written (Function.update T o c) (o + 1) cs else T

/-- The term offset after the ordinary characters `t` have been received from
offset `o` on. -/
def offsetAfter : Nat → List Nat → Nat
  | o, [] => o
  | o, _ :: cs => if o < 14 then offsetAfter (o + 1) cs else o

/-- What a completed term (neither the checksum term nor cut by a `'$'`) does
to the decoder, the text `t` of the term being given: the term-completion
handler on the first 14 characters, then the move to the next term. -/
def termStep (t : List Nat) (s : navic_gn_rmc_gga) : navic_gn_rmc_gga :=
  nextTerm 44
    (if s.curTermNumber = 0 then firstTerm (t.take 14) s
      else dataTerm (t.take 14) (t.headD 0) s)

/-- A character of a well-formed term: an ASCII character other than NUL and
the five characters `encode` singles out. -/
def isFieldChar (c : Nat) : Prop :=
  c ≠ 0 ∧ c < 128 ∧ c ≠ 44 ∧ c ≠ 13 ∧ c ≠ 10 ∧ c ≠ 42 ∧ c ≠ 36

instance (c : Nat) : Decidable (isFieldChar c) := by unfold isFieldChar; infer_instance

/-- A well-formed term: field characters only (any length, possibly empty). -/
def isField (t : List Nat) : Prop := ∀ c ∈ t, isFieldChar c

instance (t : List Nat) : Decidable (isField t) := by unfold isField; infer_instance

/-- The body of a sentence: the terms, the first being `t`, separated by commas. -/
def bodyOf (t : List Nat) : List (List Nat) → List Nat
  | [] => t
  | u :: us => t ++ 44 :: bodyOf u us

/-- The characters of a sentence up to the carriage return: `'$'`, the name,
the terms `ts` each preceded by a comma, `'*'`, the two checksum characters
`h1` and `h2`, CR. -/
def sentence (name : List Nat) (ts : List (List Nat)) (h1 h2 : Nat) : List Nat :=
  36 :: (bodyOf name ts ++ [42, h1, h2, 13])

/-- The term-level run: `termStep` for each term in turn. -/
def runTerms (s : navic_gn_rmc_gga) (ts : List (List Nat)) : navic_gn_rmc_gga :=
  ts.foldl (fun s t => termStep t s) s

/-- The eight built-in fields of the decoder, pending and committed sides. -/
def fields (s : navic_gn_rmc_gga) : NavIC_Location × NavIC_date × NavIC_time × NavIC_decimal ×
    NavIC_decimal × NavIC_decimal × NavIC_integer × NavIC_decimal :=
  (s.location, s.date, s.time, s.speed, s.course, s.altitude, s.satellites, s.hdop)

/-- The three sentence counters. -/
def counters (s : navic_gn_rmc_gga) : Nat × Nat × Nat :=
  (s.passedChecksumCount, s.failedChecksumCount, s.sentencesWithFixCount)

/-- The built-in dispatch of `dataTerm`: the `switch`, guarded by
`curSentenceType != NAVIC_SENTENCE_OTHER && term[0]`. -/
def dispatched (term : List Nat) (term0 : Nat) (s : navic_gn_rmc_gga) : navic_gn_rmc_gga :=
  if s.curSentenceType ≠ NAVIC_SENTENCE_OTHER ∧ term0 ≠ 0 then dispatch term term0 s else s

/-- The terms after the name in the worked example: "123519", "A", "4807.038",
"N", "01131.000", "E", "022.4", "084.4", "230394", "003.1", "W". -/
def exampleTerms : List (List Nat) :=
  [[49, 50, 51, 53, 49, 57], [65], [52, 56, 48, 55, 46, 48, 51, 56], [78],
    [48, 49, 49, 51, 49, 46, 48, 48, 48], [69], [48, 50, 50, 46, 52], [48, 56, 52, 46, 52],
    [50, 51, 48, 51, 57, 52], [48, 48, 51, 46, 49], [87]]

/-- The terms after the name of the GGA sentence "$GNGGA,123519,4807.038,N,
01131.000,E,1,08,0.9,545.4,M,46.9,M,,*59". -/
def exampleGgaTerms : List (List Nat) :=
  [[49, 50, 51, 53, 49, 57], [52, 56, 48, 55, 46, 48, 51, 56], [78],
    [48, 49, 49, 51, 49, 46, 48, 48, 48], [69], [49], [48, 56], [48, 46, 57],
    [53, 52, 53, 46, 52], [77], [52, 54, 46, 57], [77], [], []]

/-- A GNRMC sentence whose first term is negative and whose term 7 has 16
characters: "-1", "A", "4807.038", "N", "01131.000", "E", "00000000000012.5",
"084.4", "230394", "003.1", "W" (checksum "57"). -/
def oversizedTerms : List (List Nat) :=
  [[45, 49], [65], [52, 56, 48, 55, 46, 48, 51, 56], [78],
    [48, 49, 49, 51, 49, 46, 48, 48, 48], [69],
    [48, 48, 48, 48, 48, 48, 48, 48, 48, 48, 48, 48, 49, 50, 46, 53], [48, 56, 52, 46, 52],
    [50, 51, 48, 51, 57, 52], [48, 48, 51, 46, 49], [87]]

/-- The key of a descriptor: sentence name and term number. -/
def key (p : NavIC_CUSTOM) : List Nat × Int := (p.sentenceName, p.termNumber)

/-- The order `insertCustom` keeps: by name (`strcmp`), then by term number. -/
def keyLe (a b : List Nat × Int) : Prop :=
  strcmp a.1 b.1 < 0 ∨ (a.1 = b.1 ∧ a.2 ≤ b.2)

/-- The registry obtained by registering, in this order, descriptors with the
given names and term numbers (`NavIC_CUSTOM::begin` on an empty registry). -/
def register (regs : List (List Nat × Int)) : List NavIC_CUSTOM :=
  regs.foldl (fun l r => (NavIC_CUSTOM.begin { init with customElts := l } r.1 r.2).customElts) []

/-- What the staging loop of one data term does to a descriptor of a sorted
registry: the term is staged in the descriptors of the sentence's name whose
term number is the current one. -/
def stageAt (name : List Nat) (cur : Nat) (term : List Nat) (p : NavIC_CUSTOM) : NavIC_CUSTOM :=
  if p.sentenceName = name ∧ p.termNumber = (cur : Int) then p.set term else p

/-- What the commit loop does to a descriptor of a sorted registry. -/
def commitAt (now : Nat) (name : List Nat) (p : NavIC_CUSTOM) : NavIC_CUSTOM :=
  if p.sentenceName = name then p.commit now else p

/-- The candidate cursor of a sentence named `name`: null when no descriptor
has this name, else the position of the first one that has it, the names
before being other names and the names after not smaller. -/
def candidateOf (name : List Nat) (elts : List NavIC_CUSTOM) : Option Nat → Prop
  | none => ∀ p ∈ elts, p.sentenceName ≠ name
  | some i =>
    (∀ p ∈ elts.take i, p.sentenceName ≠ name) ∧
    (∃ c R, elts.drop i = c :: R ∧ c.sentenceName = name) ∧
    ∀ p ∈ elts.drop i, ¬ strcmp p.sentenceName name < 0

/-- What the data terms `ts`, numbered from `k`, stage in a descriptor of a
sorted registry: the descriptors of the sentence's name whose term number is
in the range get the term of that number, the first 14 characters of it. -/
def stagedFrom (name : List Nat) (k : Nat) (ts : List (List Nat)) (p : NavIC_CUSTOM) :
    NavIC_CUSTOM :=
  if p.sentenceName = name ∧ (k : Int) ≤ p.termNumber ∧ p.termNumber < (k : Int) + ts.length
  then p.set ((ts.getD (p.termNumber.toNat - k) []).take 14)
  else p

/-- What a sentence with a correct checksum, name `name` in the term buffer
and data terms `ts` does to a descriptor of a sorted registry. -/
def customAfter (now : Nat) (name : List Nat) (ts : List (List Nat)) (p : NavIC_CUSTOM) :
    NavIC_CUSTOM :=
  commitAt now name (stagedFrom name 1 ts p)

/-- A decoder with two custom descriptors for "GNRMC", registered for term 7
and then for term 3. -/
def customDecoder : navic_gn_rmc_gga :=
  NavIC_CUSTOM.begin (NavIC_CUSTOM.begin init _GNRMCterm 7) _GNRMCterm 3

/-- The 16-character sentence name "ABCDEFGHIJKLMNOP". -/
def longName : List Nat := [65, 66, 67, 68, 69, 70, 71, 72, 73, 74, 75, 76, 77, 78, 79, 80]

/-- A decoder with one custom descriptor, for term 1 of sentences named
"ABCDEFGHIJKLMN" (14 characters). -/
def shortNameDecoder : navic_gn_rmc_gga :=
  NavIC_CUSTOM.begin init [65, 66, 67, 68, 69, 70, 71, 72, 73, 74, 75, 76, 77, 78] 1

/-- The weighted sum `Σ f_i * floor(10^7 / 10^i)` of the fraction digits, the
first digit of the list having index `i`. -/
def fractionWeight : List Nat → Nat → Nat
  | [], _ => 0
  | f :: fs, i => (f - 48) * (10000000 / 10 ^ i) + fractionWeight fs (i + 1)

/-- The minutes in ten-millionths of the text `L [. F]`:
`t = (value(L) mod 100) * 10^7 + Σ f_i * floor(10^7 / 10^i)`. -/
def degreesMinutes (L : List Nat) (F : Option (List Nat)) : Nat :=
  (decimalValue L % 100) * 10000000 + fractionWeight (F.getD []) 1

/-- The reference result of `parseDegrees` on the text `L [. F]`. -/
def degreesReference (L : List Nat) (F : Option (List Nat)) : RawDegrees :=
  { deg := (decimalValue L / 100) % 65536
    billionths := ((5 * degreesMinutes L F + 1) % 4294967296) / 3
    negative := false }

/-- The two decimal digits of a value below 100. -/
def twoDigits (n : Nat) : List Nat := [48 + n / 10, 48 + n % 10]

/-- The scanner variables the term-completion handler never writes, and the
two it writes only in its first-term block. -/
def scanner (s : navic_gn_rmc_gga) : Nat × Nat × Nat × (Nat → Nat) :=
  (s.encodedCharCount, s.curTermOffset, s.curTermNumber, s.term)

/-- The sentence type and the candidate cursor. -/
def sentenceKind (s : navic_gn_rmc_gga) : Nat × Option Nat :=
  (s.curSentenceType, s.customCandidates)

/-- One step of the counters: nothing, a pass (with a fix if `fix` is set), or
a failure, the counters being 32-bit. -/
def counterStep (fix : Bool) (c c2 : Nat × Nat × Nat) : Prop :=
  c2 = c ∨
  c2 = ((c.1 + 1) % 4294967296, c.2.1,
    if fix then (c.2.2 + 1) % 4294967296 else c.2.2) ∨
  c2 = (c.1, (c.2.1 + 1) % 4294967296, c.2.2)

/-- The statistics of a decoder that has processed `n` characters without
wrap-around: the character count is `n`, no more sentences with fix than
passed checksums, no more checksum terms than characters. -/
def statsInv (s : navic_gn_rmc_gga) (n : Nat) : Prop :=
  s.encodedCharCount = n ∧ s.sentencesWithFixCount ≤ s.passedChecksumCount ∧
  s.passedChecksumCount + s.failedChecksumCount ≤ n

/-- What one call of `encode` may do to the three sentence counters. -/
def singleCall (s s2 : navic_gn_rmc_gga) : Prop :=
  (s2.passedChecksumCount = s.passedChecksumCount ∨
    s2.passedChecksumCount = s.passedChecksumCount + 1) ∧
  (s2.failedChecksumCount = s.failedChecksumCount ∨
    s2.failedChecksumCount = s.failedChecksumCount + 1) ∧
  (s2.sentencesWithFixCount = s.sentencesWithFixCount ∨
    s2.sentencesWithFixCount = s.sentencesWithFixCount + 1) ∧
  (s2.passedChecksumCount = s.passedChecksumCount ∨
    s2.failedChecksumCount = s.failedChecksumCount) ∧
  (s2.sentencesWithFixCount ≠ s.sentencesWithFixCount →
    s2.passedChecksumCount = s.passedChecksumCount + 1 ∧ s.sentenceHasFix = true)

/-- The state on which the term-terminator case of `encode` runs the
term-completion handler: the character counted, the parity updated for a
comma, and the terminating NUL written at `term[curTermOffset]`. -/
def handlerInput (d : Nat) (s : navic_gn_rmc_gga) : navic_gn_rmc_gga :=
  terminateTerm (terminatorParity d (countChar s))

instance (c : Nat) : Decidable (isOrdinary c) := by unfold isOrdinary; infer_instance

/-- The descriptor `NavIC_CUSTOM::begin` links into the registry: cleared
buffers and flags, the given name and term number. -/
def descriptorOf (name : List Nat) (k : Int) : NavIC_CUSTOM :=
  { stagingBuffer := [], buffer := [], lastCommitTime := 0, valid := false,
    updated := false, sentenceName := name, termNumber := k }

/-- Ascending lexicographic order of (sentenceName, termIndex), the names
ordered lexicographically by character code. -/
def keyOrder (a b : List Nat × Int) : Prop :=
  List.Lex (fun x y : Nat => x < y) a.1 b.1 ∨ (a.1 = b.1 ∧ a.2 ≤ b.2)

/-- A descriptor for term 1 of "A" that a sentence has already filled. -/
def filledDescriptor : NavIC_CUSTOM :=
  { stagingBuffer := [120], buffer := [120], lastCommitTime := 5, valid := true,
    updated := true, sentenceName := [65], termNumber := 1 }

/-- The characters "$GNRMC,7,$GNRMC,": a sentence whose term 1 is "7", then the
start of a sentence up to the comma that ends its name. -/
def stagedThenName : List Nat :=
  [36, 71, 78, 82, 77, 67, 44, 55, 44, 36, 71, 78, 82, 77, 67, 44]

/-- The characters "$GNGGA", 33 commas and "1": a GGA sentence in its term 33,
the text "1" received. -/
def termThirtyThree : List Nat := 36 :: (_GNGGAterm ++ (List.replicate 33 44 ++ [49]))

/-- The characters "$GNGGA", 34 commas and "A": a GGA sentence in its term 34,
the text "A" received. -/
def termThirtyFour : List Nat := 36 :: (_GNGGAterm ++ (List.replicate 34 44 ++ [65]))

/-- The number of term-ending characters (`','`, CR, LF, `'*'`) in a text. -/
def terminatorCount (cs : List Nat) : Nat :=
  (cs.filter (fun c => decide (c = 44 ∨ c = 13 ∨ c = 10 ∨ c = 42))).length

/-- A decoder with one custom descriptor, for term 1 of sentences named "J". -/
def checksumDecoder : navic_gn_rmc_gga := NavIC_CUSTOM.begin init [74] 1

/-- The variable `tenMillionthsOfMinutes` of `navic_gn_rmc_gga::parseDegrees`
when the fraction loop has ended, just before `billionths` is computed. -/
def tenMillionthsOfMinutes (term : List Nat) : Nat :=
  let leftOfDecimal := toUint32 (atol term)
  let minutes := (leftOfDecimal % 100) % 65536
  let multiplier := 10000000
  let tenMillionthsOfMinutes := (minutes * multiplier) % 4294967296
  let term := term.dropWhile isdigit
  if term.getD 0 0 = 46 then parseDegreesLoop term.tail multiplier tenMillionthsOfMinutes
  else tenMillionthsOfMinutes

/-! ## Frame lemmas: what a call that returns false leaves alone -/

theorem setLoop_visible (name : List Nat) (n : Nat) (t : List Nat) (l : List NavIC_CUSTOM) :
    (setLoop name n t l).map NavIC_CUSTOM.visible = l.map NavIC_CUSTOM.visible := by
  induction l with
  | nil => rfl
  | cons p ps ih =>
    unfold setLoop
    split_ifs <;> simp [ih, NavIC_CUSTOM.visible, NavIC_CUSTOM.set]

theorem setCustom_visible (n : Nat) (t : List Nat) (l : List NavIC_CUSTOM) (cand : Option Nat) :
    (setCustom n t l cand).map NavIC_CUSTOM.visible = l.map NavIC_CUSTOM.visible := by
  cases cand with
  | none => rfl
  | some i =>
    simp only [setCustom]
    split
    · rfl
    · next c rest h =>
      rw [List.map_append, setLoop_visible, ← List.map_append, ← h, List.take_append_drop]

theorem prop_ite {α : Sort _} (P : α → Prop) (c : Prop) [Decidable c] (a b : α)
    (ha : P a) (hb : P b) : P (if c then a else b) := by
  split_ifs <;> assumption

theorem dispatchKey_ind (P : navic_gn_rmc_gga → Prop) (key : Nat) (t : List Nat) (t0 : Nat)
    (s : navic_gn_rmc_gga)
    (h0 : P s)
    (h1 : P { s with time := s.time.setTime t })
    (h2 : ∀ b, P { s with sentenceHasFix := b })
    (h3 : P { s with location := s.location.setLatitude t })
    (h4 : ∀ b, P { s with location :=
        { s.location with rawNewLatData := { s.location.rawNewLatData with negative := b } } })
    (h5 : P { s with location := s.location.setLongitude t })
    (h6 : ∀ b, P { s with location :=
        { s.location with rawNewLngData := { s.location.rawNewLngData with negative := b } } })
    (h7 : P { s with speed := s.speed.set t })
    (h8 : P { s with course := s.course.set t })
    (h9 : P { s with date := s.date.setDate t })
    (h10 : P { s with satellites := s.satellites.set t })
    (h11 : P { s with hdop := s.hdop.set t })
    (h12 : P { s with altitude := s.altitude.set t }) :
    P (dispatchKey key t t0 s) := by
  unfold dispatchKey
  refine prop_ite P _ _ _ h1 ?_
  refine prop_ite P _ _ _ (h2 _) ?_
  refine prop_ite P _ _ _ h3 ?_
  refine prop_ite P _ _ _ (h4 _) ?_
  refine prop_ite P _ _ _ h5 ?_
  refine prop_ite P _ _ _ (h6 _) ?_
  refine prop_ite P _ _ _ h7 ?_
  refine prop_ite P _ _ _ h8 ?_
  refine prop_ite P _ _ _ h9 ?_
  refine prop_ite P _ _ _ (h2 _) ?_
  refine prop_ite P _ _ _ h10 ?_
  refine prop_ite P _ _ _ h11 ?_
  refine prop_ite P _ _ _ h12 h0

theorem dispatch_committed (t : List Nat) (t0 : Nat) (s : navic_gn_rmc_gga) :
    committed (dispatch t t0 s) = committed s := by
  unfold dispatch
  apply dispatchKey_ind (fun x => committed x = committed s) <;> intros <;> rfl

theorem dataTerm_committed (t : List Nat) (t0 : Nat) (s : navic_gn_rmc_gga) :
    committed (dataTerm t t0 s) = committed s := by
  have key : ∀ (x : navic_gn_rmc_gga) (l : List NavIC_CUSTOM), committed x = committed s →
      l.map NavIC_CUSTOM.visible = x.customElts.map NavIC_CUSTOM.visible →
      committed { x with customElts := l } = committed s := by
    intro x l hx hl
    rw [← hx]
    simp only [committed, hl]
  unfold dataTerm
  refine key _ _ ?_ (setCustom_visible _ _ _ _)
  exact prop_ite (fun x => committed x = committed s) _ _ _ (dispatch_committed _ _ _) rfl

theorem checksumTerm_false_committed (now t0 t1 : Nat) (s : navic_gn_rmc_gga)
    (h : (checksumTerm now t0 t1 s).1 = false) :
    committed (checksumTerm now t0 t1 s).2 = committed s := by
  unfold checksumTerm at h ⊢
  by_cases h1 : ((16 * fromHex t0 + fromHex t1) % 256 : Int) = (s.parity : Int)
  · rw [if_pos h1] at h
    exact absurd h (by simp)
  · rw [if_neg h1]
    rfl

theorem handler_false_committed (now : Nat) (s : navic_gn_rmc_gga)
    (h : (endOfTermHandler now s).1 = false) :
    committed (endOfTermHandler now s).2 = committed s := by
  unfold endOfTermHandler at h ⊢
  by_cases hc : s.isChecksumTerm = true
  · rw [if_pos hc] at h ⊢
    exact checksumTerm_false_committed _ _ _ _ h
  · rw [if_neg hc]
    by_cases h0 : s.curTermNumber = 0
    · rw [if_pos h0]
      rfl
    · rw [if_neg h0]
      exact dataTerm_committed _ _ _

theorem encodeTerminator_false_committed (now c : Nat) (s : navic_gn_rmc_gga)
    (h : (encodeTerminator now c s).1 = false) :
    committed (encodeTerminator now c s).2 = committed s := by
  have hp : committed (terminatorParity c s) = committed s := by
    unfold terminatorParity
    exact prop_ite (fun x => committed x = committed s) _ _ _ rfl rfl
  unfold encodeTerminator at h ⊢
  dsimp only at h ⊢
  show committed (if (terminatorParity c s).curTermOffset < 15
    then endOfTermHandler now (terminateTerm (terminatorParity c s))
    else (false, terminatorParity c s)).2 = committed s
  by_cases ho : (terminatorParity c s).curTermOffset < 15
  · rw [if_pos ho] at h ⊢
    rw [handler_false_committed _ _ h]
    exact hp
  · rw [if_neg ho]
    exact hp

theorem encodeOrdinary_committed (c : Nat) (s : navic_gn_rmc_gga) :
    committed (encodeOrdinary c s) = committed s := by
  unfold encodeOrdinary
  by_cases h1 : s.curTermOffset < 14 <;> by_cases h2 : s.isChecksumTerm = true <;>
    simp only [h1, h2, if_true, if_false] <;> rfl

theorem encode_false_committed (now c : Nat) (s : navic_gn_rmc_gga)
    (h : (encode now c s).1 = false) :
    committed (encode now c s).2 = committed s := by
  unfold encode at h ⊢
  dsimp only at h ⊢
  by_cases hd : c = 44 ∨ c = 13 ∨ c = 10 ∨ c = 42
  · rw [if_pos hd] at h ⊢
    rw [encodeTerminator_false_committed _ _ _ h]
    rfl
  · rw [if_neg hd]
    by_cases h36 : c = 36
    · rw [if_pos h36]; rfl
    · rw [if_neg h36]
      exact encodeOrdinary_committed _ _
/-- C1 (staging isolation): whatever the decoder state and the character, a
call of `encode` that returns false leaves the committed value, the valid flag,
the updated flag and the commit time of every built-in field and of every
registered custom descriptor as they were. -/
theorem C1_staging_isolation (now c : Nat) (s : navic_gn_rmc_gga)
    (h : (encode now c s).1 = false) :
    committed (encode now c s).2 = committed s :=
  encode_false_committed now c s h

theorem dispatch_ctl (t : List Nat) (t0 : Nat) (s : navic_gn_rmc_gga) :
    (dispatch t t0 s).parity = s.parity ∧ (dispatch t t0 s).isChecksumTerm = s.isChecksumTerm ∧
    (dispatch t t0 s).passedChecksumCount = s.passedChecksumCount ∧
    (dispatch t t0 s).failedChecksumCount = s.failedChecksumCount ∧
    (dispatch t t0 s).sentencesWithFixCount = s.sentencesWithFixCount ∧
    (dispatch t t0 s).term = s.term ∧ (dispatch t t0 s).curTermOffset = s.curTermOffset ∧
    (dispatch t t0 s).curTermNumber = s.curTermNumber ∧
    (dispatch t t0 s).curSentenceType = s.curSentenceType ∧
    (dispatch t t0 s).customElts = s.customElts ∧
    (dispatch t t0 s).customCandidates = s.customCandidates ∧
    (dispatch t t0 s).encodedCharCount = s.encodedCharCount := by
  unfold dispatch
  apply dispatchKey_ind (fun x => x.parity = s.parity ∧ x.isChecksumTerm = s.isChecksumTerm ∧
    x.passedChecksumCount = s.passedChecksumCount ∧
    x.failedChecksumCount = s.failedChecksumCount ∧
    x.sentencesWithFixCount = s.sentencesWithFixCount ∧
    x.term = s.term ∧ x.curTermOffset = s.curTermOffset ∧
    x.curTermNumber = s.curTermNumber ∧
    x.curSentenceType = s.curSentenceType ∧
    x.customElts = s.customElts ∧
    x.customCandidates = s.customCandidates ∧
    x.encodedCharCount = s.encodedCharCount) <;> intros <;>
    exact ⟨rfl, rfl, rfl, rfl, rfl, rfl, rfl, rfl, rfl, rfl, rfl, rfl⟩

theorem dataTerm_ctl (t : List Nat) (t0 : Nat) (s : navic_gn_rmc_gga) :
    ctl (dataTerm t t0 s) = ctl s := by
  unfold dataTerm
  dsimp only
  by_cases h : s.curSentenceType ≠ NAVIC_SENTENCE_OTHER ∧ t0 ≠ 0
  · rw [if_pos h]
    obtain ⟨h1, h2, h3, h4, h5, -⟩ := dispatch_ctl t t0 s
    simp only [ctl, h1, h2, h3, h4, h5]
  · rw [if_neg h]
    rfl

theorem handler_ctl (now : Nat) (s : navic_gn_rmc_gga) (h : s.isChecksumTerm = false) :
    (endOfTermHandler now s).1 = false ∧ ctl (endOfTermHandler now s).2 = ctl s := by
  unfold endOfTermHandler
  rw [h]
  simp only [Bool.false_eq_true, if_false]
  by_cases h0 : s.curTermNumber = 0
  · rw [if_pos h0]
    exact ⟨rfl, by rw [← h]; rfl⟩
  · rw [if_neg h0]
    refine ⟨rfl, ?_⟩
    rw [← h]
    exact dataTerm_ctl _ _ _

theorem terminatorParity_ctl (c : Nat) (s : navic_gn_rmc_gga) :
    ctl (terminatorParity c s) =
      (if c = 44 then (s.parity ^^^ 44) % 256 else s.parity, s.isChecksumTerm,
        s.passedChecksumCount, s.failedChecksumCount, s.sentencesWithFixCount) ∧
    (terminatorParity c s).curTermOffset = s.curTermOffset ∧
    (terminatorParity c s).term = s.term ∧
    (terminatorParity c s).sentenceHasFix = s.sentenceHasFix := by
  unfold terminatorParity
  by_cases h : c = 44
  · rw [if_pos h, if_pos h]; exact ⟨rfl, rfl, rfl, rfl⟩
  · rw [if_neg h, if_neg h]; exact ⟨rfl, rfl, rfl, rfl⟩

theorem nextTerm_ctl (c : Nat) (s : navic_gn_rmc_gga) :
    ctl (nextTerm c s) =
      (s.parity, decide (c = 42), s.passedChecksumCount, s.failedChecksumCount,
        s.sentencesWithFixCount) := rfl

theorem encodeTerminator_scan (now c : Nat) (s : navic_gn_rmc_gga)
    (h : s.isChecksumTerm = false) :
    (encodeTerminator now c s).1 = false ∧
    ctl (encodeTerminator now c s).2 =
      (if c = 44 then (s.parity ^^^ 44) % 256 else s.parity, decide (c = 42),
        s.passedChecksumCount, s.failedChecksumCount, s.sentencesWithFixCount) ∧
    (encodeTerminator now c s).2.curTermOffset = 0 := by
  obtain ⟨p1, -⟩ := terminatorParity_ctl c s
  have hx : (terminatorParity c s).isChecksumTerm = false := by
    have := congrArg (fun q => q.2.1) p1
    exact this.trans h
  have main : (if (terminatorParity c s).curTermOffset < 15
        then endOfTermHandler now (terminateTerm (terminatorParity c s))
        else (false, terminatorParity c s)).1 = false ∧
      ctl (if (terminatorParity c s).curTermOffset < 15
        then endOfTermHandler now (terminateTerm (terminatorParity c s))
        else (false, terminatorParity c s)).2 = ctl (terminatorParity c s) := by
    by_cases ho : (terminatorParity c s).curTermOffset < 15
    · rw [if_pos ho]
      exact handler_ctl now _ hx
    · rw [if_neg ho]
      exact ⟨rfl, rfl⟩
  unfold encodeTerminator
  dsimp only
  refine ⟨main.1, ?_, rfl⟩
  rw [nextTerm_ctl]
  have m2 := main.2
  rw [p1] at m2
  simp only [ctl, Prod.mk.injEq] at m2 ⊢
  exact ⟨m2.1, trivial, m2.2.2.1, m2.2.2.2.1, m2.2.2.2.2⟩

theorem encodeOrdinary_scan (c : Nat) (s : navic_gn_rmc_gga) :
    ctl (encodeOrdinary c s) =
      (if s.isChecksumTerm then s.parity else (s.parity ^^^ c) % 256, s.isChecksumTerm,
        s.passedChecksumCount, s.failedChecksumCount, s.sentencesWithFixCount) := by
  unfold encodeOrdinary
  by_cases h1 : s.curTermOffset < 14 <;> by_cases h2 : s.isChecksumTerm = true <;>
    simp [ctl, h1, h2]

/-- One body character (not `'$'`, `'*'`, CR, LF) outside the checksum term. -/
theorem encode_body_scan (now c : Nat) (s : navic_gn_rmc_gga)
    (h : s.isChecksumTerm = false) (h36 : c ≠ 36) (h42 : c ≠ 42) (h13 : c ≠ 13) (h10 : c ≠ 10) :
    (encode now c s).1 = false ∧
    ctl (encode now c s).2 =
      ((s.parity ^^^ c) % 256, false, s.passedChecksumCount, s.failedChecksumCount,
        s.sentencesWithFixCount) := by
  unfold encode
  dsimp only
  by_cases h44 : c = 44
  · subst h44
    rw [if_pos (Or.inl rfl)]
    obtain ⟨m1, m2, -⟩ := encodeTerminator_scan now 44 (countChar s) h
    refine ⟨m1, ?_⟩
    rw [m2]
    simp [countChar]
  · rw [if_neg (by omega), if_neg h36]
    refine ⟨rfl, ?_⟩
    rw [encodeOrdinary_scan]
    simp [h, countChar]

theorem commitBuiltin_ctl (now : Nat) (s : navic_gn_rmc_gga) :
    ctl (commitBuiltin now s) = ctl s ∧
    (commitBuiltin now s).customElts = s.customElts ∧
    (commitBuiltin now s).customCandidates = s.customCandidates := by
  unfold commitBuiltin
  dsimp only
  split_ifs <;> exact ⟨rfl, rfl, rfl⟩

theorem countFix_ctl (s : navic_gn_rmc_gga) :
    ctl (countFix s) =
      (s.parity, s.isChecksumTerm, s.passedChecksumCount, s.failedChecksumCount,
        if s.sentenceHasFix then (s.sentencesWithFixCount + 1) % 4294967296
        else s.sentencesWithFixCount) := by
  unfold countFix
  by_cases h : s.sentenceHasFix = true
  · rw [if_pos h, if_pos h]; rfl
  · rw [if_neg h, if_neg h]; rfl

theorem commitSentence_ctl (now : Nat) (s : navic_gn_rmc_gga) :
    ctl (commitSentence now s) =
      (s.parity, s.isChecksumTerm, (s.passedChecksumCount + 1) % 4294967296,
        s.failedChecksumCount,
        if s.sentenceHasFix then (s.sentencesWithFixCount + 1) % 4294967296
        else s.sentencesWithFixCount) := by
  unfold commitSentence
  show ctl (commitBuiltin now (countFix (countPassed s))) = _
  rw [(commitBuiltin_ctl now _).1, countFix_ctl]
  rfl

theorem feed_append (a b : List Nat) : ∀ (clock : Nat → Nat) (s : navic_gn_rmc_gga),
    feed clock (a ++ b) s = feed (fun k => clock (k + a.length)) b (feed clock a s) := by
  induction a with
  | nil => intro clock s; rfl
  | cons c cs ih =>
    intro clock s
    show feed (fun k => clock (k + 1)) (cs ++ b) (encode (clock 0) c s).2 = _
    rw [ih]
    rfl

theorem results_append (a b : List Nat) : ∀ (clock : Nat → Nat) (s : navic_gn_rmc_gga),
    results clock (a ++ b) s =
      results clock a s ++ results (fun k => clock (k + a.length)) b (feed clock a s) := by
  induction a with
  | nil => intro clock s; rfl
  | cons c cs ih =>
    intro clock s
    show (encode (clock 0) c s).1 ::
      results (fun k => clock (k + 1)) (cs ++ b) (encode (clock 0) c s).2 = _
    rw [ih]
    rfl

theorem body_scan (body : List Nat) (hb : ∀ c ∈ body, c ≠ 36 ∧ c ≠ 42 ∧ c ≠ 13 ∧ c ≠ 10) :
    ∀ (clock : Nat → Nat) (s : navic_gn_rmc_gga), s.isChecksumTerm = false →
    results clock body s = List.replicate body.length false ∧
    ctl (feed clock body s) =
      (parityFold s.parity body, false, s.passedChecksumCount, s.failedChecksumCount,
        s.sentencesWithFixCount) := by
  induction body with
  | nil =>
    intro clock s h
    refine ⟨rfl, ?_⟩
    simp [feed, ctl, parityFold, h]
  | cons c cs ih =>
    intro clock s h
    have hc := hb c (List.mem_cons_self _ _)
    obtain ⟨e1, e2⟩ := encode_body_scan (clock 0) c s h hc.1 hc.2.1 hc.2.2.1 hc.2.2.2
    simp only [ctl, Prod.mk.injEq] at e2
    obtain ⟨i1, i2⟩ := ih (fun c hm => hb c (List.mem_cons_of_mem _ hm))
      (fun k => clock (k + 1)) (encode (clock 0) c s).2 e2.2.1
    refine ⟨?_, ?_⟩
    · simp only [results, e1, i1, List.length_cons, List.replicate_succ]
    · simp only [feed, i2, e2.1, e2.2.2.1, e2.2.2.2.1, e2.2.2.2.2, parityFold, List.foldl_cons]

theorem parityFold_eq_xorAll (body : List Nat) (hb : ∀ c ∈ body, c < 256) :
    parityFold 0 body = xorAll body ∧ xorAll body < 256 := by
  have key : ∀ (l : List Nat) (p : Nat), p < 256 → (∀ c ∈ l, c < 256) →
      l.foldl (fun p c => (p ^^^ c) % 256) p = l.foldl (fun p c => p ^^^ c) p ∧
      l.foldl (fun p c => p ^^^ c) p < 256 := by
    intro l
    induction l with
    | nil => intro p hp _; exact ⟨rfl, hp⟩
    | cons c cs ih =>
      intro p hp hl
      have hc : c < 256 := hl c (List.mem_cons_self _ _)
      have hx : p ^^^ c < 256 := Nat.xor_lt_two_pow (n := 8) hp hc
      simp only [List.foldl_cons, Nat.mod_eq_of_lt hx]
      exact ih _ hx (fun c hm => hl c (List.mem_cons_of_mem _ hm))
  exact key body 0 (by norm_num) hb

theorem encode_terminator_eq (now c : Nat) (s : navic_gn_rmc_gga)
    (hc : c = 44 ∨ c = 13 ∨ c = 10 ∨ c = 42) :
    encode now c s = encodeTerminator now c (countChar s) := by
  unfold encode
  dsimp only
  rw [if_pos hc]

theorem encode_ordinary_eq (now c : Nat) (s : navic_gn_rmc_gga) (hc : isOrdinary c) :
    encode now c s = (false, encodeOrdinary c (countChar s)) := by
  unfold encode
  dsimp only
  obtain ⟨a1, a2, a3, a4, a5⟩ := hc
  rw [if_neg (by omega), if_neg a5]

theorem encodeOrdinary_term (c : Nat) (s : navic_gn_rmc_gga) (ho : s.curTermOffset < 14) :
    (encodeOrdinary c s).term = Function.update s.term s.curTermOffset c ∧
    (encodeOrdinary c s).curTermOffset = s.curTermOffset + 1 := by
  unfold encodeOrdinary
  by_cases h2 : s.isChecksumTerm = true <;> simp [ho, h2]

theorem checksumTerm_ctl (now t0 t1 : Nat) (x : navic_gn_rmc_gga) :
    (checksumTerm now t0 t1 x).1 =
      decide (((16 * fromHex t0 + fromHex t1) % 256 : Int) = (x.parity : Int)) ∧
    ctl (checksumTerm now t0 t1 x).2 =
      (if ((16 * fromHex t0 + fromHex t1) % 256 : Int) = (x.parity : Int) then
        (x.parity, x.isChecksumTerm, (x.passedChecksumCount + 1) % 4294967296,
          x.failedChecksumCount,
          if x.sentenceHasFix then (x.sentencesWithFixCount + 1) % 4294967296
          else x.sentencesWithFixCount)
      else
        (x.parity, x.isChecksumTerm, x.passedChecksumCount,
          (x.failedChecksumCount + 1) % 4294967296, x.sentencesWithFixCount)) := by
  unfold checksumTerm
  dsimp only
  by_cases hk : ((16 * fromHex t0 + fromHex t1) % 256 : Int) = (x.parity : Int)
  · rw [if_pos hk, if_pos hk]
    exact ⟨(decide_eq_true hk).symm, commitSentence_ctl now x⟩
  · rw [if_neg hk, if_neg hk]
    exact ⟨(decide_eq_false hk).symm, rfl⟩

theorem encodeTerminator_checksum (now c : Nat) (s : navic_gn_rmc_gga)
    (h : s.isChecksumTerm = true) (ho : s.curTermOffset < 15) (h44 : c ≠ 44) :
    (encodeTerminator now c s).1 =
      decide (((16 * fromHex (Function.update s.term s.curTermOffset 0 0) +
        fromHex (Function.update s.term s.curTermOffset 0 1)) % 256 : Int) = (s.parity : Int)) ∧
    ctl (encodeTerminator now c s).2 =
      (if ((16 * fromHex (Function.update s.term s.curTermOffset 0 0) +
          fromHex (Function.update s.term s.curTermOffset 0 1)) % 256 : Int) = (s.parity : Int) then
        (s.parity, decide (c = 42), (s.passedChecksumCount + 1) % 4294967296,
          s.failedChecksumCount,
          if s.sentenceHasFix then (s.sentencesWithFixCount + 1) % 4294967296
          else s.sentencesWithFixCount)
      else
        (s.parity, decide (c = 42), s.passedChecksumCount,
          (s.failedChecksumCount + 1) % 4294967296, s.sentencesWithFixCount)) := by
  have hh : ∀ x : navic_gn_rmc_gga, x.isChecksumTerm = true →
      endOfTermHandler now x = checksumTerm now (x.term 0) (x.term 1) x := by
    intro x hx
    unfold endOfTermHandler
    rw [if_pos hx]
  have hp : terminatorParity c s = s := by
    unfold terminatorParity
    rw [if_neg h44]
  unfold encodeTerminator
  dsimp only
  rw [hp, if_pos ho, hh (terminateTerm s) h, nextTerm_ctl]
  obtain ⟨c1, c2⟩ := checksumTerm_ctl now ((terminateTerm s).term 0) ((terminateTerm s).term 1)
    (terminateTerm s)
  refine ⟨c1, ?_⟩
  have c3 : ctl (checksumTerm now ((terminateTerm s).term 0) ((terminateTerm s).term 1)
      (terminateTerm s)).2 =
      (if ((16 * fromHex (Function.update s.term s.curTermOffset 0 0) +
          fromHex (Function.update s.term s.curTermOffset 0 1)) % 256 : Int) = (s.parity : Int) then
        (s.parity, s.isChecksumTerm, (s.passedChecksumCount + 1) % 4294967296,
          s.failedChecksumCount,
          if s.sentenceHasFix then (s.sentencesWithFixCount + 1) % 4294967296
          else s.sentencesWithFixCount)
      else
        (s.parity, s.isChecksumTerm, s.passedChecksumCount,
          (s.failedChecksumCount + 1) % 4294967296, s.sentencesWithFixCount)) := c2
  by_cases hk : ((16 * fromHex (Function.update s.term s.curTermOffset 0 0) +
      fromHex (Function.update s.term s.curTermOffset 0 1)) % 256 : Int) = (s.parity : Int)
  · rw [if_pos hk] at c3
    rw [if_pos hk]
    simp only [ctl, Prod.mk.injEq] at c3 ⊢
    exact ⟨c3.1, trivial, c3.2.2.1, c3.2.2.2.1, c3.2.2.2.2⟩
  · rw [if_neg hk] at c3
    rw [if_neg hk]
    simp only [ctl, Prod.mk.injEq] at c3 ⊢
    exact ⟨c3.1, trivial, c3.2.2.1, c3.2.2.2.1, c3.2.2.2.2⟩

theorem encode_checksum_char (now c : Nat) (s : navic_gn_rmc_gga) (hc : isOrdinary c)
    (h : s.isChecksumTerm = true) (ho : s.curTermOffset < 14) :
    (encode now c s).1 = false ∧
    (encode now c s).2.term = Function.update s.term s.curTermOffset c ∧
    (encode now c s).2.curTermOffset = s.curTermOffset + 1 ∧
    ctl (encode now c s).2 = ctl s := by
  rw [encode_ordinary_eq now c s hc]
  obtain ⟨t1, t2⟩ := encodeOrdinary_term c (countChar s) ho
  refine ⟨rfl, t1, t2, ?_⟩
  show ctl (encodeOrdinary c (countChar s)) = ctl s
  rw [encodeOrdinary_scan]
  have h2 : (countChar s).isChecksumTerm = true := h
  rw [if_pos h2]
  rfl

theorem update_update_read (t : Nat → Nat) (a b : Nat) :
    Function.update (Function.update (Function.update t 0 a) 1 b) 2 0 0 = a ∧
    Function.update (Function.update (Function.update t 0 a) 1 b) 2 0 1 = b := by
  simp [Function.update]

/-- The end of a sentence from the `'*'` on: two checksum characters, CR, LF. -/
theorem checksum_tail (clock : Nat → Nat) (s : navic_gn_rmc_gga) (h1 h2 : Nat)
    (h : s.isChecksumTerm = false) (o1 : isOrdinary h1) (o2 : isOrdinary h2) :
    results clock [42, h1, h2, 13, 10] s =
      [false, false, false,
        decide (((16 * fromHex h1 + fromHex h2) % 256 : Int) = (s.parity : Int)), false] ∧
    (feed clock [42, h1, h2, 13, 10] s).passedChecksumCount =
      (if ((16 * fromHex h1 + fromHex h2) % 256 : Int) = (s.parity : Int)
        then (s.passedChecksumCount + 1) % 4294967296 else s.passedChecksumCount) ∧
    (feed clock [42, h1, h2, 13, 10] s).failedChecksumCount =
      (if ((16 * fromHex h1 + fromHex h2) % 256 : Int) = (s.parity : Int)
        then s.failedChecksumCount else (s.failedChecksumCount + 1) % 4294967296) ∧
    (¬ ((16 * fromHex h1 + fromHex h2) % 256 : Int) = (s.parity : Int) →
      (feed clock [42, h1, h2, 13, 10] s).sentencesWithFixCount = s.sentencesWithFixCount) := by
  -- the checksum marker
  obtain ⟨a1, a2, a3⟩ := encodeTerminator_scan (clock 0) 42 (countChar s) h
  rw [← encode_terminator_eq (clock 0) 42 s (by omega)] at a1 a2 a3
  simp only [ctl, Prod.mk.injEq, countChar, if_neg (show ¬ (42 = 44) by omega)] at a2
  obtain ⟨a21, a22, a23, a24, a25⟩ := a2
  have a22 : (encode (clock 0) 42 s).2.isChecksumTerm = true := by rw [a22]; rfl
  -- first checksum character
  obtain ⟨b1, b2, b3, b4⟩ := encode_checksum_char (clock 1) h1 (encode (clock 0) 42 s).2 o1 a22
    (by omega)
  simp only [ctl, Prod.mk.injEq] at b4
  obtain ⟨b41, b42, b43, b44, b45⟩ := b4
  rw [a3] at b2 b3
  -- second checksum character
  obtain ⟨c1, c2, c3, c4⟩ := encode_checksum_char (clock 2) h2
    (encode (clock 1) h1 (encode (clock 0) 42 s).2).2 o2 (b42.trans a22) (by omega)
  simp only [ctl, Prod.mk.injEq] at c4
  obtain ⟨c41, c42, c43, c44, c45⟩ := c4
  rw [b2, b3] at c2
  rw [b3] at c3
  -- carriage return
  obtain ⟨d1, d2⟩ := encodeTerminator_checksum (clock 3) 13
    (countChar (encode (clock 2) h2 (encode (clock 1) h1 (encode (clock 0) 42 s).2).2).2)
    (c42.trans (b42.trans a22)) (by show (encode _ _ _).2.curTermOffset < 15; omega)
    (by omega)
  rw [← encode_terminator_eq (clock 3) 13 _ (by omega)] at d1 d2
  have r0 : (countChar (encode (clock 2) h2 (encode (clock 1) h1
      (encode (clock 0) 42 s).2).2).2).term =
      Function.update (Function.update (encode (clock 0) 42 s).2.term 0 h1) 1 h2 := c2
  have r1 : (countChar (encode (clock 2) h2 (encode (clock 1) h1
      (encode (clock 0) 42 s).2).2).2).curTermOffset = 2 := c3
  have r2 : (countChar (encode (clock 2) h2 (encode (clock 1) h1
      (encode (clock 0) 42 s).2).2).2).parity = s.parity := c41.trans (b41.trans a21)
  rw [r0, r1, r2, (update_update_read _ h1 h2).1, (update_update_read _ h1 h2).2] at d1 d2
  have r3 : (countChar (encode (clock 2) h2 (encode (clock 1) h1
      (encode (clock 0) 42 s).2).2).2).passedChecksumCount = s.passedChecksumCount :=
    c43.trans (b43.trans a23)
  have r4 : (countChar (encode (clock 2) h2 (encode (clock 1) h1
      (encode (clock 0) 42 s).2).2).2).failedChecksumCount = s.failedChecksumCount :=
    c44.trans (b44.trans a24)
  have r5 : (countChar (encode (clock 2) h2 (encode (clock 1) h1
      (encode (clock 0) 42 s).2).2).2).sentencesWithFixCount = s.sentencesWithFixCount :=
    c45.trans (b45.trans a25)
  rw [r3, r4, r5] at d2
  -- line feed
  have dchk : (encode (clock 3) 13 (encode (clock 2) h2 (encode (clock 1) h1
      (encode (clock 0) 42 s).2).2).2).2.isChecksumTerm = false := by
    have := congrArg (fun q => q.2.1) d2
    dsimp only [ctl] at this
    rw [this]
    split_ifs <;> rfl
  obtain ⟨e1, e2, -⟩ := encodeTerminator_scan (clock 4) 10
    (countChar (encode (clock 3) 13 (encode (clock 2) h2 (encode (clock 1) h1
      (encode (clock 0) 42 s).2).2).2).2) dchk
  rw [← encode_terminator_eq (clock 4) 10 _ (by omega)] at e1 e2
  simp only [ctl, Prod.mk.injEq, countChar, if_neg (show ¬ (10 = 44) by omega)] at e2
  obtain ⟨-, -, e23, e24, e25⟩ := e2
  refine ⟨?_, ?_, ?_, ?_⟩
  · show [(encode (clock 0) 42 s).1, (encode (clock 1) h1 (encode (clock 0) 42 s).2).1,
      (encode (clock 2) h2 (encode (clock 1) h1 (encode (clock 0) 42 s).2).2).1,
      (encode (clock 3) 13 (encode (clock 2) h2 (encode (clock 1) h1
        (encode (clock 0) 42 s).2).2).2).1,
      (encode (clock 4) 10 (encode (clock 3) 13 (encode (clock 2) h2 (encode (clock 1) h1
        (encode (clock 0) 42 s).2).2).2).2).1] = _
    rw [a1, b1, c1, d1, e1]
  · show (encode (clock 4) 10 (encode (clock 3) 13 (encode (clock 2) h2 (encode (clock 1) h1
        (encode (clock 0) 42 s).2).2).2).2).2.passedChecksumCount = _
    rw [e23]
    have := congrArg (fun q => q.2.2.1) d2
    dsimp only [ctl] at this
    rw [this]
    split_ifs <;> rfl
  · show (encode (clock 4) 10 (encode (clock 3) 13 (encode (clock 2) h2 (encode (clock 1) h1
        (encode (clock 0) 42 s).2).2).2).2).2.failedChecksumCount = _
    rw [e24]
    have := congrArg (fun q => q.2.2.2.1) d2
    dsimp only [ctl] at this
    rw [this]
    split_ifs <;> rfl
  · intro hk
    show (encode (clock 4) 10 (encode (clock 3) 13 (encode (clock 2) h2 (encode (clock 1) h1
        (encode (clock 0) 42 s).2).2).2).2).2.sentencesWithFixCount = _
    rw [e25]
    have := congrArg (fun q => q.2.2.2.2) d2
    dsimp only [ctl] at this
    rw [this, if_neg hk]

theorem isHexOf_fromHex (v c : Nat) (h : isHexOf v c) : fromHex c = (v : Int) ∧ isOrdinary c := by
  unfold isHexOf at h
  unfold fromHex isOrdinary
  rcases h with ⟨hv, rfl⟩ | ⟨hv1, hv2, rfl | rfl⟩
  · refine ⟨?_, by omega⟩
    rw [if_neg (by omega), if_neg (by omega)]
    push_cast
    omega
  · refine ⟨?_, by omega⟩
    rw [if_pos (by omega)]
    push_cast
    omega
  · refine ⟨?_, by omega⟩
    rw [if_neg (by omega), if_pos (by omega)]
    push_cast
    omega

/-- A whole sentence, character by character: `'$'`, a body without `'$'`,
`'*'`, CR, LF, then `'*'`, two checksum characters, CR, LF. -/
theorem sentence_scan (clock : Nat → Nat) (s : navic_gn_rmc_gga) (body : List Nat) (h1 h2 : Nat)
    (hb : ∀ c ∈ body, c < 256 ∧ c ≠ 36 ∧ c ≠ 42 ∧ c ≠ 13 ∧ c ≠ 10)
    (o1 : isOrdinary h1) (o2 : isOrdinary h2) :
    results clock (36 :: (body ++ [42, h1, h2, 13, 10])) s =
      false :: (List.replicate body.length false ++ [false, false, false,
        decide (((16 * fromHex h1 + fromHex h2) % 256 : Int) = (xorAll body : Int)), false]) ∧
    (feed clock (36 :: (body ++ [42, h1, h2, 13, 10])) s).passedChecksumCount =
      (if ((16 * fromHex h1 + fromHex h2) % 256 : Int) = (xorAll body : Int)
        then (s.passedChecksumCount + 1) % 4294967296 else s.passedChecksumCount) ∧
    (feed clock (36 :: (body ++ [42, h1, h2, 13, 10])) s).failedChecksumCount =
      (if ((16 * fromHex h1 + fromHex h2) % 256 : Int) = (xorAll body : Int)
        then s.failedChecksumCount else (s.failedChecksumCount + 1) % 4294967296) ∧
    (¬ ((16 * fromHex h1 + fromHex h2) % 256 : Int) = (xorAll body : Int) →
      (feed clock (36 :: (body ++ [42, h1, h2, 13, 10])) s).sentencesWithFixCount =
        s.sentencesWithFixCount) := by
  have e0 : encode (clock 0) 36 s = (false, encodeBegin (countChar s)) := by
    unfold encode
    dsimp only
    rw [if_neg (by omega), if_pos rfl]
  have hbody := body_scan body (fun c hc => (hb c hc).2) (fun k => clock (k + 1))
    (encodeBegin (countChar s)) rfl
  obtain ⟨b1, b2⟩ := hbody
  have hpar : parityFold (encodeBegin (countChar s)).parity body = xorAll body :=
    (parityFold_eq_xorAll body (fun c hc => (hb c hc).1)).1
  rw [hpar] at b2
  simp only [ctl, Prod.mk.injEq] at b2
  obtain ⟨b21, b22, b23, b24, b25⟩ := b2
  obtain ⟨t1, t2, t3, t4⟩ := checksum_tail (fun k => clock (k + body.length + 1))
    (feed (fun k => clock (k + 1)) body (encodeBegin (countChar s))) h1 h2 b22 o1 o2
  rw [b21] at t1 t2 t3 t4
  rw [b23] at t2
  rw [b24] at t3
  rw [b25] at t4
  refine ⟨?_, ?_, ?_, ?_⟩
  · show (encode (clock 0) 36 s).1 ::
      results (fun k => clock (k + 1)) (body ++ [42, h1, h2, 13, 10]) (encode (clock 0) 36 s).2 = _
    rw [e0, results_append, b1, t1]
  · show (feed (fun k => clock (k + 1)) (body ++ [42, h1, h2, 13, 10])
      (encode (clock 0) 36 s).2).passedChecksumCount = _
    rw [e0, feed_append]
    exact t2
  · show (feed (fun k => clock (k + 1)) (body ++ [42, h1, h2, 13, 10])
      (encode (clock 0) 36 s).2).failedChecksumCount = _
    rw [e0, feed_append]
    exact t3
  · intro hk
    show (feed (fun k => clock (k + 1)) (body ++ [42, h1, h2, 13, 10])
      (encode (clock 0) 36 s).2).sentencesWithFixCount = _
    rw [e0, feed_append]
    exact t4 hk

theorem feed_false_committed (l : List Nat) : ∀ (clock : Nat → Nat) (s : navic_gn_rmc_gga),
    (∀ r ∈ results clock l s, r = false) → committed (feed clock l s) = committed s := by
  induction l with
  | nil => intro clock s _; rfl
  | cons c cs ih =>
    intro clock s h
    have h1 : (encode (clock 0) c s).1 = false := h _ (List.mem_cons_self _ _)
    have h2 := ih (fun k => clock (k + 1)) (encode (clock 0) c s).2
      (fun r hr => h r (List.mem_cons_of_mem _ hr))
    show committed (feed (fun k => clock (k + 1)) cs (encode (clock 0) c s).2) = _
    rw [h2]
    exact encode_false_committed _ _ _ h1

/-- C2 (checksum pass, independent of truncation): whatever the decoder state,
for a body of bytes without `'$'`, `'*'`, CR, LF (terms of any length), feeding
`'$'`, the body, `'*'`, the two hexadecimal digits (either case) of the XOR of
the body bytes, CR and LF makes `encode` return true on the CR and false on
every other character, increments `passedChecksum` (a 32-bit counter) by one
and leaves `failedChecksum` unchanged. -/
theorem C2_checksum_pass (clock : Nat → Nat) (s : navic_gn_rmc_gga) (body : List Nat)
    (h1 h2 : Nat)
    (hb : ∀ c ∈ body, c < 256 ∧ c ≠ 36 ∧ c ≠ 42 ∧ c ≠ 13 ∧ c ≠ 10)
    (hh1 : isHexOf (xorAll body / 16) h1) (hh2 : isHexOf (xorAll body % 16) h2) :
    results clock (36 :: (body ++ [42, h1, h2, 13, 10])) s =
      false :: (List.replicate body.length false ++ [false, false, false, true, false]) ∧
    (feed clock (36 :: (body ++ [42, h1, h2, 13, 10])) s).passedChecksumCount =
      (s.passedChecksumCount + 1) % 4294967296 ∧
    (feed clock (36 :: (body ++ [42, h1, h2, 13, 10])) s).failedChecksumCount =
      s.failedChecksumCount := by
  obtain ⟨f1, o1⟩ := isHexOf_fromHex _ _ hh1
  obtain ⟨f2, o2⟩ := isHexOf_fromHex _ _ hh2
  have hx := (parityFold_eq_xorAll body (fun c hc => (hb c hc).1)).2
  have hk : ((16 * fromHex h1 + fromHex h2) % 256 : Int) = (xorAll body : Int) := by
    rw [f1, f2]
    omega
  obtain ⟨r1, r2, r3, -⟩ := sentence_scan clock s body h1 h2 hb o1 o2
  rw [if_pos hk] at r2 r3
  rw [decide_eq_true hk] at r1
  exact ⟨r1, r2, r3⟩

/-- C3 (checksum mismatch is an atomic rejection): whatever the decoder state,
for a body of bytes without `'$'`, `'*'`, CR, LF, feeding `'$'`, the body, `'*'`,
two hexadecimal digits whose value differs from the XOR of the body bytes, CR
and LF makes `encode` return false on every character, increments
`failedChecksum` (a 32-bit counter) by one, leaves `passedChecksum` and
`sentencesWithFix` unchanged and leaves the committed value, the valid flag and
the updated flag of every built-in and custom field unchanged. -/
theorem C3_checksum_mismatch (clock : Nat → Nat) (s : navic_gn_rmc_gga) (body : List Nat)
    (h1 h2 v1 v2 : Nat)
    (hb : ∀ c ∈ body, c < 256 ∧ c ≠ 36 ∧ c ≠ 42 ∧ c ≠ 13 ∧ c ≠ 10)
    (hh1 : isHexOf v1 h1) (hh2 : isHexOf v2 h2) (hne : 16 * v1 + v2 ≠ xorAll body) :
    (∀ r ∈ results clock (36 :: (body ++ [42, h1, h2, 13, 10])) s, r = false) ∧
    (feed clock (36 :: (body ++ [42, h1, h2, 13, 10])) s).failedChecksumCount =
      (s.failedChecksumCount + 1) % 4294967296 ∧
    (feed clock (36 :: (body ++ [42, h1, h2, 13, 10])) s).passedChecksumCount =
      s.passedChecksumCount ∧
    (feed clock (36 :: (body ++ [42, h1, h2, 13, 10])) s).sentencesWithFixCount =
      s.sentencesWithFixCount ∧
    committed (feed clock (36 :: (body ++ [42, h1, h2, 13, 10])) s) = committed s := by
  obtain ⟨f1, o1⟩ := isHexOf_fromHex _ _ hh1
  obtain ⟨f2, o2⟩ := isHexOf_fromHex _ _ hh2
  have hv1 : v1 < 16 := by unfold isHexOf at hh1; omega
  have hv2 : v2 < 16 := by unfold isHexOf at hh2; omega
  have hx := (parityFold_eq_xorAll body (fun c hc => (hb c hc).1)).2
  have hk : ¬ ((16 * fromHex h1 + fromHex h2) % 256 : Int) = (xorAll body : Int) := by
    rw [f1, f2]
    omega
  obtain ⟨r1, r2, r3, r4⟩ := sentence_scan clock s body h1 h2 hb o1 o2
  rw [if_neg hk] at r2 r3
  rw [decide_eq_false hk] at r1
  have hall : ∀ r ∈ results clock (36 :: (body ++ [42, h1, h2, 13, 10])) s, r = false := by
    rw [r1]
    intro r hr
    simp only [List.mem_cons, List.mem_append, List.mem_replicate, List.mem_singleton,
      List.not_mem_nil, or_false] at hr
    rcases hr with h | ⟨-, h⟩ | h | h | h | h | h <;> exact h
  exact ⟨hall, r3, r2, r4 hk, feed_false_committed _ clock s hall⟩

/-- Witness of C1: the comma after "$GNRMC,999999" on a decoder that holds
committed values. -/
theorem C1_staging_isolation_witness :
    (encode 2000 44
      (feed (fun k => 1500 + k) [36, 71, 78, 82, 77, 67, 44, 57, 57, 57, 57, 57, 57]
        exampleDecoder)).1 = false ∧
    committed (encode 2000 44
      (feed (fun k => 1500 + k) [36, 71, 78, 82, 77, 67, 44, 57, 57, 57, 57, 57, 57]
        exampleDecoder)).2 =
    committed (feed (fun k => 1500 + k) [36, 71, 78, 82, 77, 67, 44, 57, 57, 57, 57, 57, 57]
      exampleDecoder) :=
  ⟨by decide, C1_staging_isolation 2000 44 _ (by decide)⟩

/-- Witness of C2: the worked example with the checksum digits "74", fed to the
decoder `exampleDecoder`. -/
theorem C2_checksum_pass_witness :
    (∀ c ∈ exampleBody, c < 256 ∧ c ≠ 36 ∧ c ≠ 42 ∧ c ≠ 13 ∧ c ≠ 10) ∧
    isHexOf (xorAll exampleBody / 16) 55 ∧ isHexOf (xorAll exampleBody % 16) 52 ∧
    results (fun k => k) (36 :: (exampleBody ++ [42, 55, 52, 13, 10])) exampleDecoder =
      false :: (List.replicate exampleBody.length false ++ [false, false, false, true, false]) ∧
    (feed (fun k => k) (36 :: (exampleBody ++ [42, 55, 52, 13, 10]))
      exampleDecoder).passedChecksumCount = (exampleDecoder.passedChecksumCount + 1) % 4294967296 ∧
    (feed (fun k => k) (36 :: (exampleBody ++ [42, 55, 52, 13, 10]))
      exampleDecoder).failedChecksumCount = exampleDecoder.failedChecksumCount :=
  ⟨by decide, by decide, by decide,
    C2_checksum_pass (fun k => k) exampleDecoder exampleBody 55 52 (by decide) (by decide)
      (by decide)⟩

/-- Witness of C3: the worked example with the second checksum digit altered
("75"), fed to a fresh decoder; in particular no field is updated. -/
theorem C3_checksum_mismatch_witness :
    (∀ c ∈ exampleBody, c < 256 ∧ c ≠ 36 ∧ c ≠ 42 ∧ c ≠ 13 ∧ c ≠ 10) ∧
    isHexOf 7 55 ∧ isHexOf 5 53 ∧ 16 * 7 + 5 ≠ xorAll exampleBody ∧
    ((∀ r ∈ results (fun k => k) (36 :: (exampleBody ++ [42, 55, 53, 13, 10])) init, r = false) ∧
    (feed (fun k => k) (36 :: (exampleBody ++ [42, 55, 53, 13, 10])) init).failedChecksumCount =
      (init.failedChecksumCount + 1) % 4294967296 ∧
    (feed (fun k => k) (36 :: (exampleBody ++ [42, 55, 53, 13, 10])) init).passedChecksumCount =
      init.passedChecksumCount ∧
    (feed (fun k => k) (36 :: (exampleBody ++ [42, 55, 53, 13, 10])) init).sentencesWithFixCount =
      init.sentencesWithFixCount ∧
    committed (feed (fun k => k) (36 :: (exampleBody ++ [42, 55, 53, 13, 10])) init) =
      committed init) :=
  ⟨by decide, by decide, by decide, by decide,
    C3_checksum_mismatch (fun k => k) init exampleBody 55 53 7 5 (by decide) (by decide)
      (by decide) (by decide)⟩

theorem atolDigits_append (I : List Nat) (hI : allDigits I) (rest : List Nat)
    (hr : ∀ c, rest.head? = some c → isdigit c = false) :
    ∀ acc, atolDigits (I ++ rest) acc = I.foldl (fun a c => 10 * a + (c - 48)) acc := by
  induction I with
  | nil =>
    intro acc
    cases rest with
    | nil => rfl
    | cons c cs =>
      have := hr c rfl
      simp [atolDigits, this]
  | cons d ds ih =>
    intro acc
    have hd : isdigit d = true := hI d (List.mem_cons_self _ _)
    simp only [List.cons_append, atolDigits, hd, if_true, List.foldl_cons]
    exact ih (fun c hc => hI c (List.mem_cons_of_mem _ hc)) _

theorem dropWhile_digits (I : List Nat) (hI : allDigits I) (rest : List Nat)
    (hr : ∀ c, rest.head? = some c → isdigit c = false) :
    (I ++ rest).dropWhile isdigit = rest := by
  induction I with
  | nil =>
    cases rest with
    | nil => rfl
    | cons c cs =>
      have := hr c rfl
      simp [List.dropWhile, this]
  | cons d ds ih =>
    have hd : isdigit d = true := hI d (List.mem_cons_self _ _)
    simp only [List.cons_append, List.dropWhile, hd]
    exact ih (fun c hc => hI c (List.mem_cons_of_mem _ hc))

theorem isdigit_iff (c : Nat) : isdigit c = true ↔ 48 ≤ c ∧ c ≤ 57 := by
  unfold isdigit
  simp

/-- `atol` on digits followed by the end of the string or by a decimal point. -/
theorem atol_digits (I : List Nat) (hI : allDigits I) (rest : List Nat)
    (hr : ∀ c, rest.head? = some c → c = 46) :
    atol (I ++ rest) = (decimalValue I : Int) := by
  have hr2 : ∀ c, rest.head? = some c → isdigit c = false := by
    intro c hc
    rw [hr c hc]
    rfl
  have key := atolDigits_append I hI rest hr2 0
  have hdw : List.dropWhile isspace (I ++ rest) = I ++ rest ∧
      (I ++ rest).headD 0 ≠ 45 ∧ (I ++ rest).headD 0 ≠ 43 := by
    cases I with
    | nil =>
      cases rest with
      | nil => exact ⟨rfl, by decide, by decide⟩
      | cons c cs =>
        have hc := hr c rfl
        subst hc
        exact ⟨rfl, by simp, by simp⟩
    | cons d ds =>
      have hd := (isdigit_iff d).1 (hI d (List.mem_cons_self _ _))
      have hsp : isspace d = false := by
        unfold isspace
        simp
        omega
      refine ⟨by simp [List.dropWhile, hsp], ?_, ?_⟩ <;>
        simp only [List.cons_append, List.headD_cons] <;> omega
  unfold atol
  dsimp only
  rw [hdw.1, if_neg hdw.2.1, if_neg hdw.2.2, key]
  rfl

theorem toInt32_idem (x : Int) : toInt32 (toInt32 x + 0) = toInt32 x := by
  unfold toInt32
  omega

/-- The fraction part of `decimalText`. -/
theorem decimalText_eq (neg : Bool) (I : List Nat) (F : Option (List Nat)) :
    decimalText neg I F =
      (if neg then [45] else []) ++ (I ++ (match F with | none => [] | some f => 46 :: f)) := by
  unfold decimalText
  rw [List.append_assoc]

/-- What `parseDecimal` computes on a text `[-] I [. F]`, with its `int32_t`
conversions kept. -/
theorem parseDecimal_text (neg : Bool) (I : List Nat) (F : Option (List Nat))
    (hI : allDigits I) (hF : ∀ f, F = some f → allDigits f) :
    parseDecimal (decimalText neg I F) =
      (if neg then
        toInt32 (- toInt32 (toInt32 (toInt32 (100 * toInt32 (decimalValue I)) +
          ((10 * ((F.getD []).getD 0 48 - 48) : Nat) : Int)) + (((F.getD []).getD 1 48 - 48 : Nat) : Int)))
      else
        toInt32 (toInt32 (toInt32 (100 * toInt32 (decimalValue I)) +
          ((10 * ((F.getD []).getD 0 48 - 48) : Nat) : Int)) + (((F.getD []).getD 1 48 - 48 : Nat) : Int))) := by
  -- the text after the sign
  have hrest : ∀ c, (match F with | none => [] | some f => 46 :: f).head? = some c → c = 46 := by
    intro c hc
    cases F with
    | none => simp at hc
    | some f => simpa using hc.symm
  have hrest2 : ∀ c, (match F with | none => [] | some f => 46 :: f).head? = some c →
      isdigit c = false := by
    intro c hc
    rw [hrest c hc]
    rfl
  have hatol := atol_digits I hI _ hrest
  have hdrop := dropWhile_digits I hI _ hrest2
  -- the sign test and the text the rest of the function works on
  have hsign : (decide ((decimalText neg I F).getD 0 0 = 45) : Bool) = neg ∧
      (if neg then (decimalText neg I F).tail else decimalText neg I F) =
        I ++ (match F with | none => [] | some f => 46 :: f) := by
    rw [decimalText_eq]
    cases neg with
    | true => exact ⟨rfl, rfl⟩
    | false =>
      simp only [Bool.false_eq_true, if_false, List.nil_append, and_true, decide_eq_false_iff_not]
      cases I with
      | nil =>
        cases F with
        | none => simp
        | some f => simp
      | cons d ds =>
        have hd := (isdigit_iff d).1 (hI d (List.mem_cons_self _ _))
        simp only [List.cons_append, List.getD_cons_zero]
        omega
  have idem : ∀ x : Int, toInt32 (toInt32 x) = toInt32 x := by
    intro x
    unfold toInt32
    omega
  have h0 : isdigit 0 = false := rfl
  unfold parseDecimal
  simp only [hsign.1]
  rw [hsign.2, hatol, hdrop]
  cases F with
  | none =>
    simp [idem]
  | some f =>
    cases f with
    | nil => simp [idem, h0]
    | cons a r =>
      have ha : isdigit a = true := hF _ rfl a (List.mem_cons_self _ _)
      have ha2 := (isdigit_iff a).1 ha
      have ca : ((10 * (a - 48) : Nat) : Int) = 10 * ((a : Int) - 48) := by omega
      cases r with
      | nil =>
        simp only [List.getD_cons_zero, List.getD_cons_succ, List.getD_nil, Option.getD_some,
          ha, h0, true_and, and_self, if_true, Bool.false_eq_true, if_false, ca, Nat.sub_self,
          Nat.cast_zero, add_zero, idem]
      | cons b r2 =>
        have hb : isdigit b = true :=
          hF _ rfl b (List.mem_cons_of_mem _ (List.mem_cons_self _ _))
        have hb2 := (isdigit_iff b).1 hb
        have cb : ((b - 48 : Nat) : Int) = (b : Int) - 48 := by omega
        simp only [List.getD_cons_zero, List.getD_cons_succ, Option.getD_some,
          ha, hb, true_and, and_self, if_true, ca, cb]

theorem toInt32_eq (x : Int) (h1 : -2147483648 ≤ x) (h2 : x ≤ 2147483647) : toInt32 x = x := by
  unfold toInt32
  omega

/-- The value `parseDecimal` accumulates for a magnitude reached through
in-range steps. -/
theorem parseDecimal_steps (neg : Bool) (r0 d1 d2 : Int) (h0 : 0 ≤ r0) (hd1 : 0 ≤ d1)
    (h10 : r0 + d1 ≤ 2147483647)
    (hlo : -2147483648 ≤ (if neg then -1 else 1) * (r0 + d1 + d2))
    (hhi : (if neg then -1 else 1) * (r0 + d1 + d2) ≤ 2147483647) :
    (if neg then toInt32 (- toInt32 (toInt32 (toInt32 r0 + d1) + d2))
      else toInt32 (toInt32 (toInt32 r0 + d1) + d2)) =
      (if neg then -1 else 1) * (r0 + d1 + d2) := by
  rw [toInt32_eq r0 (by omega) (by omega), toInt32_eq (r0 + d1) (by omega) (by omega)]
  cases neg with
  | false =>
    simp only [Bool.false_eq_true, if_false, one_mul] at *
    exact toInt32_eq _ (by omega) hhi
  | true =>
    simp only [if_true] at *
    by_cases hm : r0 + d1 + d2 = 2147483648
    · rw [hm]
      rfl
    · rw [toInt32_eq (r0 + d1 + d2) (by omega) (by omega), toInt32_eq _ (by omega) (by omega)]
      omega

/-- The three examples of the parseDecimal reference: "1.239" gives 123,
"-0.05" gives -5, "022.4" gives 2240. -/
theorem parseDecimal_examples :
    parseDecimal [49, 46, 50, 51, 57] = 123 ∧ parseDecimal [45, 48, 46, 48, 53] = -5 ∧
    parseDecimal [48, 50, 50, 46, 52] = 2240 := by decide

/-- C10 (parseDecimal reference, amended): on a text `[-] I [. F]` with `I` of
value at most 21474836 and the reference value `s * (100 * value(I) + 10 * f1 + f2)`
within the range of `int32_t`, `parseDecimal` returns the reference value;
fraction digits after the second are ignored (truncation). -/
theorem C10_parseDecimal_reference (neg : Bool) (I : List Nat) (F : Option (List Nat))
    (hI : allDigits I) (hF : ∀ f, F = some f → allDigits f)
    (hv : decimalValue I ≤ 21474836)
    (hlo : -2147483648 ≤ decimalReference neg I F)
    (hhi : decimalReference neg I F ≤ 2147483647) :
    parseDecimal (decimalText neg I F) = decimalReference neg I F := by
  rw [parseDecimal_text neg I F hI hF]
  unfold decimalReference fracHundredths at *
  rw [toInt32_eq (decimalValue I : Int) (by omega) (by omega)]
  have hsteps := parseDecimal_steps neg (100 * (decimalValue I : Int))
    ((10 * ((F.getD []).getD 0 48 - 48) : Nat) : Int) (((F.getD []).getD 1 48 - 48 : Nat) : Int)
    (by omega) (by omega)
  have hsum : ((100 * decimalValue I + (10 * ((F.getD []).getD 0 48 - 48) +
      ((F.getD []).getD 1 48 - 48)) : Nat) : Int) =
      100 * (decimalValue I : Int) + ((10 * ((F.getD []).getD 0 48 - 48) : Nat) : Int) +
        (((F.getD []).getD 1 48 - 48 : Nat) : Int) := by
    push_cast
    ring
  rw [hsum] at hlo hhi ⊢
  refine hsteps ?_ hlo hhi
  cases neg with
  | false =>
    simp only [Bool.false_eq_true, if_false, one_mul] at hhi
    omega
  | true =>
    simp only [if_true] at hlo
    omega

/-- Witness of C10: the text "1.239" gives 123. -/
theorem C10_parseDecimal_reference_witness :
    allDigits [49] ∧ (∀ f, some [50, 51, 57] = some f → allDigits f) ∧
    decimalValue [49] ≤ 21474836 ∧
    -2147483648 ≤ decimalReference false [49] (some [50, 51, 57]) ∧
    decimalReference false [49] (some [50, 51, 57]) ≤ 2147483647 ∧
    parseDecimal (decimalText false [49] (some [50, 51, 57])) =
      decimalReference false [49] (some [50, 51, 57]) ∧
    decimalReference false [49] (some [50, 51, 57]) = 123 :=
  ⟨by decide, fun f hf => by cases hf; decide, by decide, by decide, by decide,
    C10_parseDecimal_reference false [49] (some [50, 51, 57]) (by decide)
      (fun f hf => by cases hf; decide) (by decide) (by decide) (by decide),
    by decide⟩

/-- Counterexample to C10 as stated: the text "21474836.48" has an integer part
of value 21474836, yet `parseDecimal` returns -2147483648 and not the reference
value 2147483648, which no `int32_t` holds. -/
theorem C10_counterexample :
    allDigits [50, 49, 52, 55, 52, 56, 51, 54] ∧ allDigits [52, 56] ∧
    decimalValue [50, 49, 52, 55, 52, 56, 51, 54] ≤ 21474836 ∧
    decimalReference false [50, 49, 52, 55, 52, 56, 51, 54] (some [52, 56]) = 2147483648 ∧
    parseDecimal (decimalText false [50, 49, 52, 55, 52, 56, 51, 54] (some [52, 56])) =
      -2147483648 ∧
    parseDecimal (decimalText false [50, 49, 52, 55, 52, 56, 51, 54] (some [52, 56])) ≠
      decimalReference false [50, 49, 52, 55, 52, 56, 51, 54] (some [52, 56]) := by
  decide

theorem offsetAfter_ge (t : List Nat) : ∀ o, o ≤ offsetAfter o t ∧ (o ≤ 14 → offsetAfter o t ≤ 14) := by
  induction t with
  | nil => intro o; exact ⟨le_refl _, fun h => h⟩
  | cons c cs ih =>
    intro o
    unfold offsetAfter
    by_cases h : o < 14
    · rw [if_pos h]
      obtain ⟨h1, h2⟩ := ih (o + 1)
      exact ⟨by omega, fun _ => h2 (by omega)⟩
    · rw [if_neg h]
      exact ⟨le_refl _, fun h => h⟩

theorem written_below (t : List Nat) : ∀ (T : Nat → Nat) (o i : Nat), i < o →
    written T o t i = T i := by
  induction t with
  | nil => intro T o i _; rfl
  | cons c cs ih =>
    intro T o i hi
    unfold written
    by_cases h : o < 14
    · rw [if_pos h, ih _ _ _ (by omega), Function.update_noteq (by omega)]
    · rw [if_neg h]

/-- The C string read back from the term buffer once the terminator has
written the NUL: the first `14 - o` characters received, from index `o` on. -/
theorem cstrFrom_written (t : List Nat) (ht : ∀ c ∈ t, c ≠ 0) :
    ∀ (T : Nat → Nat) (o n : Nat), o + n = 15 → 0 < n →
    cstrFrom (Function.update (written T o t) (offsetAfter o t) 0) o n = t.take (14 - o) := by
  induction t with
  | nil =>
    intro T o n _ hn
    obtain ⟨m, rfl⟩ := Nat.exists_eq_succ_of_ne_zero (by omega : n ≠ 0)
    simp [cstrFrom, written, offsetAfter]
  | cons c cs ih =>
    intro T o n hon hn
    obtain ⟨m, rfl⟩ := Nat.exists_eq_succ_of_ne_zero (by omega : n ≠ 0)
    have hc : c ≠ 0 := ht c (List.mem_cons_self _ _)
    unfold written offsetAfter
    by_cases h : o < 14
    · rw [if_pos h, if_pos h]
      have hge := (offsetAfter_ge cs (o + 1)).1
      have hread : Function.update (written (Function.update T o c) (o + 1) cs)
          (offsetAfter (o + 1) cs) 0 o = c := by
        rw [Function.update_noteq (by omega), written_below _ _ _ _ (by omega),
          Function.update_same]
      have hrec := ih (fun c hc => ht c (List.mem_cons_of_mem _ hc)) (Function.update T o c)
        (o + 1) m (by omega) (by omega)
      unfold cstrFrom
      rw [hread, if_neg hc, hrec]
      have : 14 - o = (14 - (o + 1)) + 1 := by omega
      rw [this, List.take_succ_cons]
    · rw [if_neg h, if_neg h]
      have : 14 - o = 0 := by omega
      rw [this, List.take_zero]
      unfold cstrFrom
      rw [Function.update_same, if_pos rfl]

theorem cstr_written (t : List Nat) (ht : ∀ c ∈ t, c ≠ 0) (T : Nat → Nat) :
    cstr (Function.update (written T 0 t) (offsetAfter 0 t) 0) = t.take 14 ∧
    Function.update (written T 0 t) (offsetAfter 0 t) 0 0 = t.headD 0 := by
  refine ⟨cstrFrom_written t ht T 0 15 rfl (by omega), ?_⟩
  cases t with
  | nil => simp [written, offsetAfter]
  | cons c cs =>
    have e1 : written T 0 (c :: cs) = written (Function.update T 0 c) (0 + 1) cs := by
      rw [written, if_pos (by omega)]
    have e2 : offsetAfter 0 (c :: cs) = offsetAfter (0 + 1) cs := by
      rw [offsetAfter, if_pos (by omega)]
    have hge := (offsetAfter_ge cs (0 + 1)).1
    rw [e1, e2, Function.update_noteq (by omega), written_below _ _ _ _ (by omega),
      Function.update_same]
    rfl

theorem written_full (t : List Nat) (T : Nat → Nat) (o : Nat) (h : ¬ o < 14) :
    written T o t = T ∧ offsetAfter o t = o := by
  cases t with
  | nil => exact ⟨rfl, rfl⟩
  | cons c cs =>
    unfold written offsetAfter
    rw [if_neg h, if_neg h]
    exact ⟨rfl, rfl⟩

theorem encodeOrdinary_sem (c : Nat) (s : navic_gn_rmc_gga) :
    sem (encodeOrdinary c s) = sem s ∧
    (encodeOrdinary c s).term =
      (if s.curTermOffset < 14 then Function.update s.term s.curTermOffset c else s.term) ∧
    (encodeOrdinary c s).curTermOffset =
      (if s.curTermOffset < 14 then s.curTermOffset + 1 else s.curTermOffset) ∧
    (encodeOrdinary c s).isChecksumTerm = s.isChecksumTerm := by
  unfold encodeOrdinary
  by_cases h1 : s.curTermOffset < 14 <;> by_cases h2 : s.isChecksumTerm = true <;>
    simp only [h1, h2, if_true, if_false] <;>
    refine ⟨?_, ?_, ?_, ?_⟩ <;> first | rfl | trivial

/-- Ordinary characters only fill the term buffer: the terms completed so far
are not affected. -/
theorem feed_ordinary (t : List Nat) (ht : ∀ c ∈ t, isOrdinary c) :
    ∀ (clock : Nat → Nat) (s : navic_gn_rmc_gga),
    sem (feed clock t s) = sem s ∧
    (feed clock t s).term = written s.term s.curTermOffset t ∧
    (feed clock t s).curTermOffset = offsetAfter s.curTermOffset t ∧
    (feed clock t s).isChecksumTerm = s.isChecksumTerm ∧
    results clock t s = List.replicate t.length false := by
  induction t with
  | nil => intro clock s; exact ⟨rfl, rfl, rfl, rfl, rfl⟩
  | cons c cs ih =>
    intro clock s
    have e := encode_ordinary_eq (clock 0) c s (ht c (List.mem_cons_self _ _))
    obtain ⟨o1, o2, o3, o4⟩ := encodeOrdinary_sem c (countChar s)
    obtain ⟨i1, i2, i3, i4, i5⟩ := ih (fun c hc => ht c (List.mem_cons_of_mem _ hc))
      (fun k => clock (k + 1)) (encodeOrdinary c (countChar s))
    have ef : feed clock (c :: cs) s =
        feed (fun k => clock (k + 1)) cs (encodeOrdinary c (countChar s)) := by
      show feed (fun k => clock (k + 1)) cs (encode (clock 0) c s).2 = _
      rw [e]
    have er : results clock (c :: cs) s =
        false :: results (fun k => clock (k + 1)) cs (encodeOrdinary c (countChar s)) := by
      show (encode (clock 0) c s).1 :: results (fun k => clock (k + 1)) cs
        (encode (clock 0) c s).2 = _
      rw [e]
    rw [ef, er, i1, i2, i3, i4, i5, o1, o2, o3, o4]
    refine ⟨rfl, ?_, ?_, rfl, rfl⟩
    · show (written (if s.curTermOffset < 14 then Function.update s.term s.curTermOffset c
        else s.term) (if s.curTermOffset < 14 then s.curTermOffset + 1 else s.curTermOffset) cs)
        = written s.term s.curTermOffset (c :: cs)
      by_cases h : s.curTermOffset < 14
      · rw [if_pos h, if_pos h, written, if_pos h]
      · rw [if_neg h, if_neg h, (written_full cs s.term _ h).1, (written_full _ s.term _ h).1]
    · show offsetAfter (if s.curTermOffset < 14 then s.curTermOffset + 1 else s.curTermOffset) cs
        = offsetAfter s.curTermOffset (c :: cs)
      by_cases h : s.curTermOffset < 14
      · rw [if_pos h, offsetAfter, if_pos h]
      · rw [if_neg h, (written_full cs s.term _ h).2, (written_full (c :: cs) s.term _ h).2]

theorem dispatchKey_sem (key : Nat) (a : List Nat) (b : Nat) (x : navic_gn_rmc_gga) :
    sem (dispatchKey key a b x) = dispatchKey key a b (sem x) := by
  unfold dispatchKey
  simp only [apply_ite sem]
  rfl

theorem dataTerm_sem (a : List Nat) (b : Nat) (x : navic_gn_rmc_gga) :
    sem (dataTerm a b x) = sem (dataTerm a b (sem x)) := by
  have hd : sem (dispatch a b x) = dispatch a b (sem x) := dispatchKey_sem _ a b x
  unfold dataTerm
  dsimp only
  by_cases h : x.curSentenceType ≠ NAVIC_SENTENCE_OTHER ∧ b ≠ 0
  · have h' : (sem x).curSentenceType ≠ NAVIC_SENTENCE_OTHER ∧ b ≠ 0 := h
    rw [if_pos h, if_pos h', ← hd]
    rfl
  · have h' : ¬ ((sem x).curSentenceType ≠ NAVIC_SENTENCE_OTHER ∧ b ≠ 0) := h
    rw [if_neg h, if_neg h']
    rfl

theorem termStep_sem (t : List Nat) (x : navic_gn_rmc_gga) :
    sem (termStep t x) = sem (termStep t (sem x)) := by
  unfold termStep
  by_cases h : x.curTermNumber = 0
  · have h' : (sem x).curTermNumber = 0 := h
    rw [if_pos h, if_pos h']
    rfl
  · have h' : ¬ (sem x).curTermNumber = 0 := h
    rw [if_neg h, if_neg h']
    show sem (nextTerm 44 (sem (dataTerm (List.take 14 t) (t.headD 0) x))) = _
    rw [dataTerm_sem]
    rfl

theorem termStep_congr (t : List Nat) (x y : navic_gn_rmc_gga) (h : sem x = sem y) :
    sem (termStep t x) = sem (termStep t y) := by
  rw [termStep_sem t x, termStep_sem t y, h]

theorem handler_plain (now : Nat) (x : navic_gn_rmc_gga) (h : x.isChecksumTerm = false) :
    endOfTermHandler now x =
      (false, if x.curTermNumber = 0 then firstTerm (cstr x.term) x
        else dataTerm (cstr x.term) (x.term 0) x) := by
  unfold endOfTermHandler
  rw [if_neg (by rw [h]; exact Bool.false_ne_true)]
  by_cases h0 : x.curTermNumber = 0
  · rw [if_pos h0, if_pos h0]
  · rw [if_neg h0, if_neg h0]

theorem terminatorParity_sem (d : Nat) (x : navic_gn_rmc_gga) :
    sem (terminatorParity d x) = sem x ∧
    (terminatorParity d x).term = x.term ∧
    (terminatorParity d x).curTermOffset = x.curTermOffset ∧
    (terminatorParity d x).isChecksumTerm = x.isChecksumTerm := by
  unfold terminatorParity
  by_cases h : d = 44
  · rw [if_pos h]; exact ⟨rfl, rfl, rfl, rfl⟩
  · rw [if_neg h]; exact ⟨rfl, rfl, rfl, rfl⟩

/-- A terminator outside the checksum term, the term buffer holding the C
string `a` with first byte `b` once the NUL is written. -/
theorem encodeTerminator_plain (now d : Nat) (a : List Nat) (b : Nat) (x : navic_gn_rmc_gga)
    (h : x.isChecksumTerm = false) (ho : x.curTermOffset < 15)
    (ha : cstr (Function.update x.term x.curTermOffset 0) = a)
    (hb : Function.update x.term x.curTermOffset 0 0 = b) :
    (encodeTerminator now d x).1 = false ∧
    sem (encodeTerminator now d x).2 =
      sem (nextTerm 44 (if x.curTermNumber = 0 then firstTerm a x else dataTerm a b x)) ∧
    (encodeTerminator now d x).2.curTermOffset = 0 ∧
    (encodeTerminator now d x).2.isChecksumTerm = decide (d = 42) := by
  obtain ⟨p1, p2, p3, p4⟩ := terminatorParity_sem d x
  have hX : (terminateTerm (terminatorParity d x)).isChecksumTerm = false := p4.trans h
  have hT : (terminateTerm (terminatorParity d x)).term =
      Function.update x.term x.curTermOffset 0 := by
    show Function.update (terminatorParity d x).term (terminatorParity d x).curTermOffset 0 = _
    rw [p2, p3]
  have hs : sem (terminateTerm (terminatorParity d x)) = sem x := p1
  have hn : (terminateTerm (terminatorParity d x)).curTermNumber = x.curTermNumber := by
    have := congrArg navic_gn_rmc_gga.curTermNumber hs
    exact this
  unfold encodeTerminator
  dsimp only
  rw [if_pos (by rw [p3]; exact ho), handler_plain now _ hX, hT, ha, hb, hn]
  refine ⟨rfl, ?_, rfl, rfl⟩
  show sem (nextTerm 44 (if x.curTermNumber = 0
    then firstTerm a (terminateTerm (terminatorParity d x))
    else dataTerm a b (terminateTerm (terminatorParity d x)))) = _
  by_cases h0 : x.curTermNumber = 0
  · rw [if_pos h0, if_pos h0]
    show sem (nextTerm 44 (firstTerm a (sem (terminateTerm (terminatorParity d x))))) = _
    rw [hs]
    rfl
  · rw [if_neg h0, if_neg h0]
    show sem (nextTerm 44 (sem (dataTerm a b (terminateTerm (terminatorParity d x))))) = _
    rw [dataTerm_sem, hs, ← dataTerm_sem]
    rfl

/-- A term of ordinary characters without NUL, then its terminator, from the
start of a term outside the checksum term: the decoder takes the term-level
step `termStep`. -/
theorem feed_term (t : List Nat) (ht : ∀ c ∈ t, isOrdinary c ∧ c ≠ 0) (d : Nat)
    (hd : d = 44 ∨ d = 13 ∨ d = 10 ∨ d = 42) (clock : Nat → Nat) (s : navic_gn_rmc_gga)
    (h : s.isChecksumTerm = false) (ho : s.curTermOffset = 0) :
    sem (feed clock (t ++ [d]) s) = sem (termStep t s) ∧
    (feed clock (t ++ [d]) s).curTermOffset = 0 ∧
    (feed clock (t ++ [d]) s).isChecksumTerm = decide (d = 42) ∧
    results clock (t ++ [d]) s = List.replicate (t.length + 1) false := by
  obtain ⟨f1, f2, f3, f4, f5⟩ := feed_ordinary t (fun c hc => (ht c hc).1) clock s
  obtain ⟨w1, w2⟩ := cstr_written t (fun c hc => (ht c hc).2) s.term
  rw [ho] at f2 f3
  have hoff : (feed clock t s).curTermOffset < 15 := by
    rw [f3]
    have := (offsetAfter_ge t 0).2 (by omega)
    omega
  have e := encode_terminator_eq (clock (0 + t.length)) d (feed clock t s) hd
  obtain ⟨t1, t2, t3, t4⟩ := encodeTerminator_plain (clock (0 + t.length)) d (t.take 14)
    (t.headD 0) (countChar (feed clock t s)) (f4.trans h) hoff
    (by show cstr (Function.update (feed clock t s).term (feed clock t s).curTermOffset 0) = _
        rw [f2, f3]; exact w1)
    (by show Function.update (feed clock t s).term (feed clock t s).curTermOffset 0 0 = _
        rw [f2, f3]; exact w2)
  rw [← e] at t1 t2 t3 t4
  have ef : feed clock (t ++ [d]) s = (encode (clock (0 + t.length)) d (feed clock t s)).2 := by
    rw [feed_append]
    rfl
  have er : results clock (t ++ [d]) s =
      List.replicate t.length false ++ [(encode (clock (0 + t.length)) d (feed clock t s)).1] := by
    rw [results_append, f5]
    rfl
  rw [ef, er, t1]
  refine ⟨?_, t3, t4, ?_⟩
  · rw [t2]
    have hc : sem (countChar (feed clock t s)) = sem s := f1
    show sem (termStep t (countChar (feed clock t s))) = _
    exact termStep_congr t _ _ hc
  · rw [List.replicate_succ']

theorem runTerms_congr (l : List (List Nat)) : ∀ (x y : navic_gn_rmc_gga), sem x = sem y →
    sem (runTerms x l) = sem (runTerms y l) := by
  induction l with
  | nil => intro x y h; exact h
  | cons t ts ih =>
    intro x y h
    exact ih _ _ (termStep_congr t x y h)

theorem isField_ordinary (t : List Nat) (ht : isField t) : ∀ c ∈ t, isOrdinary c ∧ c ≠ 0 := by
  intro c hc
  have := ht c hc
  unfold isFieldChar at this
  unfold isOrdinary
  omega

/-- The terms of a sentence body followed by `'*'`, from the start of a term
outside the checksum term: the decoder takes the term-level run. -/
theorem feed_terms (us : List (List Nat)) :
    ∀ (t : List Nat) (clock : Nat → Nat) (s : navic_gn_rmc_gga),
    isField t → (∀ u ∈ us, isField u) → s.isChecksumTerm = false → s.curTermOffset = 0 →
    sem (feed clock (bodyOf t us ++ [42]) s) = sem (runTerms s (t :: us)) ∧
    (feed clock (bodyOf t us ++ [42]) s).curTermOffset = 0 ∧
    (feed clock (bodyOf t us ++ [42]) s).isChecksumTerm = true ∧
    results clock (bodyOf t us ++ [42]) s =
      List.replicate ((bodyOf t us).length + 1) false := by
  induction us with
  | nil =>
    intro t clock s ht _ h ho
    obtain ⟨a1, a2, a3, a4⟩ := feed_term t (isField_ordinary t ht) 42 (by omega) clock s h ho
    exact ⟨a1, a2, a3, a4⟩
  | cons u us ih =>
    intro t clock s ht hus h ho
    obtain ⟨a1, a2, a3, a4⟩ := feed_term t (isField_ordinary t ht) 44 (by omega) clock s h ho
    obtain ⟨b1, b2, b3, b4⟩ := ih u (fun k => clock (k + (t ++ [44]).length))
      (feed clock (t ++ [44]) s) (hus u (List.mem_cons_self _ _))
      (fun v hv => hus v (List.mem_cons_of_mem _ hv)) a3 a2
    have e : bodyOf t (u :: us) ++ [42] = (t ++ [44]) ++ (bodyOf u us ++ [42]) := by
      simp [bodyOf]
    rw [e, feed_append, results_append, a4, b4]
    refine ⟨?_, b2, b3, ?_⟩
    · rw [b1]
      exact runTerms_congr (u :: us) _ _ a1
    · rw [← List.replicate_add]
      congr 1
      simp [bodyOf]
      omega

theorem commitBuiltin_sem (now : Nat) (x : navic_gn_rmc_gga) :
    sem (commitBuiltin now x) = commitBuiltin now (sem x) := by
  unfold commitBuiltin
  dsimp only [sem]
  by_cases h1 : x.curSentenceType = NAVIC_SENTENCE_GNRMC <;>
    by_cases h2 : x.curSentenceType = NAVIC_SENTENCE_GNGGA <;>
    by_cases hf : x.sentenceHasFix = true <;>
    simp only [h1, h2, hf, if_true, if_false] <;> rfl

theorem countFix_sem (x : navic_gn_rmc_gga) : sem (countFix x) = countFix (sem x) := by
  unfold countFix
  by_cases hf : x.sentenceHasFix = true
  · have hf' : (sem x).sentenceHasFix = true := hf
    rw [if_pos hf, if_pos hf']
    rfl
  · have hf' : ¬ (sem x).sentenceHasFix = true := hf
    rw [if_neg hf, if_neg hf']

theorem commitSentence_sem (now : Nat) (x : navic_gn_rmc_gga) :
    sem (commitSentence now x) = commitSentence now (sem x) := by
  unfold commitSentence
  show commitCustoms now (sem (commitBuiltin now (countFix (countPassed x)))) = _
  rw [commitBuiltin_sem, countFix_sem]
  rfl

theorem feed_ordinary_parity (t : List Nat) (ht : ∀ c ∈ t, isOrdinary c) :
    ∀ (clock : Nat → Nat) (s : navic_gn_rmc_gga), s.isChecksumTerm = true →
    (feed clock t s).parity = s.parity := by
  induction t with
  | nil => intro clock s _; rfl
  | cons c cs ih =>
    intro clock s h
    have e := encode_ordinary_eq (clock 0) c s (ht c (List.mem_cons_self _ _))
    have hc := encodeOrdinary_scan c (countChar s)
    have h' : (countChar s).isChecksumTerm = true := h
    rw [if_pos h'] at hc
    simp only [ctl, Prod.mk.injEq] at hc
    show (feed (fun k => clock (k + 1)) cs (encode (clock 0) c s).2).parity = _
    rw [e, ih (fun c hc => ht c (List.mem_cons_of_mem _ hc)) _ _ (hc.2.1.trans h'), hc.1]
    rfl

/-- The carriage return that ends a checksum term whose value matches the
parity: `encode` returns true and the sentence is committed. -/
theorem encode_cr_commit (now : Nat) (s : navic_gn_rmc_gga) (h : s.isChecksumTerm = true)
    (ho : s.curTermOffset < 15)
    (hk : ((16 * fromHex (Function.update s.term s.curTermOffset 0 0) +
      fromHex (Function.update s.term s.curTermOffset 0 1)) % 256 : Int) = (s.parity : Int)) :
    encode now 13 s = (true, nextTerm 13 (commitSentence now (terminateTerm (countChar s)))) := by
  have hp : terminatorParity 13 (countChar s) = countChar s := by
    unfold terminatorParity
    rw [if_neg (by omega)]
  have hX : (terminateTerm (countChar s)).isChecksumTerm = true := h
  rw [encode_terminator_eq now 13 s (by omega)]
  unfold encodeTerminator
  dsimp only
  rw [hp, if_pos (show (countChar s).curTermOffset < 15 from ho)]
  unfold endOfTermHandler
  rw [if_pos hX]
  unfold checksumTerm
  dsimp only
  rw [if_pos (show ((16 * fromHex ((terminateTerm (countChar s)).term 0) +
    fromHex ((terminateTerm (countChar s)).term 1)) % 256 : Int) =
    ((terminateTerm (countChar s)).parity : Int) from hk)]

theorem bodyOf_chars (us : List (List Nat)) : ∀ t : List Nat, isField t →
    (∀ u ∈ us, isField u) →
    ∀ c ∈ bodyOf t us, c < 256 ∧ c ≠ 36 ∧ c ≠ 42 ∧ c ≠ 13 ∧ c ≠ 10 := by
  induction us with
  | nil =>
    intro t ht _ c hc
    have := ht c hc
    unfold isFieldChar at this
    omega
  | cons u us ih =>
    intro t ht hus c hc
    simp only [bodyOf, List.mem_append, List.mem_cons] at hc
    rcases hc with hc | hc | hc
    · have := ht c hc
      unfold isFieldChar at this
      omega
    · omega
    · exact ih u (hus u (List.mem_cons_self _ _))
        (fun v hv => hus v (List.mem_cons_of_mem _ hv)) c hc

/-- The two checksum characters and the carriage return, the checksum value
matching the parity: `encode` returns true on the carriage return and the
sentence is committed. -/
theorem checksum_commit (clock : Nat → Nat) (sB : navic_gn_rmc_gga) (h1 h2 : Nat)
    (o1 : isOrdinary h1) (o2 : isOrdinary h2) (hc : sB.isChecksumTerm = true)
    (ho : sB.curTermOffset = 0)
    (hk : ((16 * fromHex h1 + fromHex h2) % 256 : Int) = (sB.parity : Int)) :
    results clock ([h1, h2] ++ [13]) sB = [false, false, true] ∧
    ∃ now, sem (feed clock ([h1, h2] ++ [13]) sB) =
      sem (nextTerm 13 (commitSentence now (sem sB))) := by
  have hord : ∀ c ∈ [h1, h2], isOrdinary c := by
    intro c hc
    simp only [List.mem_cons, List.mem_singleton, List.not_mem_nil, or_false] at hc
    rcases hc with rfl | rfl
    · exact o1
    · exact o2
  obtain ⟨d1, d2, d3, d4, d5⟩ := feed_ordinary [h1, h2] hord clock sB
  have d6 := feed_ordinary_parity [h1, h2] hord clock sB hc
  rw [ho] at d2 d3
  rw [hc] at d4
  have d3' : (feed clock [h1, h2] sB).curTermOffset = 2 := d3
  have d2' : (feed clock [h1, h2] sB).term =
      Function.update (Function.update sB.term 0 h1) 1 h2 := d2
  rw [feed_append, results_append, d5]
  generalize feed clock [h1, h2] sB = sC at d1 d4 d6 d2' d3'
  have hoff : sC.curTermOffset < 15 := by rw [d3']; omega
  have hk2 : ((16 * fromHex (Function.update sC.term sC.curTermOffset 0 0) +
      fromHex (Function.update sC.term sC.curTermOffset 0 1)) % 256 : Int) = (sC.parity : Int) := by
    rw [d2', d3', (update_update_read _ h1 h2).1, (update_update_read _ h1 h2).2, d6]
    exact hk
  have ecr := encode_cr_commit (clock (0 + [h1, h2].length)) sC d4 hoff hk2
  have er : results (fun k => clock (k + [h1, h2].length)) [13] sC =
      [(encode (clock (0 + [h1, h2].length)) 13 sC).1] := rfl
  have ef : feed (fun k => clock (k + [h1, h2].length)) [13] sC =
      (encode (clock (0 + [h1, h2].length)) 13 sC).2 := rfl
  rw [er, ef, ecr]
  refine ⟨rfl, clock (0 + [h1, h2].length), ?_⟩
  show sem (nextTerm 13 (sem (commitSentence _ (terminateTerm (countChar sC))))) = _
  rw [commitSentence_sem]
  have hs : sem (terminateTerm (countChar sC)) = sem sB := d1
  rw [hs, ← commitSentence_sem]

/-- The parity when the checksum marker has been processed: the XOR of the
body bytes. -/
theorem parity_at_marker (clock : Nat → Nat) (s0 : navic_gn_rmc_gga) (body : List Nat)
    (hb : ∀ c ∈ body, c < 256 ∧ c ≠ 36 ∧ c ≠ 42 ∧ c ≠ 13 ∧ c ≠ 10)
    (hc : s0.isChecksumTerm = false) (hp : s0.parity = 0) :
    (feed clock (body ++ [42]) s0).parity = xorAll body := by
  have hx := (parityFold_eq_xorAll body (fun c hc => (hb c hc).1))
  obtain ⟨-, b2⟩ := body_scan body (fun c hc => (hb c hc).2) clock s0 hc
  simp only [ctl, Prod.mk.injEq] at b2
  rw [feed_append]
  generalize feed clock body s0 = sA at b2
  obtain ⟨-, c2, -⟩ := encodeTerminator_scan (clock (0 + body.length)) 42 (countChar sA) b2.2.1
  rw [← encode_terminator_eq _ 42 _ (by omega)] at c2
  simp only [ctl, Prod.mk.injEq, if_neg (show ¬ (42 = 44) by omega)] at c2
  have ef : feed (fun k => clock (k + body.length)) [42] sA =
      (encode (clock (0 + body.length)) 42 sA).2 := rfl
  rw [ef, c2.1]
  show sA.parity = _
  rw [b2.1, hp]
  exact hx.1

/-- Refinement of the character-level decoder by the term-level run: a
well-formed sentence with a correct checksum, fed character by character to
any decoder, returns true exactly on the carriage return and leaves the decoder
in the state the term-level run followed by the commit gives, up to the scanner
state. -/
theorem sentence_sem (clock : Nat → Nat) (s : navic_gn_rmc_gga) (name : List Nat)
    (ts : List (List Nat)) (h1 h2 : Nat) (hname : isField name) (hts : ∀ t ∈ ts, isField t)
    (hh1 : isHexOf (xorAll (bodyOf name ts) / 16) h1)
    (hh2 : isHexOf (xorAll (bodyOf name ts) % 16) h2) :
    results clock (sentence name ts h1 h2) s =
      List.replicate ((bodyOf name ts).length + 4) false ++ [true] ∧
    ∃ now, sem (feed clock (sentence name ts h1 h2) s) =
      sem (nextTerm 13 (commitSentence now (runTerms (encodeBegin s) (name :: ts)))) := by
  obtain ⟨f1, o1⟩ := isHexOf_fromHex _ _ hh1
  obtain ⟨f2, o2⟩ := isHexOf_fromHex _ _ hh2
  have hchars := bodyOf_chars ts name hname hts
  have hx := (parityFold_eq_xorAll (bodyOf name ts) (fun c hc => (hchars c hc).1))
  have e0 : encode (clock 0) 36 s = (false, encodeBegin (countChar s)) := by
    unfold encode
    dsimp only
    rw [if_neg (by omega), if_pos rfl]
  obtain ⟨a1, a2, a3, a4⟩ := feed_terms ts name (fun k => clock (k + 1))
    (encodeBegin (countChar s)) hname hts rfl rfl
  have hpar := parity_at_marker (fun k => clock (k + 1)) (encodeBegin (countChar s))
    (bodyOf name ts) hchars rfl rfl
  have hk : ((16 * fromHex h1 + fromHex h2) % 256 : Int) = (xorAll (bodyOf name ts) : Int) := by
    rw [f1, f2]
    have := hx.2
    omega
  have esent : sentence name ts h1 h2 =
      36 :: ((bodyOf name ts ++ [42]) ++ ([h1, h2] ++ [13])) := by
    simp [sentence]
  have ef : ∀ l, feed clock (36 :: l) s =
      feed (fun k => clock (k + 1)) l (encodeBegin (countChar s)) := by
    intro l
    show feed (fun k => clock (k + 1)) l (encode (clock 0) 36 s).2 = _
    rw [e0]
  have er : ∀ l, results clock (36 :: l) s =
      false :: results (fun k => clock (k + 1)) l (encodeBegin (countChar s)) := by
    intro l
    show (encode (clock 0) 36 s).1 :: results (fun k => clock (k + 1)) l
      (encode (clock 0) 36 s).2 = _
    rw [e0]
  rw [esent, ef, er, feed_append, results_append, a4]
  generalize feed (fun k => clock (k + 1)) (bodyOf name ts ++ [42])
    (encodeBegin (countChar s)) = sB at a1 a2 a3 hpar
  obtain ⟨t1, now, t2⟩ := checksum_commit
    (fun k => clock (k + (bodyOf name ts ++ [42]).length + 1)) sB h1 h2 o1 o2 a3 a2
    (by rw [hpar]; exact hk)
  rw [t1]
  constructor
  · have hrep : ∀ (n : Nat) (l : List Bool),
        List.replicate n false ++ false :: l = false :: (List.replicate n false ++ l) := by
      intro n l
      induction n with
      | zero => rfl
      | succ n ih => rw [List.replicate_succ, List.cons_append, ih, List.cons_append]
    rw [hrep, hrep, List.replicate_succ, List.replicate_succ, List.replicate_succ,
      List.replicate_succ, List.replicate_succ]
    rfl
  · refine ⟨now, ?_⟩
    have hs : sem sB = sem (runTerms (encodeBegin s) (name :: ts)) := by
      rw [a1]
      exact runTerms_congr _ _ _ rfl
    rw [t2]
    show sem (nextTerm 13 (sem (commitSentence now (sem sB)))) =
      sem (nextTerm 13 (sem (commitSentence now (runTerms (encodeBegin s) (name :: ts)))))
    rw [commitSentence_sem, commitSentence_sem now (runTerms _ _),
      show sem (sem sB) = sem sB from rfl, hs]

theorem strcmp_eq_zero (a : List Nat) : ∀ b : List Nat, strcmp a b = 0 ↔ a = b := by
  induction a with
  | nil =>
    intro b
    cases b with
    | nil => simp [strcmp]
    | cons y ys => simp [strcmp]
  | cons x xs ih =>
    intro b
    cases b with
    | nil => simp [strcmp]
    | cons y ys =>
      unfold strcmp
      by_cases h1 : x < y
      · rw [if_pos h1]
        simp
        omega
      · rw [if_neg h1]
        by_cases h2 : y < x
        · rw [if_pos h2]
          simp
          omega
        · rw [if_neg h2, ih]
          have : x = y := by omega
          simp [this]

theorem COMBINE_rmc (k : Nat) (hk : k < 32) : COMBINE NAVIC_SENTENCE_GNRMC k = 32 + k := by
  revert k
  decide

theorem COMBINE_gga (k : Nat) : COMBINE NAVIC_SENTENCE_GNGGA k = k := by
  unfold COMBINE NAVIC_SENTENCE_GNGGA
  simp

/-- The dispatch `switch` with the values of its case labels. -/
theorem dispatchKey_eq (key : Nat) (term : List Nat) (term0 : Nat) (s : navic_gn_rmc_gga) :
    dispatchKey key term term0 s =
      if key = 33 ∨ key = 1 then { s with time := s.time.setTime term }
      else if key = 34 then { s with sentenceHasFix := decide (term0 = 65) }
      else if key = 35 ∨ key = 2 then { s with location := s.location.setLatitude term }
      else if key = 36 ∨ key = 3 then
        { s with location := { s.location with rawNewLatData := { s.location.rawNewLatData with negative := decide (term0 = 83) } } }
      else if key = 37 ∨ key = 4 then { s with location := s.location.setLongitude term }
      else if key = 38 ∨ key = 5 then
        { s with location := { s.location with rawNewLngData := { s.location.rawNewLngData with negative := decide (term0 = 87) } } }
      else if key = 39 then { s with speed := s.speed.set term }
      else if key = 40 then { s with course := s.course.set term }
      else if key = 41 then { s with date := s.date.setDate term }
      else if key = 6 then { s with sentenceHasFix := decide (term0 > 48) }
      else if key = 7 then { s with satellites := s.satellites.set term }
      else if key = 8 then { s with hdop := s.hdop.set term }
      else if key = 9 then { s with altitude := s.altitude.set term }
      else s := by
  have c1 : COMBINE NAVIC_SENTENCE_GNRMC 1 = 33 := by decide
  have c2 : COMBINE NAVIC_SENTENCE_GNRMC 2 = 34 := by decide
  have c3 : COMBINE NAVIC_SENTENCE_GNRMC 3 = 35 := by decide
  have c4 : COMBINE NAVIC_SENTENCE_GNRMC 4 = 36 := by decide
  have c5 : COMBINE NAVIC_SENTENCE_GNRMC 5 = 37 := by decide
  have c6 : COMBINE NAVIC_SENTENCE_GNRMC 6 = 38 := by decide
  have c7 : COMBINE NAVIC_SENTENCE_GNRMC 7 = 39 := by decide
  have c8 : COMBINE NAVIC_SENTENCE_GNRMC 8 = 40 := by decide
  have c9 : COMBINE NAVIC_SENTENCE_GNRMC 9 = 41 := by decide
  have g1 : COMBINE NAVIC_SENTENCE_GNGGA 1 = 1 := by decide
  have g2 : COMBINE NAVIC_SENTENCE_GNGGA 2 = 2 := by decide
  have g3 : COMBINE NAVIC_SENTENCE_GNGGA 3 = 3 := by decide
  have g4 : COMBINE NAVIC_SENTENCE_GNGGA 4 = 4 := by decide
  have g5 : COMBINE NAVIC_SENTENCE_GNGGA 5 = 5 := by decide
  have g6 : COMBINE NAVIC_SENTENCE_GNGGA 6 = 6 := by decide
  have g7 : COMBINE NAVIC_SENTENCE_GNGGA 7 = 7 := by decide
  have g8 : COMBINE NAVIC_SENTENCE_GNGGA 8 = 8 := by decide
  have g9 : COMBINE NAVIC_SENTENCE_GNGGA 9 = 9 := by decide
  unfold dispatchKey
  rw [c1, c2, c3, c4, c5, c6, c7, c8, c9, g1, g2, g3, g4, g5, g6, g7, g8, g9]

theorem prop_dite {α : Sort _} (P : α → Prop) (c : Prop) [Decidable c] (a b : α)
    (ha : c → P a) (hb : ¬ c → P b) : P (if c then a else b) := by
  by_cases h : c
  · rw [if_pos h]; exact ha h
  · rw [if_neg h]; exact hb h

/-- Case analysis of the dispatch `switch` by the value of its key. -/
theorem dispatchKey_cases (P : navic_gn_rmc_gga → Prop) (key : Nat) (t : List Nat) (t0 : Nat)
    (s : navic_gn_rmc_gga)
    (h0 : ¬ (1 ≤ key ∧ key ≤ 9) → ¬ (33 ≤ key ∧ key ≤ 41) → P s)
    (h1 : key = 33 ∨ key = 1 → P { s with time := s.time.setTime t })
    (h2 : key = 34 → P { s with sentenceHasFix := decide (t0 = 65) })
    (h3 : key = 35 ∨ key = 2 → P { s with location := s.location.setLatitude t })
    (h4 : key = 36 ∨ key = 3 → P { s with location := { s.location with rawNewLatData := { s.location.rawNewLatData with negative := decide (t0 = 83) } } })
    (h5 : key = 37 ∨ key = 4 → P { s with location := s.location.setLongitude t })
    (h6 : key = 38 ∨ key = 5 → P { s with location := { s.location with rawNewLngData := { s.location.rawNewLngData with negative := decide (t0 = 87) } } })
    (h7 : key = 39 → P { s with speed := s.speed.set t })
    (h8 : key = 40 → P { s with course := s.course.set t })
    (h9 : key = 41 → P { s with date := s.date.setDate t })
    (h10 : key = 6 → P { s with sentenceHasFix := decide (t0 > 48) })
    (h11 : key = 7 → P { s with satellites := s.satellites.set t })
    (h12 : key = 8 → P { s with hdop := s.hdop.set t })
    (h13 : key = 9 → P { s with altitude := s.altitude.set t }) :
    P (dispatchKey key t t0 s) := by
  rw [dispatchKey_eq]
  refine prop_dite P _ _ _ h1 (fun n1 => ?_)
  refine prop_dite P _ _ _ h2 (fun n2 => ?_)
  refine prop_dite P _ _ _ h3 (fun n3 => ?_)
  refine prop_dite P _ _ _ h4 (fun n4 => ?_)
  refine prop_dite P _ _ _ h5 (fun n5 => ?_)
  refine prop_dite P _ _ _ h6 (fun n6 => ?_)
  refine prop_dite P _ _ _ h7 (fun n7 => ?_)
  refine prop_dite P _ _ _ h8 (fun n8 => ?_)
  refine prop_dite P _ _ _ h9 (fun n9 => ?_)
  refine prop_dite P _ _ _ h10 (fun n10 => ?_)
  refine prop_dite P _ _ _ h11 (fun n11 => ?_)
  refine prop_dite P _ _ _ h12 (fun n12 => ?_)
  refine prop_dite P _ _ _ h13 (fun n13 => ?_)
  exact h0 (by omega) (by omega)

theorem dispatched_frame (a : List Nat) (b : Nat) (s : navic_gn_rmc_gga) :
    (dispatched a b s).curTermNumber = s.curTermNumber ∧
    (dispatched a b s).curSentenceType = s.curSentenceType ∧
    (dispatched a b s).customElts = s.customElts ∧
    (dispatched a b s).customCandidates = s.customCandidates ∧
    counters (dispatched a b s) = counters s := by
  unfold dispatched
  by_cases h : s.curSentenceType ≠ NAVIC_SENTENCE_OTHER ∧ b ≠ 0
  · rw [if_pos h]
    obtain ⟨-, -, h3, h4, h5, -, -, h8, h9, h10, h11, -⟩ := dispatch_ctl a b s
    refine ⟨h8, h9, h10, h11, ?_⟩
    simp only [counters, h3, h4, h5]
  · rw [if_neg h]
    exact ⟨rfl, rfl, rfl, rfl, rfl⟩

/-- A data term at term level: what changes besides the built-in dispatch is
the staging of the custom descriptors and the term number. -/
theorem termStep_data (t : List Nat) (s : navic_gn_rmc_gga) (h : s.curTermNumber ≠ 0) :
    fields (termStep t s) = fields (dispatched (t.take 14) (t.headD 0) s) ∧
    (termStep t s).sentenceHasFix = (dispatched (t.take 14) (t.headD 0) s).sentenceHasFix ∧
    (termStep t s).curSentenceType = s.curSentenceType ∧
    (termStep t s).curTermNumber = (s.curTermNumber + 1) % 256 ∧
    (termStep t s).customCandidates = s.customCandidates ∧
    (termStep t s).customElts =
      setCustom s.curTermNumber (t.take 14) s.customElts s.customCandidates ∧
    counters (termStep t s) = counters s := by
  obtain ⟨h1, h2, h3, h4, h5⟩ := dispatched_frame (t.take 14) (t.headD 0) s
  unfold termStep
  rw [if_neg h]
  refine ⟨rfl, rfl, h2, ?_, h4, ?_, h5⟩
  · show ((dispatched (t.take 14) (t.headD 0) s).curTermNumber + 1) % 256 = _
    rw [h1]
  · show setCustom (dispatched (t.take 14) (t.headD 0) s).curTermNumber (t.take 14)
      (dispatched (t.take 14) (t.headD 0) s).customElts
      (dispatched (t.take 14) (t.headD 0) s).customCandidates = _
    rw [h1, h3, h4]

/-- The first term at term level: it fixes the sentence type and the
candidate cursor, nothing else. -/
theorem termStep_first (t : List Nat) (s : navic_gn_rmc_gga) (h : s.curTermNumber = 0) :
    fields (termStep t s) = fields s ∧
    (termStep t s).sentenceHasFix = s.sentenceHasFix ∧
    (termStep t s).curSentenceType =
      (if strcmp (t.take 14) _GNRMCterm = 0 then NAVIC_SENTENCE_GNRMC
        else if strcmp (t.take 14) _GNGGAterm = 0 then NAVIC_SENTENCE_GNGGA
        else NAVIC_SENTENCE_OTHER) ∧
    (termStep t s).curTermNumber = 1 ∧
    (termStep t s).customCandidates = findCandidates (t.take 14) s.customElts ∧
    (termStep t s).customElts = s.customElts ∧
    counters (termStep t s) = counters s := by
  unfold termStep
  rw [if_pos h]
  refine ⟨rfl, rfl, rfl, ?_, rfl, rfl, rfl⟩
  show (s.curTermNumber + 1) % 256 = 1
  rw [h]

/-- The commit of a sentence on the built-in fields: that of the commit
`switch`, which reads the sentence type and the fix flag. -/
theorem commitSentence_fields (now : Nat) (x : navic_gn_rmc_gga) :
    fields (commitSentence now x) =
      (if x.curSentenceType = NAVIC_SENTENCE_GNRMC then
        (if x.sentenceHasFix then x.location.commit now else x.location, x.date.commit now,
          x.time.commit now, if x.sentenceHasFix then x.speed.commit now else x.speed,
          if x.sentenceHasFix then x.course.commit now else x.course, x.altitude, x.satellites,
          x.hdop)
      else if x.curSentenceType = NAVIC_SENTENCE_GNGGA then
        (if x.sentenceHasFix then x.location.commit now else x.location, x.date,
          x.time.commit now, x.speed, x.course,
          if x.sentenceHasFix then x.altitude.commit now else x.altitude,
          x.satellites.commit now, x.hdop.commit now)
      else fields x) := by
  unfold commitSentence commitCustoms commitBuiltin countFix countPassed
  dsimp only
  by_cases h1 : x.curSentenceType = NAVIC_SENTENCE_GNRMC <;>
    by_cases h2 : x.curSentenceType = NAVIC_SENTENCE_GNGGA <;>
    by_cases hf : x.sentenceHasFix = true <;>
    simp only [h1, h2, hf, if_true, if_false] <;> first | rfl | skip
  all_goals (simp [fields, h1, h2, hf])

theorem commitSentence_frame (now : Nat) (x : navic_gn_rmc_gga) :
    counters (commitSentence now x) =
      ((x.passedChecksumCount + 1) % 4294967296, x.failedChecksumCount,
        if x.sentenceHasFix then (x.sentencesWithFixCount + 1) % 4294967296
        else x.sentencesWithFixCount) ∧
    (commitSentence now x).customElts = commitCustom now x.customElts x.customCandidates := by
  have hc := commitSentence_ctl now x
  simp only [ctl, Prod.mk.injEq] at hc
  refine ⟨?_, ?_⟩
  · simp only [counters, hc.2.2.1, hc.2.2.2.1, hc.2.2.2.2]
  · unfold commitSentence
    show commitCustom now (commitBuiltin now (countFix (countPassed x))).customElts
      (commitBuiltin now (countFix (countPassed x))).customCandidates = _
    rw [(commitBuiltin_ctl now _).2.1, (commitBuiltin_ctl now _).2.2]
    unfold countFix
    by_cases hf : (countPassed x).sentenceHasFix = true
    · rw [if_pos hf]; rfl
    · rw [if_neg hf]; rfl

theorem runTerms_cons (s : navic_gn_rmc_gga) (t : List Nat) (ts : List (List Nat)) :
    runTerms s (t :: ts) = runTerms (termStep t s) ts := rfl

/-- Data terms of a sentence of type OTHER leave the built-in fields and the
fix flag alone, as long as the 8-bit term number does not wrap around. -/
theorem run_other (ts : List (List Nat)) : ∀ s : navic_gn_rmc_gga,
    s.curSentenceType = NAVIC_SENTENCE_OTHER → (ts ≠ [] → s.curTermNumber ≠ 0) →
    s.curTermNumber + ts.length ≤ 256 →
    fields (runTerms s ts) = fields s ∧
    (runTerms s ts).sentenceHasFix = s.sentenceHasFix ∧
    (runTerms s ts).curSentenceType = NAVIC_SENTENCE_OTHER ∧
    counters (runTerms s ts) = counters s := by
  induction ts with
  | nil => intro s h _ _; exact ⟨rfl, rfl, h, rfl⟩
  | cons t ts ih =>
    intro s h h0 hlen
    obtain ⟨d1, d2, d3, d4, -, -, d7⟩ := termStep_data t s (h0 (List.cons_ne_nil _ _))
    have hd : dispatched (t.take 14) (t.headD 0) s = s := by
      unfold dispatched
      rw [if_neg (by rw [h]; simp)]
    rw [hd] at d1 d2
    simp only [List.length_cons] at hlen
    obtain ⟨i1, i2, i3, i4⟩ := ih (termStep t s) (d3.trans h)
      (by
        intro hne
        have : 0 < ts.length := List.length_pos.2 hne
        rw [d4]
        omega)
      (by rw [d4]; omega)
    rw [runTerms_cons]
    exact ⟨i1.trans d1, i2.trans d2, i3, i4.trans d7⟩

/-- The first term names a built-in sentence type only when it is exactly
that name: truncation to 14 characters cannot produce a 5-character name. -/
theorem take14_eq (name target : List Nat) (ht : target.length < 14) :
    name.take 14 = target ↔ name = target := by
  constructor
  · intro h
    have hl : (name.take 14).length = target.length := by rw [h]
    rw [List.length_take] at hl
    have : name.length < 14 := by omega
    rw [List.take_of_length_le (by omega)] at h
    exact h
  · intro h
    rw [h, List.take_of_length_le (by omega)]

/-- C8 (unrecognized sentence name): whatever the decoder state, a well-formed
sentence with a correct checksum and at most 255 terms after its name, whose
name is neither "GNRMC" nor "GNGGA", leaves every built-in field (pending
value, committed value, valid and updated flags, commit time) and
`sentencesWithFix` unchanged, while `encode` returns true on the character that
ends the checksum term, and only there, and `passedChecksum` is incremented
(as a 32-bit counter). -/
theorem C8_unrecognized_name (clock : Nat → Nat) (s : navic_gn_rmc_gga) (name : List Nat)
    (ts : List (List Nat)) (h1 h2 : Nat) (hname : isField name) (hts : ∀ t ∈ ts, isField t)
    (hlen : ts.length < 256)
    (hh1 : isHexOf (xorAll (bodyOf name ts) / 16) h1)
    (hh2 : isHexOf (xorAll (bodyOf name ts) % 16) h2)
    (hrmc : name ≠ _GNRMCterm) (hgga : name ≠ _GNGGAterm) :
    fields (feed clock (sentence name ts h1 h2) s) = fields s ∧
    (feed clock (sentence name ts h1 h2) s).sentencesWithFixCount = s.sentencesWithFixCount ∧
    results clock (sentence name ts h1 h2) s =
      List.replicate ((bodyOf name ts).length + 4) false ++ [true] ∧
    (feed clock (sentence name ts h1 h2) s).passedChecksumCount =
      (s.passedChecksumCount + 1) % 4294967296 := by
  obtain ⟨r1, now, r2⟩ := sentence_sem clock s name ts h1 h2 hname hts hh1 hh2
  -- the term-level run
  obtain ⟨a1, a2, a3, a4, -, -, a7⟩ := termStep_first name (encodeBegin s) rfl
  have htype : (termStep name (encodeBegin s)).curSentenceType = NAVIC_SENTENCE_OTHER := by
    rw [a3, if_neg, if_neg]
    · rw [strcmp_eq_zero, take14_eq _ _ (by decide)]; exact hgga
    · rw [strcmp_eq_zero, take14_eq _ _ (by decide)]; exact hrmc
  obtain ⟨b1, b2, b3, b4⟩ := run_other ts (termStep name (encodeBegin s)) htype
    (by intro _; rw [a4]; omega) (by rw [a4]; omega)
  rw [runTerms_cons] at r2
  generalize runTerms (termStep name (encodeBegin s)) ts = X at r2 b1 b2 b3 b4
  have hfix : X.sentenceHasFix = false := b2.trans a2
  have hf := commitSentence_fields now X
  obtain ⟨hc, -⟩ := commitSentence_frame now X
  rw [if_neg (by rw [b3]; decide), if_neg (by rw [b3]; decide)] at hf
  rw [hfix] at hc
  simp only [counters, Prod.mk.injEq, Bool.false_eq_true, if_false] at hc b4 a7
  generalize commitSentence now X = Y at r2 hf hc
  generalize feed clock (sentence name ts h1 h2) s = Z at r2
  have e1 : fields Z = fields Y := by
    have := congrArg fields r2
    exact this
  have e2 : Z.sentencesWithFixCount = Y.sentencesWithFixCount := by
    have := congrArg navic_gn_rmc_gga.sentencesWithFixCount r2
    exact this
  have e3 : Z.passedChecksumCount = Y.passedChecksumCount := by
    have := congrArg navic_gn_rmc_gga.passedChecksumCount r2
    exact this
  refine ⟨?_, ?_, r1, ?_⟩
  · rw [e1, hf, b1, a1]
    rfl
  · rw [e2, hc.2.2, b4.2.2, a7.2.2]
    rfl
  · rw [e3, hc.1, b4.1, a7.1]
    rfl

theorem isField_head (t : List Nat) (ht : isField t) : t.headD 0 ≠ 0 ↔ t ≠ [] := by
  cases t with
  | nil => simp
  | cons c cs =>
    have := ht c (List.mem_cons_self _ _)
    unfold isFieldChar at this
    simp
    omega

/-- The built-in dispatch of a well-formed term, by sentence type. -/
theorem dispatched_key (t : List Nat) (ht : isField t) (s : navic_gn_rmc_gga) :
    dispatched (t.take 14) (t.headD 0) s =
      if s.curSentenceType ≠ NAVIC_SENTENCE_OTHER ∧ t ≠ [] then
        dispatchKey (COMBINE s.curSentenceType s.curTermNumber) (t.take 14) (t.headD 0) s
      else s := by
  unfold dispatched dispatch
  by_cases h : s.curSentenceType ≠ NAVIC_SENTENCE_OTHER ∧ t ≠ []
  · rw [if_pos h, if_pos ⟨h.1, (isField_head t ht).2 h.2⟩]
  · rw [if_neg h, if_neg (fun hc => h ⟨hc.1, (isField_head t ht).1 hc.2⟩)]

theorem termStep_committed (t : List Nat) (s : navic_gn_rmc_gga) :
    committed (termStep t s) = committed s := by
  unfold termStep
  by_cases h : s.curTermNumber = 0
  · rw [if_pos h]; rfl
  · rw [if_neg h]
    exact dataTerm_committed _ _ _

theorem runTerms_committed (ts : List (List Nat)) : ∀ s : navic_gn_rmc_gga,
    committed (runTerms s ts) = committed s := by
  induction ts with
  | nil => intro s; rfl
  | cons t ts ih =>
    intro s
    rw [runTerms_cons, ih, termStep_committed]

/-- One data term of a GNRMC sentence with term number below 32. -/
theorem rmc_step (t : List Nat) (ht : isField t) (s : navic_gn_rmc_gga) (k : Nat)
    (htype : s.curSentenceType = NAVIC_SENTENCE_GNRMC) (hn : s.curTermNumber = k)
    (h1 : 1 ≤ k) (h32 : k < 32) :
    (termStep t s).curSentenceType = NAVIC_SENTENCE_GNRMC ∧
    (termStep t s).curTermNumber = k + 1 ∧
    counters (termStep t s) = counters s ∧
    fields (termStep t s) =
      fields (if t = [] then s else dispatchKey (32 + k) (t.take 14) (t.headD 0) s) ∧
    (termStep t s).sentenceHasFix =
      (if t = [] then s else dispatchKey (32 + k) (t.take 14) (t.headD 0) s).sentenceHasFix := by
  obtain ⟨d1, d2, d3, d4, -, -, d7⟩ := termStep_data t s (by omega)
  have hd : dispatched (t.take 14) (t.headD 0) s =
      if t = [] then s else dispatchKey (32 + k) (t.take 14) (t.headD 0) s := by
    rw [dispatched_key t ht, htype, hn, COMBINE_rmc k h32]
    by_cases he : t = []
    · rw [if_pos he, if_neg (fun hc => hc.2 he)]
    · rw [if_neg he, if_pos ⟨by decide, he⟩]
  rw [hd] at d1 d2
  refine ⟨d3.trans htype, ?_, d7, d1, d2⟩
  rw [d4, hn]
  omega

/-- One data term of a GNGGA sentence with term number below 32. -/
theorem gga_step (t : List Nat) (ht : isField t) (s : navic_gn_rmc_gga) (k : Nat)
    (htype : s.curSentenceType = NAVIC_SENTENCE_GNGGA) (hn : s.curTermNumber = k)
    (h1 : 1 ≤ k) (h32 : k < 32) :
    (termStep t s).curSentenceType = NAVIC_SENTENCE_GNGGA ∧
    (termStep t s).curTermNumber = k + 1 ∧
    counters (termStep t s) = counters s ∧
    fields (termStep t s) =
      fields (if t = [] then s else dispatchKey k (t.take 14) (t.headD 0) s) ∧
    (termStep t s).sentenceHasFix =
      (if t = [] then s else dispatchKey k (t.take 14) (t.headD 0) s).sentenceHasFix := by
  obtain ⟨d1, d2, d3, d4, -, -, d7⟩ := termStep_data t s (by omega)
  have hd : dispatched (t.take 14) (t.headD 0) s =
      if t = [] then s else dispatchKey k (t.take 14) (t.headD 0) s := by
    rw [dispatched_key t ht, htype, hn, COMBINE_gga k]
    by_cases he : t = []
    · rw [if_pos he, if_neg (fun hc => hc.2 he)]
    · rw [if_neg he, if_pos ⟨by decide, he⟩]
  rw [hd] at d1 d2
  refine ⟨d3.trans htype, ?_, d7, d1, d2⟩
  rw [d4, hn]
  omega

/-- The RMC dispatch below term 32 on the fix flag and on the fields no RMC
term sets. -/
theorem rmc_key_frame (k : Nat) (a : List Nat) (b : Nat) (s : navic_gn_rmc_gga) :
    (dispatchKey (32 + k) a b s).altitude = s.altitude ∧
    (dispatchKey (32 + k) a b s).satellites = s.satellites ∧
    (dispatchKey (32 + k) a b s).hdop = s.hdop ∧
    (dispatchKey (32 + k) a b s).sentenceHasFix =
      (if k = 2 then decide (b = 65) else s.sentenceHasFix) := by
  refine dispatchKey_cases (fun x => x.altitude = s.altitude ∧ x.satellites = s.satellites ∧
    x.hdop = s.hdop ∧ x.sentenceHasFix = (if k = 2 then decide (b = 65) else s.sentenceHasFix))
    _ a b s (fun h h' => ?_) (fun h => ?_) (fun h => ?_) (fun h => ?_) (fun h => ?_)
    (fun h => ?_) (fun h => ?_) (fun h => ?_) (fun h => ?_) (fun h => ?_) (fun h => ?_)
    (fun h => ?_) (fun h => ?_) (fun h => ?_)
  all_goals first
    | (exfalso; omega)
    | (refine ⟨rfl, rfl, rfl, ?_⟩
       by_cases hk : k = 2
       · rw [if_pos hk] <;> first | rfl | (exfalso; omega)
       · rw [if_neg hk] <;> first | rfl | (exfalso; omega))

/-- The GGA dispatch below term 32 on the fix flag and on the fields no GGA
term sets. -/
theorem gga_key_frame (k : Nat) (hk32 : k < 32) (a : List Nat) (b : Nat) (s : navic_gn_rmc_gga) :
    (dispatchKey k a b s).date = s.date ∧
    (dispatchKey k a b s).speed = s.speed ∧
    (dispatchKey k a b s).course = s.course ∧
    (dispatchKey k a b s).sentenceHasFix =
      (if k = 6 then decide (b > 48) else s.sentenceHasFix) := by
  refine dispatchKey_cases (fun x => x.date = s.date ∧ x.speed = s.speed ∧
    x.course = s.course ∧ x.sentenceHasFix = (if k = 6 then decide (b > 48) else s.sentenceHasFix))
    _ a b s (fun h h' => ?_) (fun h => ?_) (fun h => ?_) (fun h => ?_) (fun h => ?_)
    (fun h => ?_) (fun h => ?_) (fun h => ?_) (fun h => ?_) (fun h => ?_) (fun h => ?_)
    (fun h => ?_) (fun h => ?_) (fun h => ?_)
  all_goals first
    | (exfalso; omega)
    | (refine ⟨rfl, rfl, rfl, ?_⟩
       by_cases hk : k = 6
       · rw [if_pos hk] <;> first | rfl | (exfalso; omega)
       · rw [if_neg hk] <;> first | rfl | (exfalso; omega))

/-- The data terms of a GNRMC sentence, numbered from `k` on and below 32:
the type stays, the fix flag is the one term 2 sets, and altitude, satellites
and hdop are not touched. -/
theorem rmc_run (ts : List (List Nat)) : ∀ (s : navic_gn_rmc_gga) (k : Nat),
    (∀ t ∈ ts, isField t) → s.curSentenceType = NAVIC_SENTENCE_GNRMC → s.curTermNumber = k →
    1 ≤ k → k + ts.length ≤ 32 →
    (runTerms s ts).curSentenceType = NAVIC_SENTENCE_GNRMC ∧
    counters (runTerms s ts) = counters s ∧
    (runTerms s ts).altitude = s.altitude ∧
    (runTerms s ts).satellites = s.satellites ∧
    (runTerms s ts).hdop = s.hdop ∧
    (runTerms s ts).sentenceHasFix =
      (if k ≤ 2 ∧ ts.getD (2 - k) [] ≠ [] then decide ((ts.getD (2 - k) []).headD 0 = 65)
        else s.sentenceHasFix) := by
  induction ts with
  | nil =>
    intro s k _ h _ _ _
    refine ⟨h, rfl, rfl, rfl, rfl, ?_⟩
    rw [if_neg (by simp)]
    rfl
  | cons t ts ih =>
    intro s k hts htype hn h1 hlen
    simp only [List.length_cons] at hlen
    have ht := hts t (List.mem_cons_self _ _)
    obtain ⟨a1, a2, a3, a4, a5⟩ := rmc_step t ht s k htype hn h1 (by omega)
    obtain ⟨b1, b2, b3, b4, b5, b6⟩ := ih (termStep t s) (k + 1)
      (fun u hu => hts u (List.mem_cons_of_mem _ hu)) a1 a2 (by omega) (by omega)
    obtain ⟨c1, c2, c3, c4⟩ := rmc_key_frame k (t.take 14) (t.headD 0) s
    have f6 : (fields (termStep t s)).2.2.2.2.2.1 = s.altitude := by
      rw [a4]
      by_cases he : t = []
      · rw [if_pos he]; rfl
      · rw [if_neg he]; exact c1
    have f7 : (fields (termStep t s)).2.2.2.2.2.2.1 = s.satellites := by
      rw [a4]
      by_cases he : t = []
      · rw [if_pos he]; rfl
      · rw [if_neg he]; exact c2
    have f8 : (fields (termStep t s)).2.2.2.2.2.2.2 = s.hdop := by
      rw [a4]
      by_cases he : t = []
      · rw [if_pos he]; rfl
      · rw [if_neg he]; exact c3
    rw [runTerms_cons]
    refine ⟨b1, b2.trans a3, b3.trans f6, b4.trans f7, b5.trans f8, ?_⟩
    rw [b6, a5]
    by_cases hk2 : k = 2
    · subst hk2
      rw [if_neg (by omega)]
      simp only [Nat.sub_self, List.getD_cons_zero, le_refl, true_and]
      by_cases he : t = []
      · rw [if_pos he, if_neg (by simp [he])]
      · rw [if_neg he, if_pos he, c4, if_pos rfl]
    · have hfix : (if t = [] then s else dispatchKey (32 + k) (t.take 14) (t.headD 0)
          s).sentenceHasFix = s.sentenceHasFix := by
        by_cases he : t = []
        · rw [if_pos he]
        · rw [if_neg he, c4, if_neg hk2]
      rw [hfix]
      by_cases hk1 : k = 1
      · subst hk1
        simp only [Nat.reduceAdd, le_refl, Nat.sub_self, List.getD_cons_zero, true_and,
          Nat.one_le_ofNat, Nat.add_one_sub_one, List.getD_cons_succ]
      · rw [if_neg (by omega), if_neg (by omega)]

theorem head_eq (t : List Nat) (c : Nat) (hc : c ≠ 0) : t.headD 0 = c ↔ t.head? = some c := by
  cases t with
  | nil => simp; omega
  | cons x xs => simp

/-- The state in which a GNRMC sentence is committed: type, fix flag, and
what the terms have left alone. -/
theorem rmc_sentence_run (s : navic_gn_rmc_gga) (ts : List (List Nat))
    (hts : ∀ t ∈ ts, isField t) (hlen : ts.length < 32) :
    (runTerms (encodeBegin s) (_GNRMCterm :: ts)).curSentenceType = NAVIC_SENTENCE_GNRMC ∧
    (runTerms (encodeBegin s) (_GNRMCterm :: ts)).sentenceHasFix =
      decide ((ts.getD 1 []).head? = some 65) ∧
    (runTerms (encodeBegin s) (_GNRMCterm :: ts)).altitude = s.altitude ∧
    (runTerms (encodeBegin s) (_GNRMCterm :: ts)).satellites = s.satellites ∧
    (runTerms (encodeBegin s) (_GNRMCterm :: ts)).hdop = s.hdop ∧
    committed (runTerms (encodeBegin s) (_GNRMCterm :: ts)) = committed s ∧
    counters (runTerms (encodeBegin s) (_GNRMCterm :: ts)) = counters s := by
  obtain ⟨a1, a2, a3, a4, -, -, a7⟩ := termStep_first _GNRMCterm (encodeBegin s) rfl
  have htype : (termStep _GNRMCterm (encodeBegin s)).curSentenceType = NAVIC_SENTENCE_GNRMC := by
    rw [a3, if_pos]
    rw [strcmp_eq_zero]
    rfl
  obtain ⟨b1, b2, b3, b4, b5, b6⟩ := rmc_run ts (termStep _GNRMCterm (encodeBegin s)) 1 hts
    htype a4 (le_refl _) (by omega)
  have hc := runTerms_committed (_GNRMCterm :: ts) (encodeBegin s)
  rw [runTerms_cons] at hc ⊢
  have f6 : (termStep _GNRMCterm (encodeBegin s)).altitude = s.altitude := by
    have := congrArg (fun q => q.2.2.2.2.2.1) a1
    exact this
  have f7 : (termStep _GNRMCterm (encodeBegin s)).satellites = s.satellites := by
    have := congrArg (fun q => q.2.2.2.2.2.2.1) a1
    exact this
  have f8 : (termStep _GNRMCterm (encodeBegin s)).hdop = s.hdop := by
    have := congrArg (fun q => q.2.2.2.2.2.2.2) a1
    exact this
  refine ⟨b1, ?_, b3.trans f6, b4.trans f7, b5.trans f8, hc, b2.trans a7⟩
  rw [b6, a2]
  show (if 1 ≤ 2 ∧ ts.getD (2 - 1) [] ≠ [] then decide ((ts.getD (2 - 1) []).headD 0 = 65)
    else false) = _
  by_cases he : ts.getD (2 - 1) [] = []
  · rw [if_neg (fun hc => hc.2 he)]
    have : ts.getD 1 [] = [] := he
    rw [this]
    rfl
  · rw [if_pos ⟨by omega, he⟩]
    have := head_eq (ts.getD 1 []) 65 (by omega)
    exact decide_eq_decide.2 this

/-- The refinement theorem in terms of fields, counters and registry. -/
theorem sentence_commit (clock : Nat → Nat) (s : navic_gn_rmc_gga) (name : List Nat)
    (ts : List (List Nat)) (h1 h2 : Nat) (hname : isField name) (hts : ∀ t ∈ ts, isField t)
    (hh1 : isHexOf (xorAll (bodyOf name ts) / 16) h1)
    (hh2 : isHexOf (xorAll (bodyOf name ts) % 16) h2) :
    results clock (sentence name ts h1 h2) s =
      List.replicate ((bodyOf name ts).length + 4) false ++ [true] ∧
    ∃ now,
      fields (feed clock (sentence name ts h1 h2) s) =
        fields (commitSentence now (runTerms (encodeBegin s) (name :: ts))) ∧
      counters (feed clock (sentence name ts h1 h2) s) =
        counters (commitSentence now (runTerms (encodeBegin s) (name :: ts))) ∧
      (feed clock (sentence name ts h1 h2) s).customElts =
        (commitSentence now (runTerms (encodeBegin s) (name :: ts))).customElts := by
  obtain ⟨r1, now, r2⟩ := sentence_sem clock s name ts h1 h2 hname hts hh1 hh2
  refine ⟨r1, now, ?_, ?_, ?_⟩
  · generalize commitSentence now (runTerms (encodeBegin s) (name :: ts)) = Y at r2
    generalize feed clock (sentence name ts h1 h2) s = Z at r2
    have := congrArg fields r2
    exact this
  · generalize commitSentence now (runTerms (encodeBegin s) (name :: ts)) = Y at r2
    generalize feed clock (sentence name ts h1 h2) s = Z at r2
    have := congrArg counters r2
    exact this
  · generalize commitSentence now (runTerms (encodeBegin s) (name :: ts)) = Y at r2
    generalize feed clock (sentence name ts h1 h2) s = Z at r2
    have := congrArg navic_gn_rmc_gga.customElts r2
    exact this

/-- C4 (RMC commit rule): whatever the decoder state, after a well-formed
GNRMC sentence with a correct checksum and at most 31 terms after the name,
date and time are valid and updated; if term 2 begins with `'A'`, location,
speed and course are valid and updated too; if term 2 is absent, empty or
begins with another character, the flags, committed values and commit times of
location, speed and course are unchanged; altitude, satellites and hdop are
unchanged in both cases. -/
theorem C4_rmc_commit (clock : Nat → Nat) (s : navic_gn_rmc_gga) (ts : List (List Nat))
    (h1 h2 : Nat) (hts : ∀ t ∈ ts, isField t) (hlen : ts.length < 32)
    (hh1 : isHexOf (xorAll (bodyOf _GNRMCterm ts) / 16) h1)
    (hh2 : isHexOf (xorAll (bodyOf _GNRMCterm ts) % 16) h2) :
    ((feed clock (sentence _GNRMCterm ts h1 h2) s).date.valid = true ∧
      (feed clock (sentence _GNRMCterm ts h1 h2) s).date.updated = true ∧
      (feed clock (sentence _GNRMCterm ts h1 h2) s).time.valid = true ∧
      (feed clock (sentence _GNRMCterm ts h1 h2) s).time.updated = true) ∧
    ((ts.getD 1 []).head? = some 65 →
      (feed clock (sentence _GNRMCterm ts h1 h2) s).location.valid = true ∧
      (feed clock (sentence _GNRMCterm ts h1 h2) s).location.updated = true ∧
      (feed clock (sentence _GNRMCterm ts h1 h2) s).speed.valid = true ∧
      (feed clock (sentence _GNRMCterm ts h1 h2) s).speed.updated = true ∧
      (feed clock (sentence _GNRMCterm ts h1 h2) s).course.valid = true ∧
      (feed clock (sentence _GNRMCterm ts h1 h2) s).course.updated = true) ∧
    ((ts.getD 1 []).head? ≠ some 65 →
      (feed clock (sentence _GNRMCterm ts h1 h2) s).location.visible = s.location.visible ∧
      (feed clock (sentence _GNRMCterm ts h1 h2) s).speed.visible = s.speed.visible ∧
      (feed clock (sentence _GNRMCterm ts h1 h2) s).course.visible = s.course.visible) ∧
    (feed clock (sentence _GNRMCterm ts h1 h2) s).altitude = s.altitude ∧
    (feed clock (sentence _GNRMCterm ts h1 h2) s).satellites = s.satellites ∧
    (feed clock (sentence _GNRMCterm ts h1 h2) s).hdop = s.hdop := by
  obtain ⟨-, now, r, -, -⟩ := sentence_commit clock s _GNRMCterm ts h1 h2 (by decide) hts hh1 hh2
  obtain ⟨x1, x2, x3, x4, x5, x6, -⟩ := rmc_sentence_run s ts hts hlen
  have hf := commitSentence_fields now (runTerms (encodeBegin s) (_GNRMCterm :: ts))
  rw [if_pos x1, x2] at hf
  rw [hf] at r
  generalize runTerms (encodeBegin s) (_GNRMCterm :: ts) = X at r x3 x4 x5 x6
  generalize feed clock (sentence _GNRMCterm ts h1 h2) s = Z at r
  simp only [fields, Prod.mk.injEq] at r
  obtain ⟨rl, rd, rt, rs, rc, ra, rsat, rh⟩ := r
  have hv : X.location.visible = s.location.visible ∧ X.speed.visible = s.speed.visible ∧
      X.course.visible = s.course.visible :=
    ⟨congrArg Committed.location x6, congrArg Committed.speed x6,
      congrArg Committed.course x6⟩
  refine ⟨?_, ?_, ?_, ra.trans x3, rsat.trans x4, rh.trans x5⟩
  · rw [rd, rt]
    exact ⟨rfl, rfl, rfl, rfl⟩
  · intro hA
    rw [decide_eq_true hA] at rl rs rc
    rw [rl, rs, rc]
    exact ⟨rfl, rfl, rfl, rfl, rfl, rfl⟩
  · intro hA
    rw [decide_eq_false hA] at rl rs rc
    rw [rl, rs, rc]
    exact hv

/-- The data terms of a GNGGA sentence, numbered from `k` on and below 32:
the type stays, the fix flag is the one term 6 sets, and date, speed and
course are not touched. -/
theorem gga_run (ts : List (List Nat)) : ∀ (s : navic_gn_rmc_gga) (k : Nat),
    (∀ t ∈ ts, isField t) → s.curSentenceType = NAVIC_SENTENCE_GNGGA → s.curTermNumber = k →
    1 ≤ k → k + ts.length ≤ 32 →
    (runTerms s ts).curSentenceType = NAVIC_SENTENCE_GNGGA ∧
    counters (runTerms s ts) = counters s ∧
    (runTerms s ts).date = s.date ∧
    (runTerms s ts).speed = s.speed ∧
    (runTerms s ts).course = s.course ∧
    (runTerms s ts).sentenceHasFix =
      (if k ≤ 6 ∧ ts.getD (6 - k) [] ≠ [] then decide ((ts.getD (6 - k) []).headD 0 > 48)
        else s.sentenceHasFix) := by
  induction ts with
  | nil =>
    intro s k _ h _ _ _
    refine ⟨h, rfl, rfl, rfl, rfl, ?_⟩
    rw [if_neg (by simp)]
    rfl
  | cons t ts ih =>
    intro s k hts htype hn h1 hlen
    simp only [List.length_cons] at hlen
    have ht := hts t (List.mem_cons_self _ _)
    obtain ⟨a1, a2, a3, a4, a5⟩ := gga_step t ht s k htype hn h1 (by omega)
    obtain ⟨b1, b2, b3, b4, b5, b6⟩ := ih (termStep t s) (k + 1)
      (fun u hu => hts u (List.mem_cons_of_mem _ hu)) a1 a2 (by omega) (by omega)
    obtain ⟨c1, c2, c3, c4⟩ := gga_key_frame k (by omega) (t.take 14) (t.headD 0) s
    have f2 : (fields (termStep t s)).2.1 = s.date := by
      rw [a4]
      by_cases he : t = []
      · rw [if_pos he]; rfl
      · rw [if_neg he]; exact c1
    have f4 : (fields (termStep t s)).2.2.2.1 = s.speed := by
      rw [a4]
      by_cases he : t = []
      · rw [if_pos he]; rfl
      · rw [if_neg he]; exact c2
    have f5 : (fields (termStep t s)).2.2.2.2.1 = s.course := by
      rw [a4]
      by_cases he : t = []
      · rw [if_pos he]; rfl
      · rw [if_neg he]; exact c3
    rw [runTerms_cons]
    refine ⟨b1, b2.trans a3, b3.trans f2, b4.trans f4, b5.trans f5, ?_⟩
    rw [b6, a5]
    by_cases hk6 : k = 6
    · subst hk6
      rw [if_neg (by omega)]
      simp only [Nat.sub_self, List.getD_cons_zero, le_refl, true_and]
      by_cases he : t = []
      · rw [if_pos he, if_neg (by simp [he])]
      · rw [if_neg he, if_pos he, c4, if_pos rfl]
    · have hfix : (if t = [] then s else dispatchKey k (t.take 14) (t.headD 0)
          s).sentenceHasFix = s.sentenceHasFix := by
        by_cases he : t = []
        · rw [if_pos he]
        · rw [if_neg he, c4, if_neg hk6]
      rw [hfix]
      by_cases hk5 : k < 6
      · have e : 6 - k = (6 - (k + 1)) + 1 := by omega
        rw [e, List.getD_cons_succ]
        by_cases hc : ts.getD (6 - (k + 1)) [] = []
        · rw [if_neg (fun h => h.2 hc), if_neg (fun h => h.2 hc)]
        · rw [if_pos ⟨by omega, hc⟩, if_pos ⟨by omega, hc⟩]
      · rw [if_neg (by omega), if_neg (by omega)]

/-- The state in which a GNGGA sentence is committed. -/
theorem gga_sentence_run (s : navic_gn_rmc_gga) (ts : List (List Nat))
    (hts : ∀ t ∈ ts, isField t) (hlen : ts.length < 32) :
    (runTerms (encodeBegin s) (_GNGGAterm :: ts)).curSentenceType = NAVIC_SENTENCE_GNGGA ∧
    (runTerms (encodeBegin s) (_GNGGAterm :: ts)).sentenceHasFix =
      decide (48 < (ts.getD 5 []).headD 0) ∧
    (runTerms (encodeBegin s) (_GNGGAterm :: ts)).date = s.date ∧
    (runTerms (encodeBegin s) (_GNGGAterm :: ts)).speed = s.speed ∧
    (runTerms (encodeBegin s) (_GNGGAterm :: ts)).course = s.course ∧
    committed (runTerms (encodeBegin s) (_GNGGAterm :: ts)) = committed s ∧
    counters (runTerms (encodeBegin s) (_GNGGAterm :: ts)) = counters s := by
  obtain ⟨a1, a2, a3, a4, -, -, a7⟩ := termStep_first _GNGGAterm (encodeBegin s) rfl
  have htype : (termStep _GNGGAterm (encodeBegin s)).curSentenceType = NAVIC_SENTENCE_GNGGA := by
    rw [a3, if_neg, if_pos]
    · rw [strcmp_eq_zero]
      rfl
    · rw [strcmp_eq_zero]
      decide
  obtain ⟨b1, b2, b3, b4, b5, b6⟩ := gga_run ts (termStep _GNGGAterm (encodeBegin s)) 1 hts
    htype a4 (le_refl _) (by omega)
  have hc := runTerms_committed (_GNGGAterm :: ts) (encodeBegin s)
  rw [runTerms_cons] at hc ⊢
  have f2 : (termStep _GNGGAterm (encodeBegin s)).date = s.date := by
    have := congrArg (fun q => q.2.1) a1
    exact this
  have f4 : (termStep _GNGGAterm (encodeBegin s)).speed = s.speed := by
    have := congrArg (fun q => q.2.2.2.1) a1
    exact this
  have f5 : (termStep _GNGGAterm (encodeBegin s)).course = s.course := by
    have := congrArg (fun q => q.2.2.2.2.1) a1
    exact this
  refine ⟨b1, ?_, b3.trans f2, b4.trans f4, b5.trans f5, hc, b2.trans a7⟩
  rw [b6, a2]
  show (if 1 ≤ 6 ∧ ts.getD (6 - 1) [] ≠ [] then decide ((ts.getD (6 - 1) []).headD 0 > 48)
    else false) = _
  by_cases he : ts.getD (6 - 1) [] = []
  · rw [if_neg (fun hc => hc.2 he)]
    have : ts.getD 5 [] = [] := he
    rw [this]
    rfl
  · rw [if_pos ⟨by omega, he⟩]

/-- C6 (GGA commit rule): whatever the decoder state, after a well-formed
GNGGA sentence with a correct checksum and at most 31 terms after the name,
time, satellites and hdop are valid and updated; if term 6 begins with a
character greater than `'0'`, location and altitude are valid and updated too;
if term 6 is absent, empty or begins with a character not greater than `'0'`,
the flags, committed values and commit times of location and altitude are
unchanged; date, speed and course are unchanged in every case.  (The first
character of an absent or empty term reads as 0.) -/
theorem C6_gga_commit (clock : Nat → Nat) (s : navic_gn_rmc_gga) (ts : List (List Nat))
    (h1 h2 : Nat) (hts : ∀ t ∈ ts, isField t) (hlen : ts.length < 32)
    (hh1 : isHexOf (xorAll (bodyOf _GNGGAterm ts) / 16) h1)
    (hh2 : isHexOf (xorAll (bodyOf _GNGGAterm ts) % 16) h2) :
    ((feed clock (sentence _GNGGAterm ts h1 h2) s).time.valid = true ∧
      (feed clock (sentence _GNGGAterm ts h1 h2) s).time.updated = true ∧
      (feed clock (sentence _GNGGAterm ts h1 h2) s).satellites.valid = true ∧
      (feed clock (sentence _GNGGAterm ts h1 h2) s).satellites.updated = true ∧
      (feed clock (sentence _GNGGAterm ts h1 h2) s).hdop.valid = true ∧
      (feed clock (sentence _GNGGAterm ts h1 h2) s).hdop.updated = true) ∧
    (48 < (ts.getD 5 []).headD 0 →
      (feed clock (sentence _GNGGAterm ts h1 h2) s).location.valid = true ∧
      (feed clock (sentence _GNGGAterm ts h1 h2) s).location.updated = true ∧
      (feed clock (sentence _GNGGAterm ts h1 h2) s).altitude.valid = true ∧
      (feed clock (sentence _GNGGAterm ts h1 h2) s).altitude.updated = true) ∧
    (¬ 48 < (ts.getD 5 []).headD 0 →
      (feed clock (sentence _GNGGAterm ts h1 h2) s).location.visible = s.location.visible ∧
      (feed clock (sentence _GNGGAterm ts h1 h2) s).altitude.visible = s.altitude.visible) ∧
    (feed clock (sentence _GNGGAterm ts h1 h2) s).date = s.date ∧
    (feed clock (sentence _GNGGAterm ts h1 h2) s).speed = s.speed ∧
    (feed clock (sentence _GNGGAterm ts h1 h2) s).course = s.course := by
  obtain ⟨-, now, r, -, -⟩ := sentence_commit clock s _GNGGAterm ts h1 h2 (by decide) hts hh1 hh2
  obtain ⟨x1, x2, x3, x4, x5, x6, -⟩ := gga_sentence_run s ts hts hlen
  have hf := commitSentence_fields now (runTerms (encodeBegin s) (_GNGGAterm :: ts))
  rw [if_neg (by rw [x1]; decide), if_pos x1, x2] at hf
  rw [hf] at r
  generalize runTerms (encodeBegin s) (_GNGGAterm :: ts) = X at r x3 x4 x5 x6
  generalize feed clock (sentence _GNGGAterm ts h1 h2) s = Z at r
  simp only [fields, Prod.mk.injEq] at r
  obtain ⟨rl, rd, rt, rs, rc, ra, rsat, rh⟩ := r
  have hv : X.location.visible = s.location.visible ∧ X.altitude.visible = s.altitude.visible :=
    ⟨congrArg Committed.location x6, congrArg Committed.altitude x6⟩
  refine ⟨?_, ?_, ?_, rd.trans x3, rs.trans x4, rc.trans x5⟩
  · rw [rt, rsat, rh]
    exact ⟨rfl, rfl, rfl, rfl, rfl, rfl⟩
  · intro hA
    rw [decide_eq_true hA] at rl ra
    rw [rl, ra]
    exact ⟨rfl, rfl, rfl, rfl⟩
  · intro hA
    rw [decide_eq_false hA] at rl ra
    rw [rl, ra]
    exact hv

/-- Witness of C4: the worked example, fed to the decoder `exampleDecoder`. -/
theorem C4_rmc_commit_witness :
    (∀ t ∈ exampleTerms, isField t) ∧ exampleTerms.length < 32 ∧
    isHexOf (xorAll (bodyOf _GNRMCterm exampleTerms) / 16) 55 ∧
    isHexOf (xorAll (bodyOf _GNRMCterm exampleTerms) % 16) 52 ∧
    (exampleTerms.getD 1 []).head? = some 65 ∧
    ((feed (fun k => k) (sentence _GNRMCterm exampleTerms 55 52) exampleDecoder).date.valid = true ∧
      (feed (fun k => k) (sentence _GNRMCterm exampleTerms 55 52) exampleDecoder).date.updated = true ∧
      (feed (fun k => k) (sentence _GNRMCterm exampleTerms 55 52) exampleDecoder).time.valid = true ∧
      (feed (fun k => k) (sentence _GNRMCterm exampleTerms 55 52) exampleDecoder).time.updated = true) ∧
    (feed (fun k => k) (sentence _GNRMCterm exampleTerms 55 52) exampleDecoder).altitude =
      exampleDecoder.altitude :=
  ⟨by decide, by decide, by decide, by decide, by decide,
    (C4_rmc_commit (fun k => k) exampleDecoder exampleTerms 55 52 (by decide) (by decide)
      (by decide) (by decide)).1,
    (C4_rmc_commit (fun k => k) exampleDecoder exampleTerms 55 52 (by decide) (by decide)
      (by decide) (by decide)).2.2.2.1⟩

/-- Witness of C6: a GGA sentence with fix quality 1, fed to `exampleDecoder`. -/
theorem C6_gga_commit_witness :
    (∀ t ∈ exampleGgaTerms, isField t) ∧ exampleGgaTerms.length < 32 ∧
    isHexOf (xorAll (bodyOf _GNGGAterm exampleGgaTerms) / 16) 53 ∧
    isHexOf (xorAll (bodyOf _GNGGAterm exampleGgaTerms) % 16) 57 ∧
    48 < (exampleGgaTerms.getD 5 []).headD 0 ∧
    ((feed (fun k => k) (sentence _GNGGAterm exampleGgaTerms 53 57) exampleDecoder).location.valid
        = true ∧
      (feed (fun k => k) (sentence _GNGGAterm exampleGgaTerms 53 57) exampleDecoder).location.updated
        = true ∧
      (feed (fun k => k) (sentence _GNGGAterm exampleGgaTerms 53 57) exampleDecoder).altitude.valid
        = true ∧
      (feed (fun k => k) (sentence _GNGGAterm exampleGgaTerms 53 57) exampleDecoder).altitude.updated
        = true) ∧
    (feed (fun k => k) (sentence _GNGGAterm exampleGgaTerms 53 57) exampleDecoder).date =
      exampleDecoder.date :=
  ⟨by decide, by decide, by decide, by decide, by decide,
    (C6_gga_commit (fun k => k) exampleDecoder exampleGgaTerms 53 57 (by decide) (by decide)
      (by decide) (by decide)).2.1 (by decide),
    (C6_gga_commit (fun k => k) exampleDecoder exampleGgaTerms 53 57 (by decide) (by decide)
      (by decide) (by decide)).2.2.2.1⟩

/-- Witness of C8: the worked example under the name "GPRMC" (checksum "6A"),
fed to `exampleDecoder`. -/
theorem C8_unrecognized_name_witness :
    isField [71, 80, 82, 77, 67] ∧ (∀ t ∈ exampleTerms, isField t) ∧
    exampleTerms.length < 256 ∧
    isHexOf (xorAll (bodyOf [71, 80, 82, 77, 67] exampleTerms) / 16) 54 ∧
    isHexOf (xorAll (bodyOf [71, 80, 82, 77, 67] exampleTerms) % 16) 65 ∧
    [71, 80, 82, 77, 67] ≠ _GNRMCterm ∧ [71, 80, 82, 77, 67] ≠ _GNGGAterm ∧
    (fields (feed (fun k => k) (sentence [71, 80, 82, 77, 67] exampleTerms 54 65) exampleDecoder) =
      fields exampleDecoder ∧
    (feed (fun k => k) (sentence [71, 80, 82, 77, 67] exampleTerms 54 65)
      exampleDecoder).sentencesWithFixCount = exampleDecoder.sentencesWithFixCount ∧
    results (fun k => k) (sentence [71, 80, 82, 77, 67] exampleTerms 54 65) exampleDecoder =
      List.replicate ((bodyOf [71, 80, 82, 77, 67] exampleTerms).length + 4) false ++ [true] ∧
    (feed (fun k => k) (sentence [71, 80, 82, 77, 67] exampleTerms 54 65)
      exampleDecoder).passedChecksumCount =
      (exampleDecoder.passedChecksumCount + 1) % 4294967296) :=
  ⟨by decide, by decide, by decide, by decide, by decide, by decide, by decide,
    C8_unrecognized_name (fun k => k) exampleDecoder [71, 80, 82, 77, 67] exampleTerms 54 65
      (by decide) (by decide) (by decide) (by decide) (by decide) (by decide) (by decide)⟩

/-- The effect of each RMC case of the dispatch `switch` on the built-in
fields and the fix flag. -/
theorem rmc_key_effect (a : List Nat) (b : Nat) (S : navic_gn_rmc_gga)
    (l : NavIC_Location) (d : NavIC_date) (t : NavIC_time) (sp c al : NavIC_decimal)
    (sa : NavIC_integer) (h : NavIC_decimal) (hf : fields S = (l, d, t, sp, c, al, sa, h)) :
    (fields (dispatchKey (32 + 1) a b S) = (l, d, t.setTime a, sp, c, al, sa, h) ∧
      (dispatchKey (32 + 1) a b S).sentenceHasFix = S.sentenceHasFix) ∧
    (fields (dispatchKey (32 + 2) a b S) = (l, d, t, sp, c, al, sa, h) ∧
      (dispatchKey (32 + 2) a b S).sentenceHasFix = decide (b = 65)) ∧
    (fields (dispatchKey (32 + 3) a b S) = (l.setLatitude a, d, t, sp, c, al, sa, h) ∧
      (dispatchKey (32 + 3) a b S).sentenceHasFix = S.sentenceHasFix) ∧
    (fields (dispatchKey (32 + 4) a b S) =
        ({ l with rawNewLatData := { l.rawNewLatData with negative := decide (b = 83) } },
          d, t, sp, c, al, sa, h) ∧
      (dispatchKey (32 + 4) a b S).sentenceHasFix = S.sentenceHasFix) ∧
    (fields (dispatchKey (32 + 5) a b S) = (l.setLongitude a, d, t, sp, c, al, sa, h) ∧
      (dispatchKey (32 + 5) a b S).sentenceHasFix = S.sentenceHasFix) ∧
    (fields (dispatchKey (32 + 6) a b S) =
        ({ l with rawNewLngData := { l.rawNewLngData with negative := decide (b = 87) } },
          d, t, sp, c, al, sa, h) ∧
      (dispatchKey (32 + 6) a b S).sentenceHasFix = S.sentenceHasFix) ∧
    (fields (dispatchKey (32 + 7) a b S) = (l, d, t, sp.set a, c, al, sa, h) ∧
      (dispatchKey (32 + 7) a b S).sentenceHasFix = S.sentenceHasFix) ∧
    (fields (dispatchKey (32 + 8) a b S) = (l, d, t, sp, c.set a, al, sa, h) ∧
      (dispatchKey (32 + 8) a b S).sentenceHasFix = S.sentenceHasFix) ∧
    (fields (dispatchKey (32 + 9) a b S) = (l, d.setDate a, t, sp, c, al, sa, h) ∧
      (dispatchKey (32 + 9) a b S).sentenceHasFix = S.sentenceHasFix) := by
  simp only [fields, Prod.mk.injEq] at hf
  obtain ⟨rfl, rfl, rfl, rfl, rfl, rfl, rfl, rfl⟩ := hf
  simp only [dispatchKey_eq]
  refine ⟨?_, ?_, ?_, ?_, ?_, ?_, ?_, ?_, ?_⟩ <;> exact ⟨rfl, rfl⟩

/-- The terms of a GNRMC sentence from term 10 on (below 32) set no built-in
field and leave the fix flag alone. -/
theorem rmc_rest (ts : List (List Nat)) : ∀ (s : navic_gn_rmc_gga) (k : Nat),
    (∀ t ∈ ts, isField t) → s.curSentenceType = NAVIC_SENTENCE_GNRMC → s.curTermNumber = k →
    10 ≤ k → k + ts.length ≤ 32 →
    fields (runTerms s ts) = fields s ∧
    (runTerms s ts).sentenceHasFix = s.sentenceHasFix := by
  induction ts with
  | nil => intro s k _ _ _ _ _; exact ⟨rfl, rfl⟩
  | cons t ts ih =>
    intro s k hts htype hn h10 hlen
    simp only [List.length_cons] at hlen
    obtain ⟨a1, a2, -, a4, a5⟩ := rmc_step t (hts t (List.mem_cons_self _ _)) s k htype hn
      (by omega) (by omega)
    obtain ⟨b1, b2⟩ := ih (termStep t s) (k + 1)
      (fun u hu => hts u (List.mem_cons_of_mem _ hu)) a1 a2 (by omega) (by omega)
    have hd : dispatchKey (32 + k) (t.take 14) (t.headD 0) s = s :=
      dispatchKey_cases (fun x => x = s) _ _ _ s (fun _ _ => rfl)
        (fun h => by omega) (fun h => by omega) (fun h => by omega) (fun h => by omega)
        (fun h => by omega) (fun h => by omega) (fun h => by omega) (fun h => by omega)
        (fun h => by omega) (fun h => by omega) (fun h => by omega) (fun h => by omega)
        (fun h => by omega)
    rw [hd, ite_self] at a4 a5
    rw [runTerms_cons]
    exact ⟨b1.trans a4, b2.trans a5⟩

/-- The first nine terms of a GNRMC sentence, terms 1, 2, 3, 5, 7, 8, 9 not
empty: the pending values are those of the RMC routing table. -/
theorem rmc_nine (s : navic_gn_rmc_gga) (t1 t2 t3 t4 t5 t6 t7 t8 t9 : List Nat)
    (f1 : isField t1) (f2 : isField t2) (f3 : isField t3) (f4 : isField t4) (f5 : isField t5)
    (f6 : isField t6) (f7 : isField t7) (f8 : isField t8) (f9 : isField t9)
    (n1 : t1 ≠ []) (n2 : t2 ≠ []) (n3 : t3 ≠ []) (n5 : t5 ≠ []) (n7 : t7 ≠ []) (n8 : t8 ≠ [])
    (n9 : t9 ≠ [])
    (htype : s.curSentenceType = NAVIC_SENTENCE_GNRMC) (hn : s.curTermNumber = 1) :
    (runTerms s [t1, t2, t3, t4, t5, t6, t7, t8, t9]).curSentenceType = NAVIC_SENTENCE_GNRMC ∧
    (runTerms s [t1, t2, t3, t4, t5, t6, t7, t8, t9]).curTermNumber = 10 ∧
    (runTerms s [t1, t2, t3, t4, t5, t6, t7, t8, t9]).sentenceHasFix =
      decide (t2.headD 0 = 65) ∧
    fields (runTerms s [t1, t2, t3, t4, t5, t6, t7, t8, t9]) =
      ({ s.location with
          rawNewLatData :=
            { deg := (parseDegrees (t3.take 14)).deg
              billionths := (parseDegrees (t3.take 14)).billionths
              negative := decide (t4.headD 0 = 83) }
          rawNewLngData :=
            { deg := (parseDegrees (t5.take 14)).deg
              billionths := (parseDegrees (t5.take 14)).billionths
              negative := decide (t6.headD 0 = 87) } },
        s.date.setDate (t9.take 14), s.time.setTime (t1.take 14), s.speed.set (t7.take 14),
        s.course.set (t8.take 14), s.altitude, s.satellites, s.hdop) := by
  have hnil : ∀ x : navic_gn_rmc_gga, runTerms x [] = x := fun _ => rfl
  simp only [runTerms_cons, hnil]
  -- term 1
  obtain ⟨a1, a2, -, a4, a5⟩ := rmc_step t1 f1 s 1 htype hn (by omega) (by omega)
  rw [if_neg n1] at a4 a5
  rw [((rmc_key_effect _ _ s _ _ _ _ _ _ _ _ rfl).1).1] at a4
  rw [((rmc_key_effect _ _ s _ _ _ _ _ _ _ _ rfl).1).2] at a5
  generalize termStep t1 s = S1 at a1 a2 a4 a5 ⊢
  -- term 2
  obtain ⟨b1, b2, -, b4, b5⟩ := rmc_step t2 f2 S1 2 a1 a2 (by omega) (by omega)
  rw [if_neg n2] at b4 b5
  rw [((rmc_key_effect _ _ S1 _ _ _ _ _ _ _ _ a4).2.1).1] at b4
  rw [((rmc_key_effect _ _ S1 _ _ _ _ _ _ _ _ a4).2.1).2] at b5
  generalize termStep t2 S1 = S2 at b1 b2 b4 b5 ⊢
  -- term 3
  obtain ⟨c1, c2, -, c4, c5⟩ := rmc_step t3 f3 S2 3 b1 b2 (by omega) (by omega)
  rw [if_neg n3] at c4 c5
  rw [((rmc_key_effect _ _ S2 _ _ _ _ _ _ _ _ b4).2.2.1).1] at c4
  rw [((rmc_key_effect _ _ S2 _ _ _ _ _ _ _ _ b4).2.2.1).2, b5] at c5
  generalize termStep t3 S2 = S3 at c1 c2 c4 c5 ⊢
  -- term 4
  obtain ⟨d1, d2, -, d4, d5⟩ := rmc_step t4 f4 S3 4 c1 c2 (by omega) (by omega)
  have d4' : fields (termStep t4 S3) =
      ({ s.location with
          rawNewLatData :=
            { deg := (parseDegrees (t3.take 14)).deg
              billionths := (parseDegrees (t3.take 14)).billionths
              negative := decide (t4.headD 0 = 83) } },
        s.date, s.time.setTime (t1.take 14), s.speed, s.course, s.altitude, s.satellites,
        s.hdop) := by
    rw [d4]
    by_cases he : t4 = []
    · rw [if_pos he, c4, he]
      rfl
    · rw [if_neg he, ((rmc_key_effect _ _ S3 _ _ _ _ _ _ _ _ c4).2.2.2.1).1]
      rfl
  have d5' : (termStep t4 S3).sentenceHasFix = decide (t2.headD 0 = 65) := by
    rw [d5]
    by_cases he : t4 = []
    · rw [if_pos he, c5]
    · rw [if_neg he, ((rmc_key_effect _ _ S3 _ _ _ _ _ _ _ _ c4).2.2.2.1).2, c5]
  generalize termStep t4 S3 = S4 at d1 d2 d4' d5' ⊢
  -- term 5
  obtain ⟨e1, e2, -, e4, e5⟩ := rmc_step t5 f5 S4 5 d1 d2 (by omega) (by omega)
  rw [if_neg n5] at e4 e5
  rw [((rmc_key_effect _ _ S4 _ _ _ _ _ _ _ _ d4').2.2.2.2.1).1] at e4
  rw [((rmc_key_effect _ _ S4 _ _ _ _ _ _ _ _ d4').2.2.2.2.1).2, d5'] at e5
  generalize termStep t5 S4 = S5 at e1 e2 e4 e5 ⊢
  -- term 6
  obtain ⟨g1, g2, -, g4, g5⟩ := rmc_step t6 f6 S5 6 e1 e2 (by omega) (by omega)
  have g4' : fields (termStep t6 S5) =
      ({ s.location with
          rawNewLatData :=
            { deg := (parseDegrees (t3.take 14)).deg
              billionths := (parseDegrees (t3.take 14)).billionths
              negative := decide (t4.headD 0 = 83) }
          rawNewLngData :=
            { deg := (parseDegrees (t5.take 14)).deg
              billionths := (parseDegrees (t5.take 14)).billionths
              negative := decide (t6.headD 0 = 87) } },
        s.date, s.time.setTime (t1.take 14), s.speed, s.course, s.altitude, s.satellites,
        s.hdop) := by
    rw [g4]
    by_cases he : t6 = []
    · rw [if_pos he, e4, he]
      rfl
    · rw [if_neg he, ((rmc_key_effect _ _ S5 _ _ _ _ _ _ _ _ e4).2.2.2.2.2.1).1]
      rfl
  have g5' : (termStep t6 S5).sentenceHasFix = decide (t2.headD 0 = 65) := by
    rw [g5]
    by_cases he : t6 = []
    · rw [if_pos he, e5]
    · rw [if_neg he, ((rmc_key_effect _ _ S5 _ _ _ _ _ _ _ _ e4).2.2.2.2.2.1).2, e5]
  generalize termStep t6 S5 = S6 at g1 g2 g4' g5' ⊢
  -- term 7
  obtain ⟨i1, i2, -, i4, i5⟩ := rmc_step t7 f7 S6 7 g1 g2 (by omega) (by omega)
  rw [if_neg n7] at i4 i5
  rw [((rmc_key_effect _ _ S6 _ _ _ _ _ _ _ _ g4').2.2.2.2.2.2.1).1] at i4
  rw [((rmc_key_effect _ _ S6 _ _ _ _ _ _ _ _ g4').2.2.2.2.2.2.1).2, g5'] at i5
  generalize termStep t7 S6 = S7 at i1 i2 i4 i5 ⊢
  -- term 8
  obtain ⟨j1, j2, -, j4, j5⟩ := rmc_step t8 f8 S7 8 i1 i2 (by omega) (by omega)
  rw [if_neg n8] at j4 j5
  rw [((rmc_key_effect _ _ S7 _ _ _ _ _ _ _ _ i4).2.2.2.2.2.2.2.1).1] at j4
  rw [((rmc_key_effect _ _ S7 _ _ _ _ _ _ _ _ i4).2.2.2.2.2.2.2.1).2, i5] at j5
  generalize termStep t8 S7 = S8 at j1 j2 j4 j5 ⊢
  -- term 9
  obtain ⟨k1, k2, -, k4, k5⟩ := rmc_step t9 f9 S8 9 j1 j2 (by omega) (by omega)
  rw [if_neg n9] at k4 k5
  rw [((rmc_key_effect _ _ S8 _ _ _ _ _ _ _ _ j4).2.2.2.2.2.2.2.2).1] at k4
  rw [((rmc_key_effect _ _ S8 _ _ _ _ _ _ _ _ j4).2.2.2.2.2.2.2.2).2, j5] at k5
  exact ⟨k1, k2, k5, k4⟩

/-- A list of terms whose ninth term is not empty has nine terms. -/
theorem nine_terms (ts : List (List Nat)) (h : ts.getD 8 [] ≠ []) :
    ∃ t1 t2 t3 t4 t5 t6 t7 t8 t9 rest, ts = t1 :: t2 :: t3 :: t4 :: t5 :: t6 :: t7 :: t8 :: t9 :: rest := by
  cases ts with
  | nil => exact absurd rfl h
  | cons t1 ts =>
    cases ts with
    | nil => exact absurd rfl h
    | cons t2 ts =>
      cases ts with
      | nil => exact absurd rfl h
      | cons t3 ts =>
        cases ts with
        | nil => exact absurd rfl h
        | cons t4 ts =>
          cases ts with
          | nil => exact absurd rfl h
          | cons t5 ts =>
            cases ts with
            | nil => exact absurd rfl h
            | cons t6 ts =>
              cases ts with
              | nil => exact absurd rfl h
              | cons t7 ts =>
                cases ts with
                | nil => exact absurd rfl h
                | cons t8 ts =>
                  cases ts with
                  | nil => exact absurd rfl h
                  | cons t9 ts =>
                    exact ⟨t1, t2, t3, t4, t5, t6, t7, t8, t9, ts, rfl⟩

/-- The values committed by a GNRMC sentence with a fix: each routed term is
read from the term buffer, which holds its first 14 characters. -/
theorem rmc_routing (clock : Nat → Nat) (s : navic_gn_rmc_gga) (ts : List (List Nat))
    (t1 t2 t3 t4 t5 t6 t7 t8 t9 : List Nat) (rest : List (List Nat)) (h1 h2 : Nat)
    (he : ts = t1 :: t2 :: t3 :: t4 :: t5 :: t6 :: t7 :: t8 :: t9 :: rest)
    (hts : ∀ t ∈ ts, isField t) (hlen : ts.length < 32) (hA : t2.head? = some 65)
    (n1 : t1 ≠ []) (n3 : t3 ≠ []) (n5 : t5 ≠ []) (n7 : t7 ≠ []) (n8 : t8 ≠ []) (n9 : t9 ≠ [])
    (hh1 : isHexOf (xorAll (bodyOf _GNRMCterm ts) / 16) h1)
    (hh2 : isHexOf (xorAll (bodyOf _GNRMCterm ts) % 16) h2) :
    (feed clock (sentence _GNRMCterm ts h1 h2) s).time.time = toUint32 (parseDecimal (t1.take 14)) ∧
    (feed clock (sentence _GNRMCterm ts h1 h2) s).location.rawLatData =
      { parseDegrees (t3.take 14) with negative := decide (t4.head? = some 83) } ∧
    (feed clock (sentence _GNRMCterm ts h1 h2) s).location.rawLngData =
      { parseDegrees (t5.take 14) with negative := decide (t6.head? = some 87) } ∧
    (feed clock (sentence _GNRMCterm ts h1 h2) s).speed.val = parseDecimal (t7.take 14) ∧
    (feed clock (sentence _GNRMCterm ts h1 h2) s).course.val = parseDecimal (t8.take 14) ∧
    (feed clock (sentence _GNRMCterm ts h1 h2) s).date.date = toUint32 (atol (t9.take 14)) := by
  obtain ⟨-, now, r, -, -⟩ := sentence_commit clock s _GNRMCterm ts h1 h2 (by decide) hts hh1 hh2
  generalize feed clock (sentence _GNRMCterm ts h1 h2) s = Z at r ⊢
  have hm : ∀ t, t ∈ [t1, t2, t3, t4, t5, t6, t7, t8, t9] ∨ t ∈ rest → isField t := by
    intro t ht
    apply hts
    rw [he]
    simp only [List.mem_cons, List.mem_singleton, List.not_mem_nil, or_false] at ht ⊢
    tauto
  have hf (t : List Nat) (ht : t ∈ [t1, t2, t3, t4, t5, t6, t7, t8, t9]) : isField t :=
    hm t (Or.inl ht)
  have n2 : t2 ≠ [] := by
    intro h
    rw [h] at hA
    exact absurd hA (by decide)
  have hlen9 : rest.length + 9 < 32 := by
    rw [he] at hlen
    simpa only [List.length_cons] using hlen
  obtain ⟨a1, a2, a3, a4, -, -, -⟩ := termStep_first _GNRMCterm (encodeBegin s) rfl
  have htype : (termStep _GNRMCterm (encodeBegin s)).curSentenceType = NAVIC_SENTENCE_GNRMC := by
    rw [a3, if_pos]
    rw [strcmp_eq_zero]
    rfl
  have hsplit : ∀ S0 : navic_gn_rmc_gga, runTerms S0 (t1 :: t2 :: t3 :: t4 :: t5 :: t6 :: t7 :: t8 :: t9 :: rest) =
      runTerms (runTerms S0 [t1, t2, t3, t4, t5, t6, t7, t8, t9]) rest := by
    intro S0
    have hnil : ∀ x : navic_gn_rmc_gga, runTerms x [] = x := fun _ => rfl
    simp only [runTerms_cons, hnil]
  rw [runTerms_cons, he, hsplit] at r
  obtain ⟨b1, b2, b3, b4⟩ := rmc_nine (termStep _GNRMCterm (encodeBegin s))
    t1 t2 t3 t4 t5 t6 t7 t8 t9 (hf t1 (by simp)) (hf t2 (by simp)) (hf t3 (by simp))
    (hf t4 (by simp)) (hf t5 (by simp)) (hf t6 (by simp)) (hf t7 (by simp)) (hf t8 (by simp))
    (hf t9 (by simp)) n1 n2 n3 n5 n7 n8 n9 htype a4
  have a1' : fields (termStep _GNRMCterm (encodeBegin s)) = fields s := a1
  generalize termStep _GNRMCterm (encodeBegin s) = S0 at b1 b2 b3 b4 r a1'
  simp only [fields, Prod.mk.injEq] at a1'
  obtain ⟨el, ed, et, es, ec, -, -, -⟩ := a1'
  rw [el, ed, et, es, ec] at b4
  generalize runTerms S0 [t1, t2, t3, t4, t5, t6, t7, t8, t9] = S9 at b1 b2 b3 b4 r
  obtain ⟨c1, c2⟩ := rmc_rest rest S9 10 (fun t ht => hm t (Or.inr ht)) b1 b2 (le_refl _)
    (by omega)
  obtain ⟨d1, -⟩ := rmc_run rest S9 10 (fun t ht => hm t (Or.inr ht)) b1 b2 (by omega)
    (by omega)
  rw [b3, (head_eq t2 65 (by decide)).2 hA] at c2
  rw [b4] at c1
  generalize runTerms S9 rest = X at r c1 c2 d1
  have hc := commitSentence_fields now X
  rw [if_pos d1, c2] at hc
  rw [hc] at r
  simp only [fields, Prod.mk.injEq] at r c1
  obtain ⟨rl, rd, rt, rs, rc, -, -, -⟩ := r
  obtain ⟨xl, xd, xt, xs, xc, -, -, -⟩ := c1
  have e4 : decide (t4.headD 0 = 83) = decide (t4.head? = some 83) :=
    decide_eq_decide.2 (head_eq t4 83 (by decide))
  have e6 : decide (t6.headD 0 = 87) = decide (t6.head? = some 87) :=
    decide_eq_decide.2 (head_eq t6 87 (by decide))
  rw [rl, rd, rt, rs, rc, xl, xd, xt, xs, xc, ← e4, ← e6]
  exact ⟨rfl, rfl, rfl, rfl, rfl, rfl⟩

/-- C5 (RMC term routing, amended): after a well-formed GNRMC sentence with a
correct checksum, at most 31 terms after the name, term 2 beginning with `'A'`
and non-empty terms 1, 3, 5, 7, 8, 9, the committed values are those of the
routing table applied to the first 14 characters of each term: time is
`parseDecimal` of term 1 stored as a `uint32_t`, latitude and longitude are
`parseDegrees` of terms 3 and 5 with `negative` set iff term 4 begins with
`'S'`, term 6 with `'W'`, speed and course are `parseDecimal` of terms 7 and
8, and date is `atol` of term 9 stored as a `uint32_t`.  Term `k` of the
sentence is `ts.getD (k - 1) []`. -/
theorem C5_rmc_routing (clock : Nat → Nat) (s : navic_gn_rmc_gga) (ts : List (List Nat))
    (h1 h2 : Nat) (hts : ∀ t ∈ ts, isField t) (hlen : ts.length < 32)
    (hA : (ts.getD 1 []).head? = some 65)
    (n1 : ts.getD 0 [] ≠ []) (n3 : ts.getD 2 [] ≠ []) (n5 : ts.getD 4 [] ≠ [])
    (n7 : ts.getD 6 [] ≠ []) (n8 : ts.getD 7 [] ≠ []) (n9 : ts.getD 8 [] ≠ [])
    (hh1 : isHexOf (xorAll (bodyOf _GNRMCterm ts) / 16) h1)
    (hh2 : isHexOf (xorAll (bodyOf _GNRMCterm ts) % 16) h2) :
    (feed clock (sentence _GNRMCterm ts h1 h2) s).time.time = toUint32 (parseDecimal ((ts.getD 0 []).take 14)) ∧
    (feed clock (sentence _GNRMCterm ts h1 h2) s).location.rawLatData =
      { parseDegrees ((ts.getD 2 []).take 14) with
        negative := decide ((ts.getD 3 []).head? = some 83) } ∧
    (feed clock (sentence _GNRMCterm ts h1 h2) s).location.rawLngData =
      { parseDegrees ((ts.getD 4 []).take 14) with
        negative := decide ((ts.getD 5 []).head? = some 87) } ∧
    (feed clock (sentence _GNRMCterm ts h1 h2) s).speed.val = parseDecimal ((ts.getD 6 []).take 14) ∧
    (feed clock (sentence _GNRMCterm ts h1 h2) s).course.val = parseDecimal ((ts.getD 7 []).take 14) ∧
    (feed clock (sentence _GNRMCterm ts h1 h2) s).date.date = toUint32 (atol ((ts.getD 8 []).take 14)) := by
  obtain ⟨t1, t2, t3, t4, t5, t6, t7, t8, t9, rest, he⟩ := nine_terms ts n9
  have g : ts.getD 0 [] = t1 ∧ ts.getD 1 [] = t2 ∧ ts.getD 2 [] = t3 ∧ ts.getD 3 [] = t4 ∧
      ts.getD 4 [] = t5 ∧ ts.getD 5 [] = t6 ∧ ts.getD 6 [] = t7 ∧ ts.getD 7 [] = t8 ∧
      ts.getD 8 [] = t9 := by
    rw [he]
    exact ⟨rfl, rfl, rfl, rfl, rfl, rfl, rfl, rfl, rfl⟩
  obtain ⟨g1, g2, g3, g4, g5, g6, g7, g8, g9⟩ := g
  rw [g1, g3, g4, g5, g6, g7, g8, g9]
  rw [g1] at n1
  rw [g2] at hA
  rw [g3] at n3
  rw [g5] at n5
  rw [g7] at n7
  rw [g8] at n8
  rw [g9] at n9
  exact rmc_routing clock s ts t1 t2 t3 t4 t5 t6 t7 t8 t9 rest h1 h2 he hts hlen hA n1 n3 n5 n7
    n8 n9 hh1 hh2

/-- Witness of C5: the worked example, fed to the decoder `exampleDecoder`. -/
theorem C5_rmc_routing_witness :
    (∀ t ∈ exampleTerms, isField t) ∧ exampleTerms.length < 32 ∧
    isHexOf (xorAll (bodyOf _GNRMCterm exampleTerms) / 16) 55 ∧
    isHexOf (xorAll (bodyOf _GNRMCterm exampleTerms) % 16) 52 ∧
    (feed (fun k => k) (sentence _GNRMCterm exampleTerms 55 52) exampleDecoder).time.time =
      toUint32 (parseDecimal ((exampleTerms.getD 0 []).take 14)) ∧
    (feed (fun k => k) (sentence _GNRMCterm exampleTerms 55 52) exampleDecoder).speed.val =
      parseDecimal ((exampleTerms.getD 6 []).take 14) ∧
    toUint32 (parseDecimal ((exampleTerms.getD 0 []).take 14)) = 12351900 ∧
    parseDecimal ((exampleTerms.getD 6 []).take 14) = 2240 :=
  ⟨by decide, by decide, by decide, by decide,
    (C5_rmc_routing (fun k => k) exampleDecoder exampleTerms 55 52 (by decide) (by decide)
      (by decide) (by decide) (by decide) (by decide) (by decide) (by decide) (by decide)
      (by decide) (by decide)).1,
    (C5_rmc_routing (fun k => k) exampleDecoder exampleTerms 55 52 (by decide) (by decide)
      (by decide) (by decide) (by decide) (by decide) (by decide) (by decide) (by decide)
      (by decide) (by decide)).2.2.2.1,
    by decide, by decide⟩

/-- C5 as stated fails: in the sentence "$GNRMC,-1,A,4807.038,N,01131.000,E,
00000000000012.5,084.4,230394,003.1,W*57", fed to a fresh decoder, the
committed time is the `uint32_t` 4294967196, not `parseDecimal` of term 1
(-100), and the committed speed is 1200, `parseDecimal` of the 14 characters
kept of term 7, not `parseDecimal` of term 7 (1250). -/
theorem C5_counterexample :
    (∀ t ∈ oversizedTerms, isField t) ∧ oversizedTerms.length < 32 ∧
    isHexOf (xorAll (bodyOf _GNRMCterm oversizedTerms) / 16) 53 ∧
    isHexOf (xorAll (bodyOf _GNRMCterm oversizedTerms) % 16) 55 ∧
    (oversizedTerms.getD 1 []).head? = some 65 ∧
    (∀ i ∈ [0, 2, 4, 6, 7, 8], oversizedTerms.getD i [] ≠ []) ∧
    ((feed (fun k => k) (sentence _GNRMCterm oversizedTerms 53 55) init).time.time : Int) ≠
      parseDecimal (oversizedTerms.getD 0 []) ∧
    (feed (fun k => k) (sentence _GNRMCterm oversizedTerms 53 55) init).speed.val ≠
      parseDecimal (oversizedTerms.getD 6 []) := by
  obtain ⟨a, -, -, b, -, -⟩ := rmc_routing (fun k => k) init oversizedTerms [45, 49] [65]
    [52, 56, 48, 55, 46, 48, 51, 56] [78] [48, 49, 49, 51, 49, 46, 48, 48, 48] [69]
    [48, 48, 48, 48, 48, 48, 48, 48, 48, 48, 48, 48, 49, 50, 46, 53] [48, 56, 52, 46, 52]
    [50, 51, 48, 51, 57, 52] [[48, 48, 51, 46, 49], [87]] 53 55 rfl (by decide) (by decide)
    (by decide) (by decide) (by decide) (by decide) (by decide) (by decide) (by decide)
    (by decide) (by decide)
  refine ⟨by decide, by decide, by decide, by decide, by decide, by decide, ?_, ?_⟩
  · rw [a]
    decide
  · rw [b]
    decide

theorem strcmp_self (a : List Nat) : strcmp a a = 0 := (strcmp_eq_zero a a).2 rfl

theorem strcmp_swap (a : List Nat) : ∀ b : List Nat, strcmp a b < 0 ↔ 0 < strcmp b a := by
  induction a with
  | nil =>
    intro b
    cases b with
    | nil => simp [strcmp]
    | cons y ys => simp [strcmp]
  | cons x xs ih =>
    intro b
    cases b with
    | nil => simp [strcmp]
    | cons y ys =>
      unfold strcmp
      by_cases h1 : x < y
      · rw [if_pos h1, if_neg (by omega), if_pos h1]
        simp
      · rw [if_neg h1]
        by_cases h2 : y < x
        · rw [if_pos h2, if_pos h2]
          simp
        · rw [if_neg h2, if_neg h2, if_neg h1]
          exact ih ys

theorem strcmp_trans (a : List Nat) : ∀ b c : List Nat,
    strcmp a b < 0 → strcmp b c < 0 → strcmp a c < 0 := by
  induction a with
  | nil =>
    intro b c h1 h2
    cases b with
    | nil => exact absurd h1 (by simp [strcmp])
    | cons y ys =>
      cases c with
      | nil => exact absurd h2 (by simp [strcmp])
      | cons z zs => simp [strcmp]
  | cons x xs ih =>
    intro b c h1 h2
    cases b with
    | nil => exact absurd h1 (by simp [strcmp])
    | cons y ys =>
      cases c with
      | nil => exact absurd h2 (by simp [strcmp])
      | cons z zs =>
        unfold strcmp at h1 h2 ⊢
        by_cases a1 : x < y
        · by_cases a2 : y < z
          · rw [if_pos (by omega)]
            simp
          · rw [if_neg a2] at h2
            by_cases a3 : z < y
            · rw [if_pos a3] at h2
              exact absurd h2 (by simp)
            · rw [if_pos (by omega)]
              simp
        · rw [if_neg a1] at h1
          by_cases a4 : y < x
          · rw [if_pos a4] at h1
            exact absurd h1 (by simp)
          · rw [if_neg a4] at h1
            by_cases a2 : y < z
            · rw [if_pos (by omega)]
              simp
            · rw [if_neg a2] at h2
              by_cases a3 : z < y
              · rw [if_pos a3] at h2
                exact absurd h2 (by simp)
              · rw [if_neg a3] at h2
                rw [if_neg (by omega), if_neg (by omega)]
                exact ih ys zs h1 h2

theorem keyLe_trans (a b c : List Nat × Int) (h1 : keyLe a b) (h2 : keyLe b c) : keyLe a c := by
  unfold keyLe at *
  rcases h1 with h1 | ⟨e1, l1⟩
  · rcases h2 with h2 | ⟨e2, _⟩
    · exact Or.inl (strcmp_trans _ _ _ h1 h2)
    · rw [← e2]
      exact Or.inl h1
  · rcases h2 with h2 | ⟨e2, l2⟩
    · rw [e1]
      exact Or.inl h2
    · exact Or.inr ⟨e1.trans e2, le_trans l1 l2⟩

/-- Membership in the list `insertCustom` returns. -/
theorem mem_insertCustom (p : NavIC_CUSTOM) (name : List Nat) (k : Int) (l : List NavIC_CUSTOM)
    (q : NavIC_CUSTOM) : q ∈ insertCustom p name k l ↔ q = p ∨ q ∈ l := by
  induction l with
  | nil => simp [insertCustom]
  | cons e rest ih =>
    unfold insertCustom
    dsimp only
    split_ifs with h
    · simp
    · simp only [List.mem_cons, ih]
      tauto

/-- Registration keeps the registry sorted by name, then term number. -/
theorem insertCustom_sorted (p : NavIC_CUSTOM) (l : List NavIC_CUSTOM)
    (h : l.Pairwise (fun a b => keyLe (key a) (key b))) :
    (insertCustom p p.sentenceName p.termNumber l).Pairwise (fun a b => keyLe (key a) (key b)) := by
  induction l with
  | nil => simp [insertCustom]
  | cons e rest ih =>
    rw [List.pairwise_cons] at h
    unfold insertCustom
    dsimp only
    split_ifs with hc
    · rw [List.pairwise_cons]
      have hpe : keyLe (key p) (key e) := by
        rcases hc with hc | ⟨hc, hk⟩
        · exact Or.inl hc
        · exact Or.inr ⟨(strcmp_eq_zero _ _).1 hc, le_of_lt hk⟩
      refine ⟨?_, List.pairwise_cons.2 h⟩
      intro q hq
      rcases List.mem_cons.1 hq with rfl | hq
      · exact hpe
      · exact keyLe_trans _ _ _ hpe (h.1 q hq)
    · rw [List.pairwise_cons]
      refine ⟨?_, ih h.2⟩
      intro q hq
      rcases (mem_insertCustom _ _ _ _ _).1 hq with rfl | hq
      · rw [not_or, not_and_or] at hc
        obtain ⟨c1, c2⟩ := hc
        by_cases c0 : strcmp q.sentenceName e.sentenceName = 0
        · rcases c2 with c2 | c2
          · exact absurd c0 c2
          · refine Or.inr ⟨((strcmp_eq_zero _ _).1 c0).symm, ?_⟩
            show e.termNumber ≤ q.termNumber
            omega
        · refine Or.inl ?_
          show strcmp e.sentenceName q.sentenceName < 0
          exact (strcmp_swap _ _).2 (by omega)
      · exact h.1 q hq

/-- Registration from a sorted registry gives a sorted registry. -/
theorem registerFrom_sorted (regs : List (List Nat × Int)) : ∀ l : List NavIC_CUSTOM,
    l.Pairwise (fun a b => keyLe (key a) (key b)) →
    (regs.foldl
      (fun l r => (NavIC_CUSTOM.begin { init with customElts := l } r.1 r.2).customElts)
      l).Pairwise (fun a b => keyLe (key a) (key b)) := by
  induction regs with
  | nil => intro l h; exact h
  | cons r rs ih =>
    intro l h
    rw [List.foldl_cons]
    apply ih
    exact insertCustom_sorted _ l h

/-- A registry built by registration is sorted. -/
theorem register_sorted (regs : List (List Nat × Int)) :
    (register regs).Pairwise (fun a b => keyLe (key a) (key b)) :=
  registerFrom_sorted regs [] List.Pairwise.nil

theorem map_eq_self {α : Type} (f : α → α) (l : List α) (h : ∀ a ∈ l, f a = a) :
    l.map f = l := by
  induction l with
  | nil => rfl
  | cons a as ih =>
    rw [List.map_cons, h a (List.mem_cons_self _ _),
      ih (fun b hb => h b (List.mem_cons_of_mem _ hb))]

theorem setLoop_map (name : List Nat) (cur : Nat) (term : List Nat) (l : List NavIC_CUSTOM) :
    l.Pairwise (fun a b => keyLe (key a) (key b)) →
    (∀ p ∈ l, ¬ strcmp p.sentenceName name < 0) →
    setLoop name cur term l = l.map (stageAt name cur term) := by
  induction l with
  | nil => intro _ _; rfl
  | cons p ps ih =>
    intro hs hn
    rw [List.pairwise_cons] at hs
    unfold setLoop
    by_cases hc : strcmp p.sentenceName name = 0 ∧ p.termNumber ≤ (cur : Int)
    · rw [if_pos hc, ih hs.2 (fun q hq => hn q (List.mem_cons_of_mem _ hq)), List.map_cons]
      congr 1
      unfold stageAt
      by_cases he : p.termNumber = (cur : Int)
      · rw [if_pos he, if_pos ⟨(strcmp_eq_zero _ _).1 hc.1, he⟩]
      · rw [if_neg he, if_neg (fun h => he h.2)]
    · rw [if_neg hc]
      symm
      apply map_eq_self
      intro q hq
      unfold stageAt
      rw [if_neg]
      rintro ⟨q1, q2⟩
      have hpq : keyLe (key p) (key q) ∨ q = p := by
        rcases List.mem_cons.1 hq with h | h
        · exact Or.inr h
        · exact Or.inl (hs.1 q h)
      rcases hpq with hpq | rfl
      · rcases hpq with hlt | ⟨heq, hle⟩
        · have hlt : strcmp p.sentenceName q.sentenceName < 0 := hlt
          rw [q1] at hlt
          exact hn p (List.mem_cons_self _ _) hlt
        · have heq : p.sentenceName = q.sentenceName := heq
          have hle : p.termNumber ≤ q.termNumber := hle
          apply hc
          rw [heq, q1]
          exact ⟨strcmp_self _, by omega⟩
      · apply hc
        rw [q1]
        exact ⟨strcmp_self _, by omega⟩

theorem commitLoop_map (now : Nat) (name : List Nat) (l : List NavIC_CUSTOM) :
    l.Pairwise (fun a b => keyLe (key a) (key b)) →
    (∀ p ∈ l, ¬ strcmp p.sentenceName name < 0) →
    commitLoop now name l = l.map (commitAt now name) := by
  induction l with
  | nil => intro _ _; rfl
  | cons p ps ih =>
    intro hs hn
    rw [List.pairwise_cons] at hs
    unfold commitLoop
    by_cases hc : strcmp p.sentenceName name = 0
    · rw [if_pos hc, ih hs.2 (fun q hq => hn q (List.mem_cons_of_mem _ hq)), List.map_cons]
      congr 1
      unfold commitAt
      rw [if_pos ((strcmp_eq_zero _ _).1 hc)]
    · rw [if_neg hc]
      symm
      apply map_eq_self
      intro q hq
      unfold commitAt
      rw [if_neg]
      intro q1
      rcases List.mem_cons.1 hq with rfl | h
      · apply hc
        rw [q1]
        exact strcmp_self _
      · rcases hs.1 q h with hlt | ⟨heq, -⟩
        · have hlt : strcmp p.sentenceName q.sentenceName < 0 := hlt
          rw [q1] at hlt
          exact hn p (List.mem_cons_self _ _) hlt
        · have heq : p.sentenceName = q.sentenceName := heq
          apply hc
          rw [heq, q1]
          exact strcmp_self _

/-- The scan for the candidate cursor stops at the first descriptor whose
name is not smaller than the term. -/
theorem scan_spec (term : List Nat) (l : List NavIC_CUSTOM) : ∀ i : Nat,
    (scanCandidates term l i = none ∧ ∀ p ∈ l, strcmp p.sentenceName term < 0) ∨
    ∃ A c R, l = A ++ c :: R ∧ scanCandidates term l i = some (i + A.length) ∧
      (∀ p ∈ A, strcmp p.sentenceName term < 0) ∧ ¬ strcmp c.sentenceName term < 0 := by
  induction l with
  | nil =>
    intro i
    exact Or.inl ⟨rfl, fun p hp => absurd hp (List.not_mem_nil _)⟩
  | cons p ps ih =>
    intro i
    unfold scanCandidates
    by_cases h : strcmp p.sentenceName term < 0
    · rw [if_pos h]
      rcases ih (i + 1) with ⟨h1, h2⟩ | ⟨A, c, R, h1, h2, h3, h4⟩
      · refine Or.inl ⟨h1, ?_⟩
        intro q hq
        rcases List.mem_cons.1 hq with rfl | hq
        · exact h
        · exact h2 q hq
      · refine Or.inr ⟨p :: A, c, R, ?_, ?_, ?_, h4⟩
        · rw [h1]
          rfl
        · rw [h2, List.length_cons]
          congr 1
          omega
        · intro q hq
          rcases List.mem_cons.1 hq with rfl | hq
          · exact h
          · exact h3 q hq
    · rw [if_neg h]
      exact Or.inr ⟨[], p, ps, rfl, rfl, fun q hq => absurd hq (List.not_mem_nil _), h⟩

theorem ne_of_strcmp_neg (a b : List Nat) (h : strcmp a b < 0) : a ≠ b := by
  intro e
  rw [e, strcmp_self] at h
  exact absurd h (by decide)

/-- In a sorted registry the candidate search finds the first descriptor of
the sentence's name, or null when there is none. -/
theorem find_spec (name : List Nat) (elts : List NavIC_CUSTOM)
    (hs : elts.Pairwise (fun a b => keyLe (key a) (key b))) :
    candidateOf name elts (findCandidates name elts) := by
  unfold findCandidates
  rcases scan_spec name elts 0 with ⟨h1, h2⟩ | ⟨A, c, R, h1, h2, h3, h4⟩
  · rw [h1]
    exact fun p hp => ne_of_strcmp_neg _ _ (h2 p hp)
  · rw [h2]
    have hd : elts.drop (0 + A.length) = c :: R := by
      rw [h1, Nat.zero_add, List.drop_left]
    have ht : elts.take (0 + A.length) = A := by
      rw [h1, Nat.zero_add, List.take_left]
    rw [h1, List.pairwise_append] at hs
    obtain ⟨-, hs2, -⟩ := hs
    rw [List.pairwise_cons] at hs2
    have hR : ∀ q ∈ R, strcmp c.sentenceName q.sentenceName < 0 ∨
        c.sentenceName = q.sentenceName := by
      intro q hq
      rcases hs2.1 q hq with h | ⟨h, -⟩
      · exact Or.inl h
      · exact Or.inr h
    dsimp only
    rw [hd]
    dsimp only
    by_cases hg : strcmp c.sentenceName name > 0
    · rw [if_pos hg]
      intro p hp
      rw [h1] at hp
      rcases List.mem_append.1 hp with hp | hp
      · exact ne_of_strcmp_neg _ _ (h3 p hp)
      · have hcn : strcmp name c.sentenceName < 0 := (strcmp_swap _ _).2 hg
        rcases List.mem_cons.1 hp with rfl | hp
        · exact (ne_of_strcmp_neg _ _ hcn).symm
        · rcases hR p hp with h | h
          · exact (ne_of_strcmp_neg _ _ (strcmp_trans _ _ _ hcn h)).symm
          · rw [← h]
            exact (ne_of_strcmp_neg _ _ hcn).symm
    · rw [if_neg hg]
      have hc0 : c.sentenceName = name := (strcmp_eq_zero _ _).1 (by omega)
      refine ⟨?_, ⟨c, R, hd, hc0⟩, ?_⟩
      · rw [ht]
        exact fun p hp => ne_of_strcmp_neg _ _ (h3 p hp)
      · rw [hd]
        intro p hp
        rcases List.mem_cons.1 hp with rfl | hp
        · exact h4
        · rcases hR p hp with h | h
          · rw [hc0] at h
            intro h5
            have := (strcmp_swap _ _).1 h
            omega
          · rw [← h]
            exact h4

/-- In a sorted registry the staging loop of a data term is `stageAt` on every
descriptor. -/
theorem setCustom_map (name : List Nat) (cur : Nat) (term : List Nat) (elts : List NavIC_CUSTOM)
    (cand : Option Nat) (hs : elts.Pairwise (fun a b => keyLe (key a) (key b)))
    (hc : candidateOf name elts cand) :
    setCustom cur term elts cand = elts.map (stageAt name cur term) := by
  cases cand with
  | none =>
    symm
    apply map_eq_self
    intro p hp
    unfold stageAt
    rw [if_neg (fun h => hc p hp h.1)]
  | some i =>
    obtain ⟨h1, ⟨c, R, h2, h3⟩, h4⟩ := hc
    unfold setCustom
    dsimp only
    rw [h2]
    dsimp only
    have hsd : (elts.drop i).Pairwise (fun a b => keyLe (key a) (key b)) :=
      List.Pairwise.sublist (List.drop_sublist _ _) hs
    rw [h3, ← h2, setLoop_map name cur term _ hsd h4]
    conv_rhs => rw [← List.take_append_drop i elts]
    rw [List.map_append]
    congr 1
    symm
    apply map_eq_self
    intro p hp
    unfold stageAt
    rw [if_neg (fun h => h1 p hp h.1)]

/-- In a sorted registry the commit loop is `commitAt` on every descriptor. -/
theorem commitCustom_map (now : Nat) (name : List Nat) (elts : List NavIC_CUSTOM)
    (cand : Option Nat) (hs : elts.Pairwise (fun a b => keyLe (key a) (key b)))
    (hc : candidateOf name elts cand) :
    commitCustom now elts cand = elts.map (commitAt now name) := by
  cases cand with
  | none =>
    symm
    apply map_eq_self
    intro p hp
    unfold commitAt
    rw [if_neg (hc p hp)]
  | some i =>
    obtain ⟨h1, ⟨c, R, h2, h3⟩, h4⟩ := hc
    unfold commitCustom
    dsimp only
    rw [h2]
    dsimp only
    have hsd : (elts.drop i).Pairwise (fun a b => keyLe (key a) (key b)) :=
      List.Pairwise.sublist (List.drop_sublist _ _) hs
    rw [h3, ← h2, commitLoop_map now name _ hsd h4]
    conv_rhs => rw [← List.take_append_drop i elts]
    rw [List.map_append]
    congr 1
    symm
    apply map_eq_self
    intro p hp
    unfold commitAt
    rw [if_neg (h1 p hp)]

/-- Sortedness depends on the keys only. -/
theorem sorted_map (f : NavIC_CUSTOM → NavIC_CUSTOM) (hf : ∀ p, key (f p) = key p)
    (elts : List NavIC_CUSTOM) (hs : elts.Pairwise (fun a b => keyLe (key a) (key b))) :
    (elts.map f).Pairwise (fun a b => keyLe (key a) (key b)) := by
  rw [List.pairwise_map]
  simp only [hf]
  exact hs

/-- The candidate cursor stays right when descriptors change but not their keys. -/
theorem candidateOf_map (f : NavIC_CUSTOM → NavIC_CUSTOM) (hf : ∀ p, key (f p) = key p)
    (name : List Nat) (elts : List NavIC_CUSTOM) (cand : Option Nat)
    (hc : candidateOf name elts cand) : candidateOf name (elts.map f) cand := by
  have hn : ∀ p, (f p).sentenceName = p.sentenceName := fun p => congrArg Prod.fst (hf p)
  cases cand with
  | none =>
    intro q hq
    obtain ⟨p, hp, rfl⟩ := List.mem_map.1 hq
    rw [hn]
    exact hc p hp
  | some i =>
    obtain ⟨h1, ⟨c, R, h2, h3⟩, h4⟩ := hc
    refine ⟨?_, ⟨f c, R.map f, ?_, ?_⟩, ?_⟩
    · intro q hq
      rw [← List.map_take] at hq
      obtain ⟨p, hp, rfl⟩ := List.mem_map.1 hq
      rw [hn]
      exact h1 p hp
    · rw [← List.map_drop, h2]
      rfl
    · rw [hn]
      exact h3
    · intro q hq
      rw [← List.map_drop] at hq
      obtain ⟨p, hp, rfl⟩ := List.mem_map.1 hq
      rw [hn]
      exact h4 p hp

theorem key_stageAt (name : List Nat) (cur : Nat) (term : List Nat) (p : NavIC_CUSTOM) :
    key (stageAt name cur term p) = key p := by
  unfold stageAt
  split_ifs <;> rfl

theorem key_stagedFrom (name : List Nat) (k : Nat) (ts : List (List Nat)) (p : NavIC_CUSTOM) :
    key (stagedFrom name k ts p) = key p := by
  unfold stagedFrom
  split_ifs <;> rfl

theorem key_commitAt (now : Nat) (name : List Nat) (p : NavIC_CUSTOM) :
    key (commitAt now name p) = key p := by
  unfold commitAt
  split_ifs <;> rfl

theorem stagedFrom_nil (name : List Nat) (k : Nat) (p : NavIC_CUSTOM) :
    stagedFrom name k [] p = p := by
  unfold stagedFrom
  rw [if_neg]
  rintro ⟨-, h1, h2⟩
  simp only [List.length_nil, Nat.cast_zero, add_zero] at h2
  omega

theorem stagedFrom_cons (name : List Nat) (k : Nat) (t : List Nat) (ts : List (List Nat))
    (p : NavIC_CUSTOM) :
    stagedFrom name (k + 1) ts (stageAt name k (t.take 14) p) = stagedFrom name k (t :: ts) p := by
  by_cases hn : p.sentenceName = name
  · by_cases hk : p.termNumber = (k : Int)
    · have e1 : stageAt name k (t.take 14) p = p.set (t.take 14) := by
        unfold stageAt
        rw [if_pos ⟨hn, hk⟩]
      rw [e1]
      unfold stagedFrom
      have hk2 : (p.set (t.take 14)).termNumber = (k : Int) := hk
      rw [if_neg (by rw [hk2]; push_cast; omega),
        if_pos ⟨hn, by omega, by rw [hk]; simp only [List.length_cons]; push_cast; omega⟩]
      have h0 : p.termNumber.toNat - k = 0 := by
        rw [hk]
        simp
      rw [h0]
      rfl
    · have e1 : stageAt name k (t.take 14) p = p := by
        unfold stageAt
        rw [if_neg (fun h => hk h.2)]
      rw [e1]
      unfold stagedFrom
      by_cases hr : ((k + 1 : Nat) : Int) ≤ p.termNumber ∧
          p.termNumber < ((k + 1 : Nat) : Int) + ts.length
      · rw [if_pos ⟨hn, hr⟩,
          if_pos ⟨hn, by omega, by simp only [List.length_cons]; push_cast at hr ⊢; omega⟩]
        have h1 : p.termNumber.toNat - k = (p.termNumber.toNat - (k + 1)) + 1 := by
          push_cast at hr
          omega
        rw [h1, List.getD_cons_succ]
      · rw [if_neg (fun h => hr h.2), if_neg]
        rintro ⟨-, h1, h2⟩
        apply hr
        simp only [List.length_cons] at h2
        push_cast at h2 ⊢
        omega
  · have e1 : stageAt name k (t.take 14) p = p := by
      unfold stageAt
      rw [if_neg (fun h => hn h.1)]
    rw [e1]
    unfold stagedFrom
    rw [if_neg (fun h => hn h.1), if_neg (fun h => hn h.1)]

/-- The data terms of a sentence, on a sorted registry with the right
candidate cursor: every descriptor of the sentence's name whose term number is
reached gets its term staged; the cursor does not move. -/
theorem custom_run (name : List Nat) (ts : List (List Nat)) : ∀ (s : navic_gn_rmc_gga) (k : Nat),
    s.curTermNumber = k % 256 → 1 ≤ k → k + ts.length ≤ 256 →
    s.customElts.Pairwise (fun a b => keyLe (key a) (key b)) →
    candidateOf name s.customElts s.customCandidates →
    (runTerms s ts).customElts = s.customElts.map (stagedFrom name k ts) ∧
    (runTerms s ts).customCandidates = s.customCandidates := by
  induction ts with
  | nil =>
    intro s k _ _ _ _ _
    refine ⟨?_, rfl⟩
    symm
    exact map_eq_self _ _ (fun p _ => stagedFrom_nil name k p)
  | cons t ts ih =>
    intro s k hk h1 hlen hs hc
    simp only [List.length_cons] at hlen
    have hk0 : s.curTermNumber ≠ 0 := by omega
    obtain ⟨-, -, -, a4, a5, a6, -⟩ := termStep_data t s hk0
    rw [setCustom_map name _ _ _ _ hs hc] at a6
    have hs1 : (termStep t s).customElts.Pairwise (fun a b => keyLe (key a) (key b)) := by
      rw [a6]
      exact sorted_map _ (key_stageAt _ _ _) _ hs
    have hc1 : candidateOf name (termStep t s).customElts (termStep t s).customCandidates := by
      rw [a6, a5]
      exact candidateOf_map _ (key_stageAt _ _ _) _ _ _ hc
    obtain ⟨b1, b2⟩ := ih (termStep t s) (k + 1) (by omega) (by omega) (by omega) hs1 hc1
    rw [runTerms_cons, b1, b2, a5, a6, List.map_map]
    refine ⟨?_, rfl⟩
    apply List.map_congr_left
    intro p _
    have hcur : s.curTermNumber = k := by omega
    rw [Function.comp_apply, hcur]
    exact stagedFrom_cons name k t ts p

/-- The registry after a well-formed sentence with a correct checksum, the
registry being sorted: `customAfter` on every descriptor, for the name kept in
the term buffer (the first 14 characters of the sentence's name). -/
theorem custom_matching (clock : Nat → Nat) (s : navic_gn_rmc_gga) (name : List Nat)
    (ts : List (List Nat)) (h1 h2 : Nat)
    (hs : s.customElts.Pairwise (fun a b => keyLe (key a) (key b)))
    (hname : isField name) (hts : ∀ t ∈ ts, isField t) (hlen : ts.length < 256)
    (hh1 : isHexOf (xorAll (bodyOf name ts) / 16) h1)
    (hh2 : isHexOf (xorAll (bodyOf name ts) % 16) h2) :
    ∃ now, (feed clock (sentence name ts h1 h2) s).customElts =
      s.customElts.map (customAfter now (name.take 14) ts) := by
  obtain ⟨-, now, -, -, r⟩ := sentence_commit clock s name ts h1 h2 hname hts hh1 hh2
  refine ⟨now, ?_⟩
  rw [r, (commitSentence_frame now _).2, runTerms_cons]
  obtain ⟨-, -, -, a4, a5, a6, -⟩ := termStep_first name (encodeBegin s) rfl
  have a6 : (termStep name (encodeBegin s)).customElts = s.customElts := a6
  have a5 : (termStep name (encodeBegin s)).customCandidates =
      findCandidates (name.take 14) s.customElts := a5
  generalize termStep name (encodeBegin s) = S1 at a4 a5 a6
  have hc := find_spec (name.take 14) s.customElts hs
  rw [← a5, ← a6] at hc
  rw [← a6] at hs
  obtain ⟨b1, b2⟩ := custom_run (name.take 14) ts S1 1 (by rw [a4]) (le_refl _) (by omega) hs hc
  rw [b1, b2, commitCustom_map now (name.take 14) _ _ (sorted_map _ (key_stagedFrom _ _ _) _ hs)
    (candidateOf_map _ (key_stagedFrom _ _ _) _ _ _ hc), List.map_map, a6]
  rfl

theorem sorted_of_keys (elts : List NavIC_CUSTOM) (regs : List (List Nat × Int))
    (h : elts.map key = (register regs).map key) :
    elts.Pairwise (fun a b => keyLe (key a) (key b)) := by
  have h1 := register_sorted regs
  rw [← List.pairwise_map] at h1 ⊢
  rw [h]
  exact h1

theorem customAfter_spec (now : Nat) (name : List Nat) (ts : List (List Nat)) (p : NavIC_CUSTOM) :
    key (customAfter now name ts p) = key p ∧
    (p.sentenceName = name → (customAfter now name ts p).valid = true ∧
      (customAfter now name ts p).updated = true ∧
      ∀ k : Nat, p.termNumber = (k : Int) → 1 ≤ k → k ≤ ts.length →
        (customAfter now name ts p).buffer = (ts.getD (k - 1) []).take 14) ∧
    (p.sentenceName ≠ name → customAfter now name ts p = p) := by
  refine ⟨?_, ?_, ?_⟩
  · unfold customAfter
    rw [key_commitAt, key_stagedFrom]
  · intro hn
    have hn2 : (stagedFrom name 1 ts p).sentenceName = name :=
      (congrArg Prod.fst (key_stagedFrom name 1 ts p)).trans hn
    have e : customAfter now name ts p = (stagedFrom name 1 ts p).commit now := by
      unfold customAfter commitAt
      rw [if_pos hn2]
    rw [e]
    refine ⟨rfl, rfl, ?_⟩
    intro k hk k1 k2
    have e2 : stagedFrom name 1 ts p = p.set ((ts.getD (k - 1) []).take 14) := by
      unfold stagedFrom
      rw [if_pos ⟨hn, by rw [hk]; push_cast; omega, by rw [hk]; push_cast; omega⟩, hk]
      rfl
    rw [e2]
    show (List.take 14 (ts.getD (k - 1) [])).take 16 = _
    rw [List.take_take]
    rfl
  · intro hn
    unfold customAfter stagedFrom
    rw [if_neg (fun h => hn h.1)]
    unfold commitAt
    rw [if_neg hn]

/-- C7 (custom field matching, amended): the registry holding descriptors
registered in any order (its keys are those of `register regs`), after a
well-formed sentence with a correct checksum, name `name` and at most 255
terms after the name, every descriptor keeps its place and its key; every
descriptor whose name is the first 14 characters of `name` is valid and
updated, and if its term number `k` is between 1 and the number of terms, its
committed text is the first 14 characters of term `k`; every descriptor with
another name is unchanged.  Term `k` of the sentence is `ts.getD (k - 1) []`. -/
theorem C7_custom_matching (clock : Nat → Nat) (s : navic_gn_rmc_gga)
    (regs : List (List Nat × Int)) (name : List Nat) (ts : List (List Nat)) (h1 h2 : Nat)
    (hreg : s.customElts.map key = (register regs).map key)
    (hname : isField name) (hts : ∀ t ∈ ts, isField t) (hlen : ts.length < 256)
    (hh1 : isHexOf (xorAll (bodyOf name ts) / 16) h1)
    (hh2 : isHexOf (xorAll (bodyOf name ts) % 16) h2) :
    (feed clock (sentence name ts h1 h2) s).customElts.length = s.customElts.length ∧
    ∀ (i : Nat) (p q : NavIC_CUSTOM), s.customElts[i]? = some p →
      (feed clock (sentence name ts h1 h2) s).customElts[i]? = some q →
      key q = key p ∧
      (p.sentenceName = name.take 14 → q.valid = true ∧ q.updated = true ∧
        ∀ k : Nat, p.termNumber = (k : Int) → 1 ≤ k → k ≤ ts.length →
          q.buffer = (ts.getD (k - 1) []).take 14) ∧
      (p.sentenceName ≠ name.take 14 → q = p) := by
  obtain ⟨now, r⟩ := custom_matching clock s name ts h1 h2 (sorted_of_keys _ regs hreg) hname hts
    hlen hh1 hh2
  rw [r]
  refine ⟨List.length_map _ _, ?_⟩
  intro i p q hp hq
  rw [List.getElem?_map, hp] at hq
  have hq : customAfter now (name.take 14) ts p = q := Option.some.inj hq
  rw [← hq]
  exact customAfter_spec now (name.take 14) ts p

/-- Witness of C7: two descriptors for "GNRMC" with term numbers 7 and 3, and
the worked example: they receive terms 3 ("4807.038") and 7 ("022.4"). -/
theorem C7_custom_matching_witness :
    customDecoder.customElts.map key =
      (register [(_GNRMCterm, 7), (_GNRMCterm, 3)]).map key ∧
    isField _GNRMCterm ∧ (∀ t ∈ exampleTerms, isField t) ∧ exampleTerms.length < 256 ∧
    isHexOf (xorAll (bodyOf _GNRMCterm exampleTerms) / 16) 55 ∧
    isHexOf (xorAll (bodyOf _GNRMCterm exampleTerms) % 16) 52 ∧
    customDecoder.customElts.map key = [(_GNRMCterm, 3), (_GNRMCterm, 7)] ∧
    (feed (fun k => k) (sentence _GNRMCterm exampleTerms 55 52) customDecoder).customElts.map
      (fun p => (p.valid, p.updated, p.buffer)) =
      [(true, true, [52, 56, 48, 55, 46, 48, 51, 56]), (true, true, [48, 50, 50, 46, 52])] := by
  refine ⟨by decide, by decide, by decide, by decide, by decide, by decide, by decide, ?_⟩
  obtain ⟨hl, hall⟩ := C7_custom_matching (fun k => k) customDecoder
    [(_GNRMCterm, 7), (_GNRMCterm, 3)] _GNRMCterm exampleTerms 55 52 (by decide) (by decide)
    (by decide) (by decide) (by decide) (by decide)
  generalize (feed (fun k => k) (sentence _GNRMCterm exampleTerms 55 52)
    customDecoder).customElts = F at hl hall
  have h2 : customDecoder.customElts.length = 2 := by decide
  rw [h2] at hl
  rcases F with _ | ⟨q0, _ | ⟨q1, _ | ⟨q2, r⟩⟩⟩
  · simp at hl
  · simp at hl
  · obtain ⟨-, a, -⟩ := hall 0 _ q0 rfl rfl
    obtain ⟨-, b, -⟩ := hall 1 _ q1 rfl rfl
    obtain ⟨a1, a2, a3⟩ := a (by decide)
    obtain ⟨b1, b2, b3⟩ := b (by decide)
    have a4 := a3 3 rfl (by decide) (by decide)
    have b4 := b3 7 rfl (by decide) (by decide)
    simp only [List.map_cons, List.map_nil, a1, a2, a4, b1, b2, b4]
    decide
  · simp only [List.length_cons] at hl
    omega

/-- C7 as stated fails: the sentence "$ABCDEFGHIJKLMNOP,x*44" has a name of 16
characters, of which the term buffer keeps 14; the descriptor registered for
"ABCDEFGHIJKLMN", a name that differs from the sentence's, is matched, staged
and committed. -/
theorem C7_counterexample :
    isField longName ∧ (∀ t ∈ [[120]], isField t) ∧
    isHexOf (xorAll (bodyOf longName [[120]]) / 16) 52 ∧
    isHexOf (xorAll (bodyOf longName [[120]]) % 16) 52 ∧
    shortNameDecoder.customElts.map
      (fun p => (p.sentenceName, p.termNumber, p.valid, p.updated, p.buffer)) =
      [([65, 66, 67, 68, 69, 70, 71, 72, 73, 74, 75, 76, 77, 78], 1, false, false, [])] ∧
    [65, 66, 67, 68, 69, 70, 71, 72, 73, 74, 75, 76, 77, 78] ≠ longName ∧
    (feed (fun k => k) (sentence longName [[120]] 52 52) shortNameDecoder).customElts.map
      (fun p => (p.sentenceName, p.termNumber, p.valid, p.updated, p.buffer)) =
      [([65, 66, 67, 68, 69, 70, 71, 72, 73, 74, 75, 76, 77, 78], 1, true, true, [120])] := by
  refine ⟨by decide, by decide, by decide, by decide, by decide, by decide, ?_⟩
  obtain ⟨now, r⟩ := custom_matching (fun k => k) shortNameDecoder longName [[120]] 52 52
    (sorted_of_keys _ [([65, 66, 67, 68, 69, 70, 71, 72, 73, 74, 75, 76, 77, 78], 1)]
      (by decide))
    (by decide) (by decide) (by decide) (by decide) (by decide)
  rw [r]
  rfl

theorem checksumTerm_false_fix (now t0 t1 : Nat) (s : navic_gn_rmc_gga)
    (h : (checksumTerm now t0 t1 s).1 = false) :
    (checksumTerm now t0 t1 s).2.sentencesWithFixCount = s.sentencesWithFixCount := by
  unfold checksumTerm at h ⊢
  by_cases h1 : ((16 * fromHex t0 + fromHex t1) % 256 : Int) = (s.parity : Int)
  · rw [if_pos h1] at h
    exact absurd h (by simp)
  · rw [if_neg h1]

theorem handler_false_fix (now : Nat) (s : navic_gn_rmc_gga)
    (h : (endOfTermHandler now s).1 = false) :
    (endOfTermHandler now s).2.sentencesWithFixCount = s.sentencesWithFixCount := by
  unfold endOfTermHandler at h ⊢
  by_cases hc : s.isChecksumTerm = true
  · rw [if_pos hc] at h ⊢
    exact checksumTerm_false_fix _ _ _ _ h
  · rw [if_neg hc]
    by_cases h0 : s.curTermNumber = 0
    · rw [if_pos h0]
      rfl
    · rw [if_neg h0]
      have := congrArg (fun q => q.2.2.2.2) (dataTerm_ctl (cstr s.term) (s.term 0) s)
      exact this

theorem encodeTerminator_false_fix (now c : Nat) (s : navic_gn_rmc_gga)
    (h : (encodeTerminator now c s).1 = false) :
    (encodeTerminator now c s).2.sentencesWithFixCount = s.sentencesWithFixCount := by
  have hp : (terminatorParity c s).sentencesWithFixCount = s.sentencesWithFixCount := by
    have := congrArg (fun q => q.2.2.2.2) (terminatorParity_ctl c s).1
    exact this
  unfold encodeTerminator at h ⊢
  dsimp only at h ⊢
  show (if (terminatorParity c s).curTermOffset < 15
    then endOfTermHandler now (terminateTerm (terminatorParity c s))
    else (false, terminatorParity c s)).2.sentencesWithFixCount = s.sentencesWithFixCount
  by_cases ho : (terminatorParity c s).curTermOffset < 15
  · rw [if_pos ho] at h ⊢
    rw [handler_false_fix _ _ h]
    exact hp
  · rw [if_neg ho]
    exact hp

/-- A call of `encode` that returns false does not count a sentence with fix. -/
theorem encode_false_fix (now c : Nat) (s : navic_gn_rmc_gga)
    (h : (encode now c s).1 = false) :
    (encode now c s).2.sentencesWithFixCount = s.sentencesWithFixCount := by
  unfold encode at h ⊢
  dsimp only at h ⊢
  by_cases hd : c = 44 ∨ c = 13 ∨ c = 10 ∨ c = 42
  · rw [if_pos hd] at h ⊢
    rw [encodeTerminator_false_fix _ _ _ h]
    rfl
  · rw [if_neg hd]
    by_cases h36 : c = 36
    · rw [if_pos h36]; rfl
    · rw [if_neg h36]
      have := congrArg (fun q => q.2.2.2.2) (encodeOrdinary_scan c (countChar s))
      exact this

theorem feed_snoc (clock : Nat → Nat) (a : List Nat) (c : Nat) (s : navic_gn_rmc_gga) :
    feed clock (a ++ [c]) s = (encode (clock a.length) c (feed clock a s)).2 := by
  rw [feed_append]
  show (encode (clock (0 + a.length)) c (feed clock a s)).2 = _
  rw [Nat.zero_add]

theorem results_snoc (clock : Nat → Nat) (a : List Nat) (c : Nat) (s : navic_gn_rmc_gga) :
    results clock (a ++ [c]) s =
      results clock a s ++ [(encode (clock a.length) c (feed clock a s)).1] := by
  rw [results_append]
  show _ ++ [(encode (clock (0 + a.length)) c (feed clock a s)).1] = _
  rw [Nat.zero_add]

/-- A last character on which `encode` returns false leaves the committed side
and the count of sentences with fix as they were before it. -/
theorem feed_snoc_false (clock : Nat → Nat) (a : List Nat) (c : Nat) (s : navic_gn_rmc_gga)
    (l : List Bool) (h : results clock (a ++ [c]) s = l ++ [false]) :
    committed (feed clock (a ++ [c]) s) = committed (feed clock a s) ∧
    (feed clock (a ++ [c]) s).sentencesWithFixCount = (feed clock a s).sentencesWithFixCount := by
  rw [results_snoc] at h
  rw [feed_snoc]
  have h1 := congrArg List.getLast? h
  rw [List.getLast?_concat, List.getLast?_concat] at h1
  have h2 : (encode (clock a.length) c (feed clock a s)).1 = false := Option.some.inj h1
  exact ⟨encode_false_committed _ _ _ h2, encode_false_fix _ _ _ h2⟩

/-- The counters of a state, read off an equation on `counters`. -/
theorem counters_proj (Z : navic_gn_rmc_gga) (a b c : Nat) (h : counters Z = (a, b, c)) :
    Z.passedChecksumCount = a ∧ Z.failedChecksumCount = b ∧ Z.sentencesWithFixCount = c := by
  simp only [counters, Prod.mk.injEq] at h
  exact h

/-- What the accessors return on a state with the committed side of `Z`. -/
theorem committed_values (Y Z : navic_gn_rmc_gga) (h : committed Y = committed Z) :
    (NavIC_time.hour Y.time).1 = (Z.time.time / 1000000) % 256 ∧
    (NavIC_time.minute Y.time).1 = ((Z.time.time / 10000) % 100) % 256 ∧
    (NavIC_time.second Y.time).1 = ((Z.time.time / 100) % 100) % 256 ∧
    (NavIC_Location.rawLat Y.location).1 = Z.location.rawLatData ∧
    (NavIC_Location.rawLng Y.location).1 = Z.location.rawLngData ∧
    (NavIC_date.year Y.date).1 = ((Z.date.date % 100) % 65536 + 2000) % 65536 ∧
    (NavIC_decimal.value Y.speed).1 = Z.speed.val ∧
    (NavIC_decimal.value Y.course).1 = Z.course.val := by
  have t1 : Y.time.time = Z.time.time := congrArg (fun q => q.time.2.2.1) h
  have t2 : Y.location.rawLatData = Z.location.rawLatData :=
    congrArg (fun q => q.location.2.2.1) h
  have t3 : Y.location.rawLngData = Z.location.rawLngData :=
    congrArg (fun q => q.location.2.2.2.1) h
  have t4 : Y.date.date = Z.date.date := congrArg (fun q => q.date.2.2.1) h
  have t5 : Y.speed.val = Z.speed.val := congrArg (fun q => q.speed.2.2.1) h
  have t6 : Y.course.val = Z.course.val := congrArg (fun q => q.course.2.2.1) h
  unfold NavIC_time.hour NavIC_time.minute NavIC_time.second NavIC_Location.rawLat
    NavIC_Location.rawLng NavIC_date.year NavIC_decimal.value
  dsimp only
  rw [t1, t2, t3, t4, t5, t6]
  exact ⟨rfl, rfl, rfl, rfl, rfl, rfl, rfl, rfl⟩

/-- C9 (worked example): the sentence "$GNRMC,123519,A,4807.038,N,01131.000,E,
022.4,084.4,230394,003.1,W*74" followed by CR LF, "74" being the hexadecimal
digits of the XOR of the characters between `'$'` and `'*'`, fed character by
character to a fresh decoder, whatever the clock: time is 12:35:19, the raw
latitude is 48 degrees and 117300000 billionths, not negative, the raw
longitude 11 degrees and 516666667 billionths, not negative, `date.year()` is
2094, speed is 2240 and course 8440 hundredths, `passedChecksum` is 1,
`failedChecksum` 0 and `sentencesWithFix` 1. -/
theorem C9_worked_example (clock : Nat → Nat) :
    isHexOf (xorAll exampleBody / 16) 55 ∧ isHexOf (xorAll exampleBody % 16) 52 ∧
    (NavIC_time.hour (feed clock exampleSentence init).time).1 = 12 ∧
    (NavIC_time.minute (feed clock exampleSentence init).time).1 = 35 ∧
    (NavIC_time.second (feed clock exampleSentence init).time).1 = 19 ∧
    (NavIC_Location.rawLat (feed clock exampleSentence init).location).1 =
      { deg := 48, billionths := 117300000, negative := false } ∧
    (NavIC_Location.rawLng (feed clock exampleSentence init).location).1 =
      { deg := 11, billionths := 516666667, negative := false } ∧
    (NavIC_date.year (feed clock exampleSentence init).date).1 = 2094 ∧
    (NavIC_decimal.value (feed clock exampleSentence init).speed).1 = 2240 ∧
    (NavIC_decimal.value (feed clock exampleSentence init).course).1 = 8440 ∧
    (feed clock exampleSentence init).passedChecksumCount = 1 ∧
    (feed clock exampleSentence init).failedChecksumCount = 0 ∧
    (feed clock exampleSentence init).sentencesWithFixCount = 1 := by
  have hex1 : isHexOf (xorAll (bodyOf _GNRMCterm exampleTerms) / 16) 55 := by decide
  have hex2 : isHexOf (xorAll (bodyOf _GNRMCterm exampleTerms) % 16) 52 := by decide
  have hts : ∀ t ∈ exampleTerms, isField t := by decide
  -- the sentence up to the carriage return
  obtain ⟨v1, v2, v3, v4, v5, v6⟩ := rmc_routing clock init exampleTerms [49, 50, 51, 53, 49, 57]
    [65] [52, 56, 48, 55, 46, 48, 51, 56] [78] [48, 49, 49, 51, 49, 46, 48, 48, 48] [69]
    [48, 50, 50, 46, 52] [48, 56, 52, 46, 52] [50, 51, 48, 51, 57, 52]
    [[48, 48, 51, 46, 49], [87]] 55 52 rfl hts (by decide) (by decide) (by decide) (by decide)
    (by decide) (by decide) (by decide) (by decide) hex1 hex2
  obtain ⟨-, now, -, c1, -⟩ := sentence_commit clock init _GNRMCterm exampleTerms 55 52
    (by decide) hts hex1 hex2
  obtain ⟨-, x2, -, -, -, -, x7⟩ := rmc_sentence_run init exampleTerms hts (by decide)
  have c2 := (commitSentence_frame now (runTerms (encodeBegin init) (_GNRMCterm :: exampleTerms))).1
  rw [c2, x2] at c1
  obtain ⟨-, -, x7b⟩ := counters_proj _ _ _ _ x7
  obtain ⟨-, -, c3⟩ := counters_proj _ _ _ _ c1
  rw [x7b] at c3
  -- the whole sentence, line feed included
  obtain ⟨r1, r2, r3, -⟩ := sentence_scan clock init exampleBody 55 52 (by decide)
    (by unfold isOrdinary; omega) (by unfold isOrdinary; omega)
  have hk : ((16 * fromHex 55 + fromHex 52) % 256 : Int) = (xorAll exampleBody : Int) := by
    decide
  rw [if_pos hk] at r2 r3
  have e : exampleSentence = sentence _GNRMCterm exampleTerms 55 52 ++ [10] := by decide
  have e1 : 36 :: (exampleBody ++ [42, 55, 52, 13, 10]) = exampleSentence := rfl
  rw [decide_eq_true hk] at r1
  have e3 : false :: (List.replicate exampleBody.length false ++
      [false, false, false, true, false]) =
      (false :: (List.replicate exampleBody.length false ++ [false, false, false, true])) ++
        [false] := by
    simp
  rw [e1, e, e3] at r1
  rw [e1] at r2 r3
  obtain ⟨hc, hf⟩ := feed_snoc_false clock _ 10 init _ r1
  rw [← e] at hc hf
  obtain ⟨w1, w2, w3, w4, w5, w6, w7, w8⟩ := committed_values _ _ hc
  rw [v1] at w1 w2 w3
  rw [v2] at w4
  rw [v3] at w5
  rw [v6] at w6
  rw [v4] at w7
  rw [v5] at w8
  exact ⟨by decide, by decide, w1.trans (by decide), w2.trans (by decide), w3.trans (by decide),
    w4.trans (by decide), w5.trans (by decide), w6.trans (by decide), w7.trans (by decide),
    w8.trans (by decide), r2, r3, (hf.trans c3).trans (by decide)⟩

/-- The digit loop of `parseDegrees` adds the weighted digits, modulo 2^32. -/
theorem parseDegreesLoop_eq (f : List Nat) (hf : allDigits f) : ∀ (k acc : Nat),
    acc < 4294967296 →
    parseDegreesLoop f (10000000 / 10 ^ k) acc =
      (acc + fractionWeight f (k + 1)) % 4294967296 := by
  induction f with
  | nil =>
    intro k acc h
    show acc = (acc + 0) % 4294967296
    omega
  | cons c cs ih =>
    intro k acc h
    have hc : isdigit c = true := hf c (List.mem_cons_self _ _)
    have hm : 10000000 / 10 ^ k / 10 = 10000000 / 10 ^ (k + 1) := by
      rw [Nat.div_div_eq_div_mul, pow_succ]
    unfold parseDegreesLoop fractionWeight
    rw [if_pos hc, hm, ih (fun d hd => hf d (List.mem_cons_of_mem _ hd)) (k + 1) _
      (Nat.mod_lt _ (by norm_num))]
    generalize (c - 48) * (10000000 / 10 ^ (k + 1)) = a
    generalize fractionWeight cs (k + 1 + 1) = b
    omega

/-- What `parseDegrees` computes on the text `L [. F]`. -/
theorem parseDegrees_text (L : List Nat) (F : Option (List Nat)) (hL : allDigits L)
    (hF : ∀ f, F = some f → allDigits f) (hv : decimalValue L < 2147483648) :
    parseDegrees (decimalText false L F) = degreesReference L F := by
  have hrest : ∀ c, (match F with | none => [] | some f => 46 :: f).head? = some c → c = 46 := by
    intro c hc
    cases F with
    | none => simp at hc
    | some f => simpa using hc.symm
  have hrest2 : ∀ c, (match F with | none => [] | some f => 46 :: f).head? = some c →
      isdigit c = false := by
    intro c hc
    rw [hrest c hc]
    rfl
  have htext : decimalText false L F = L ++ (match F with | none => [] | some f => 46 :: f) := by
    rw [decimalText_eq]
    rfl
  have hat : toUint32 (atol (decimalText false L F)) = decimalValue L := by
    rw [htext, atol_digits L hL _ hrest]
    unfold toUint32
    omega
  have hdw : (decimalText false L F).dropWhile isdigit =
      (match F with | none => [] | some f => 46 :: f) := by
    rw [htext]
    exact dropWhile_digits L hL _ hrest2
  unfold parseDegrees degreesReference degreesMinutes
  simp only [hat, hdw]
  have hmin : decimalValue L % 100 % 65536 = decimalValue L % 100 := by omega
  rw [hmin]
  cases F with
  | none =>
    simp only [List.getD_nil, Option.getD_none, fractionWeight]
    rw [if_neg (by decide)]
    congr 1
    omega
  | some f =>
    simp only [List.getD_cons_zero, Option.getD_some, List.tail_cons, if_true]
    have h0 : (10000000 : Nat) = 10000000 / 10 ^ 0 := by norm_num
    rw [h0, parseDegreesLoop_eq f (hF f rfl) 0 _ (Nat.mod_lt _ (by norm_num))]
    congr 1
    simp only [pow_zero, Nat.div_one, Nat.zero_add]
    generalize fractionWeight f 1 = b
    omega

theorem fractionWeight_zero (f : List Nat) : ∀ i, 8 ≤ i → fractionWeight f i = 0 := by
  induction f with
  | nil => intro i _; rfl
  | cons c cs ih =>
    intro i hi
    unfold fractionWeight
    have h : 10000000 / 10 ^ i = 0 := by
      apply Nat.div_eq_of_lt
      calc 10000000 < 10 ^ 8 := by norm_num
        _ ≤ 10 ^ i := Nat.pow_le_pow_right (by norm_num) hi
    rw [h, ih (i + 1) (by omega), Nat.mul_zero]

/-- Fraction digits from the eighth on have weight zero. -/
theorem fractionWeight_take (f : List Nat) : ∀ i, i ≤ 8 →
    fractionWeight f i = fractionWeight (f.take (8 - i)) i := by
  induction f with
  | nil => intro i _; simp [fractionWeight]
  | cons c cs ih =>
    intro i hi
    by_cases h8 : i = 8
    · subst h8
      rw [fractionWeight_zero _ 8 (le_refl _), fractionWeight_zero _ 8 (le_refl _)]
    · have e : 8 - i = (8 - (i + 1)) + 1 := by omega
      rw [e, List.take_succ_cons]
      unfold fractionWeight
      rw [ih (i + 1) (by omega)]

/-- C11 (parseDegrees reference): on a text `L [. f1 ... fn]`, `L` a string of
decimal digits of value below 2^31 and the `fi` decimal digits, `parseDegrees`
gives degrees `floor(value(L) / 100)` as a 16-bit unsigned value, `negative`
false and billionths `floor((5 * t + 1) / 3)` in 32-bit unsigned arithmetic,
with `t = (value(L) mod 100) * 10^7 + Σ fi * floor(10^7 / 10^i)`; the fraction
digits from the eighth on contribute nothing to `t`. -/
theorem C11_parseDegrees_reference (L : List Nat) (F : Option (List Nat)) (hL : allDigits L)
    (hF : ∀ f, F = some f → allDigits f) (hv : decimalValue L < 2147483648) :
    parseDegrees (decimalText false L F) =
      { deg := (decimalValue L / 100) % 65536
        billionths := ((5 * degreesMinutes L F + 1) % 4294967296) / 3
        negative := false } ∧
    degreesMinutes L F = degreesMinutes L (F.map (List.take 7)) := by
  refine ⟨parseDegrees_text L F hL hF hv, ?_⟩
  unfold degreesMinutes
  cases F with
  | none => rfl
  | some f =>
    simp only [Option.getD_some, Option.map_some']
    rw [fractionWeight_take f 1 (by norm_num)]

/-- Witness of C11: "4807.038" is 48 degrees and 117300000 billionths, and
"4807.03800009" gives the same. -/
theorem C11_parseDegrees_reference_witness :
    allDigits [52, 56, 48, 55] ∧ decimalValue [52, 56, 48, 55] < 2147483648 ∧
    parseDegrees (decimalText false [52, 56, 48, 55] (some [48, 51, 56, 48, 48, 48, 48, 57])) =
      { deg := 48, billionths := 117300000, negative := false } ∧
    degreesMinutes [52, 56, 48, 55] (some [48, 51, 56, 48, 48, 48, 48, 57]) =
      degreesMinutes [52, 56, 48, 55] (some [48, 51, 56, 48, 48, 48, 48]) :=
  ⟨by decide, by decide,
    (C11_parseDegrees_reference [52, 56, 48, 55] (some [48, 51, 56, 48, 48, 48, 48, 57])
      (by decide) (by decide) (by decide)).1.trans (by decide),
    (C11_parseDegrees_reference [52, 56, 48, 55] (some [48, 51, 56, 48, 48, 48, 48, 57])
      (by decide) (by decide) (by decide)).2⟩

/-- `parseDecimal` on a text `I [. F]` without sign whose reference value fits
an `int32_t`. -/
theorem parseDecimal_plain (I : List Nat) (F : Option (List Nat)) (hI : allDigits I)
    (hF : ∀ f, F = some f → allDigits f)
    (hhi : 100 * decimalValue I + fracHundredths F ≤ 2147483647) :
    parseDecimal (decimalText false I F) = ((100 * decimalValue I + fracHundredths F : Nat) : Int) := by
  rw [parseDecimal_text false I F hI hF]
  unfold fracHundredths at *
  simp only [Bool.false_eq_true, if_false]
  rw [toInt32_eq (decimalValue I : Int) (by omega) (by omega)]
  have hsteps := parseDecimal_steps false (100 * (decimalValue I : Int))
    ((10 * ((F.getD []).getD 0 48 - 48) : Nat) : Int) (((F.getD []).getD 1 48 - 48 : Nat) : Int)
    (by omega) (by omega) (by omega)
    (by simp only [Bool.false_eq_true, if_false, one_mul]; omega)
    (by simp only [Bool.false_eq_true, if_false, one_mul]; omega)
  simp only [Bool.false_eq_true, if_false, one_mul] at hsteps
  rw [hsteps]
  push_cast
  ring

theorem allDigits_twoDigits (n : Nat) (h : n < 100) : allDigits (twoDigits n) := by
  intro c hc
  simp only [twoDigits, List.mem_cons, List.mem_singleton, List.not_mem_nil, or_false] at hc
  rw [isdigit_iff]
  omega

theorem allDigits_append (a b : List Nat) (ha : allDigits a) (hb : allDigits b) :
    allDigits (a ++ b) := by
  intro c hc
  rcases List.mem_append.1 hc with h | h
  · exact ha c h
  · exact hb c h

/-- The value of three two-digit groups. -/
theorem decimalValue_groups (a b c : Nat) :
    decimalValue (twoDigits a ++ twoDigits b ++ twoDigits c) = a * 10000 + b * 100 + c := by
  simp only [decimalValue, twoDigits, List.cons_append, List.nil_append, List.foldl_cons,
    List.foldl_nil]
  omega

theorem allDigits_groups (a b c : Nat) (ha : a < 100) (hb : b < 100) (hc : c < 100) :
    allDigits (twoDigits a ++ twoDigits b ++ twoDigits c) :=
  allDigits_append _ _ (allDigits_append _ _ (allDigits_twoDigits a ha)
    (allDigits_twoDigits b hb)) (allDigits_twoDigits c hc)

/-- The date code stored for the text DDMMYY. -/
theorem stored_date (DD MM YY : Nat) (hDD : DD < 100) (hMM : MM < 100) (hYY : YY < 100) :
    toUint32 (atol (twoDigits DD ++ twoDigits MM ++ twoDigits YY)) =
      DD * 10000 + MM * 100 + YY := by
  have h := atol_digits _ (allDigits_groups DD MM YY hDD hMM hYY) [] (fun c hc => by simp at hc)
  rw [List.append_nil] at h
  rw [h, decimalValue_groups]
  unfold toUint32
  omega

/-- The time code stored for the text HHMISS.CC. -/
theorem stored_time_fraction (HH MI SS CC : Nat) (hHH : HH < 100) (hMI : MI < 100)
    (hSS : SS < 100) (hCC : CC < 100) :
    toUint32 (parseDecimal (twoDigits HH ++ twoDigits MI ++ twoDigits SS ++
      46 :: twoDigits CC)) = (HH * 10000 + MI * 100 + SS) * 100 + CC := by
  have vt := decimalValue_groups HH MI SS
  have hf : fracHundredths (some (twoDigits CC)) = CC := by
    simp only [fracHundredths, twoDigits, Option.getD_some, List.getD_cons_zero,
      List.getD_cons_succ]
    omega
  have h := parseDecimal_plain (twoDigits HH ++ twoDigits MI ++ twoDigits SS)
    (some (twoDigits CC)) (allDigits_groups HH MI SS hHH hMI hSS)
    (fun f hf => by cases hf; exact allDigits_twoDigits CC hCC) (by rw [hf, vt]; omega)
  have htext : decimalText false (twoDigits HH ++ twoDigits MI ++ twoDigits SS)
      (some (twoDigits CC)) =
      twoDigits HH ++ twoDigits MI ++ twoDigits SS ++ 46 :: twoDigits CC := rfl
  rw [htext] at h
  rw [h, hf, vt]
  unfold toUint32
  omega

/-- The time code stored for the text HHMISS. -/
theorem stored_time (HH MI SS : Nat) (hHH : HH < 100) (hMI : MI < 100) (hSS : SS < 100) :
    toUint32 (parseDecimal (twoDigits HH ++ twoDigits MI ++ twoDigits SS)) =
      (HH * 10000 + MI * 100 + SS) * 100 := by
  have vt := decimalValue_groups HH MI SS
  have hf : fracHundredths none = 0 := rfl
  have h := parseDecimal_plain (twoDigits HH ++ twoDigits MI ++ twoDigits SS) none
    (allDigits_groups HH MI SS hHH hMI hSS) (fun f hf => by cases hf) (by rw [hf, vt]; omega)
  have htext : decimalText false (twoDigits HH ++ twoDigits MI ++ twoDigits SS) none =
      twoDigits HH ++ twoDigits MI ++ twoDigits SS := by
    rw [decimalText_eq]
    simp
  rw [htext] at h
  rw [h, hf, vt]
  unfold toUint32
  omega

/-- The date accessors after staging a text and committing. -/
theorem date_fields (d : NavIC_date) (now : Nat) (term : List Nat) (v : Nat)
    (h : toUint32 (atol term) = v) :
    (NavIC_date.day ((d.setDate term).commit now)).1 = (v / 10000) % 256 ∧
    (NavIC_date.month ((d.setDate term).commit now)).1 = ((v / 100) % 100) % 256 ∧
    (NavIC_date.year ((d.setDate term).commit now)).1 = ((v % 100) % 65536 + 2000) % 65536 := by
  subst h
  exact ⟨rfl, rfl, rfl⟩

/-- The time accessors after staging a text and committing. -/
theorem time_fields (t : NavIC_time) (now : Nat) (term : List Nat) (v : Nat)
    (h : toUint32 (parseDecimal term) = v) :
    (NavIC_time.hour ((t.setTime term).commit now)).1 = (v / 1000000) % 256 ∧
    (NavIC_time.minute ((t.setTime term).commit now)).1 = ((v / 10000) % 100) % 256 ∧
    (NavIC_time.second ((t.setTime term).commit now)).1 = ((v / 100) % 100) % 256 ∧
    (NavIC_time.centisecond ((t.setTime term).commit now)).1 = (v % 100) % 256 := by
  subst h
  exact ⟨rfl, rfl, rfl, rfl⟩

/-- C12 (date and time codes): for two-digit values, the date text DDMMYY
staged and committed gives `day()` = DD, `month()` = MM, `year()` = 2000 + YY;
the time text HHMISS.CC staged and committed gives `hour()` = HH, `minute()` =
MI, `second()` = SS, `centisecond()` = CC, and the text HHMISS gives the same
hour, minute and second with `centisecond()` = 0. -/
theorem C12_date_time_codes (d : NavIC_date) (t : NavIC_time) (now : Nat)
    (DD MM YY HH MI SS CC : Nat) (hDD : DD < 100) (hMM : MM < 100) (hYY : YY < 100)
    (hHH : HH < 100) (hMI : MI < 100) (hSS : SS < 100) (hCC : CC < 100) :
    ((NavIC_date.day ((d.setDate (twoDigits DD ++ twoDigits MM ++ twoDigits YY)).commit now)).1
        = DD ∧
      (NavIC_date.month ((d.setDate (twoDigits DD ++ twoDigits MM ++ twoDigits YY)).commit now)).1
        = MM ∧
      (NavIC_date.year ((d.setDate (twoDigits DD ++ twoDigits MM ++ twoDigits YY)).commit now)).1
        = 2000 + YY) ∧
    ((NavIC_time.hour ((t.setTime (twoDigits HH ++ twoDigits MI ++ twoDigits SS ++
        46 :: twoDigits CC)).commit now)).1 = HH ∧
      (NavIC_time.minute ((t.setTime (twoDigits HH ++ twoDigits MI ++ twoDigits SS ++
        46 :: twoDigits CC)).commit now)).1 = MI ∧
      (NavIC_time.second ((t.setTime (twoDigits HH ++ twoDigits MI ++ twoDigits SS ++
        46 :: twoDigits CC)).commit now)).1 = SS ∧
      (NavIC_time.centisecond ((t.setTime (twoDigits HH ++ twoDigits MI ++ twoDigits SS ++
        46 :: twoDigits CC)).commit now)).1 = CC) ∧
    ((NavIC_time.hour ((t.setTime (twoDigits HH ++ twoDigits MI ++ twoDigits SS)).commit now)).1
        = HH ∧
      (NavIC_time.minute ((t.setTime (twoDigits HH ++ twoDigits MI ++ twoDigits SS)).commit now)).1
        = MI ∧
      (NavIC_time.second ((t.setTime (twoDigits HH ++ twoDigits MI ++ twoDigits SS)).commit now)).1
        = SS ∧
      (NavIC_time.centisecond
        ((t.setTime (twoDigits HH ++ twoDigits MI ++ twoDigits SS)).commit now)).1 = 0) := by
  obtain ⟨a1, a2, a3⟩ := date_fields d now _ _ (stored_date DD MM YY hDD hMM hYY)
  obtain ⟨b1, b2, b3, b4⟩ := time_fields t now _ _
    (stored_time_fraction HH MI SS CC hHH hMI hSS hCC)
  obtain ⟨c1, c2, c3, c4⟩ := time_fields t now _ _ (stored_time HH MI SS hHH hMI hSS)
  rw [a1, a2, a3, b1, b2, b3, b4, c1, c2, c3, c4]
  refine ⟨⟨?_, ?_, ?_⟩, ⟨?_, ?_, ?_, ?_⟩, ⟨?_, ?_, ?_, ?_⟩⟩ <;> omega

/-- Witness of C12: the date "230394" and the times "123519.25", "123519". -/
theorem C12_date_time_codes_witness :
    twoDigits 23 ++ twoDigits 3 ++ twoDigits 94 = [50, 51, 48, 51, 57, 52] ∧
    (NavIC_date.year ((init.date.setDate (twoDigits 23 ++ twoDigits 3 ++ twoDigits 94)).commit
      7)).1 = 2000 + 94 ∧
    (NavIC_time.centisecond ((init.time.setTime (twoDigits 12 ++ twoDigits 35 ++ twoDigits 19 ++
      46 :: twoDigits 25)).commit 7)).1 = 25 :=
  ⟨by decide,
    (C12_date_time_codes init.date init.time 7 23 3 94 12 35 19 25 (by decide) (by decide)
      (by decide) (by decide) (by decide) (by decide) (by decide)).1.2.2,
    (C12_date_time_codes init.date init.time 7 23 3 94 12 35 19 25 (by decide) (by decide)
      (by decide) (by decide) (by decide) (by decide) (by decide)).2.1.2.2.2⟩

theorem commitBuiltin_scanner (now : Nat) (s : navic_gn_rmc_gga) :
    scanner (commitBuiltin now s) = scanner s ∧
    sentenceKind (commitBuiltin now s) = sentenceKind s := by
  unfold commitBuiltin
  dsimp only
  split_ifs <;> exact ⟨rfl, rfl⟩

theorem commitSentence_scanner (now : Nat) (s : navic_gn_rmc_gga) :
    scanner (commitSentence now s) = scanner s ∧
    sentenceKind (commitSentence now s) = sentenceKind s := by
  have h1 : scanner (countFix (countPassed s)) = scanner s ∧
      sentenceKind (countFix (countPassed s)) = sentenceKind s := by
    unfold countFix
    exact prop_ite (fun x => scanner x = scanner s ∧ sentenceKind x = sentenceKind s) _ _ _
      ⟨rfl, rfl⟩ ⟨rfl, rfl⟩
  obtain ⟨h2, h3⟩ := commitBuiltin_scanner now (countFix (countPassed s))
  unfold commitSentence
  exact ⟨h2.trans h1.1, h3.trans h1.2⟩

theorem checksumTerm_scanner (now t0 t1 : Nat) (s : navic_gn_rmc_gga) :
    scanner (checksumTerm now t0 t1 s).2 = scanner s ∧
    sentenceKind (checksumTerm now t0 t1 s).2 = sentenceKind s := by
  unfold checksumTerm
  dsimp only
  by_cases h : ((16 * fromHex t0 + fromHex t1) % 256 : Int) = (s.parity : Int)
  · rw [if_pos h]
    exact commitSentence_scanner now s
  · rw [if_neg h]
    exact ⟨rfl, rfl⟩

theorem dataTerm_scanner (t : List Nat) (t0 : Nat) (s : navic_gn_rmc_gga) :
    scanner (dataTerm t t0 s) = scanner s ∧ sentenceKind (dataTerm t t0 s) = sentenceKind s := by
  unfold dataTerm
  dsimp only
  by_cases h : s.curSentenceType ≠ NAVIC_SENTENCE_OTHER ∧ t0 ≠ 0
  · rw [if_pos h]
    obtain ⟨-, -, -, -, -, h6, h7, h8, h9, -, h11, h12⟩ := dispatch_ctl t t0 s
    simp only [scanner, sentenceKind, h6, h7, h8, h9, h11, h12, and_self]
  · rw [if_neg h]
    exact ⟨rfl, rfl⟩

/-- The term-completion handler leaves the character count, the term offset,
the term number and the term buffer alone, and outside its first-term block
also the sentence type and the candidate cursor. -/
theorem handler_scanner (now : Nat) (s : navic_gn_rmc_gga) :
    scanner (endOfTermHandler now s).2 = scanner s ∧
    (s.isChecksumTerm = true ∨ s.curTermNumber ≠ 0 →
      sentenceKind (endOfTermHandler now s).2 = sentenceKind s) := by
  unfold endOfTermHandler
  by_cases hc : s.isChecksumTerm = true
  · rw [if_pos hc]
    exact ⟨(checksumTerm_scanner _ _ _ _).1, fun _ => (checksumTerm_scanner _ _ _ _).2⟩
  · rw [if_neg hc]
    by_cases h0 : s.curTermNumber = 0
    · rw [if_pos h0]
      refine ⟨rfl, ?_⟩
      rintro (h | h)
      · exact absurd h hc
      · exact absurd h0 h
    · rw [if_neg h0]
      exact ⟨(dataTerm_scanner _ _ _).1, fun _ => (dataTerm_scanner _ _ _).2⟩

/-- The counters across the term-completion handler: nothing, a pass (and a
fix if the fix flag is set), or a failure. -/
theorem handler_counters (now : Nat) (s : navic_gn_rmc_gga) :
    counters (endOfTermHandler now s).2 = counters s ∨
    counters (endOfTermHandler now s).2 =
      ((s.passedChecksumCount + 1) % 4294967296, s.failedChecksumCount,
        if s.sentenceHasFix then (s.sentencesWithFixCount + 1) % 4294967296
        else s.sentencesWithFixCount) ∨
    counters (endOfTermHandler now s).2 =
      (s.passedChecksumCount, (s.failedChecksumCount + 1) % 4294967296,
        s.sentencesWithFixCount) := by
  by_cases hc : s.isChecksumTerm = true
  · have e : endOfTermHandler now s = checksumTerm now (s.term 0) (s.term 1) s := by
      unfold endOfTermHandler
      rw [if_pos hc]
    rw [e]
    obtain ⟨-, h⟩ := checksumTerm_ctl now (s.term 0) (s.term 1) s
    by_cases hk : ((16 * fromHex (s.term 0) + fromHex (s.term 1)) % 256 : Int) = (s.parity : Int)
    · rw [if_pos hk] at h
      simp only [ctl, Prod.mk.injEq] at h
      right; left
      simp only [counters, h.2.2.1, h.2.2.2.1, h.2.2.2.2]
    · rw [if_neg hk] at h
      simp only [ctl, Prod.mk.injEq] at h
      right; right
      simp only [counters, h.2.2.1, h.2.2.2.1, h.2.2.2.2]
  · have hc2 : s.isChecksumTerm = false := by
      cases h : s.isChecksumTerm
      · rfl
      · exact absurd h hc
    obtain ⟨-, h⟩ := handler_ctl now s hc2
    simp only [ctl, Prod.mk.injEq] at h
    left
    simp only [counters, h.2.2.1, h.2.2.2.1, h.2.2.2.2]

/-- The term-terminator case of `encode`: scanner variables and counters. -/
theorem encodeTerminator_step (now c : Nat) (s : navic_gn_rmc_gga) :
    (encodeTerminator now c s).2.encodedCharCount = s.encodedCharCount ∧
    (encodeTerminator now c s).2.curTermOffset = 0 ∧
    (encodeTerminator now c s).2.curTermNumber = (s.curTermNumber + 1) % 256 ∧
    counterStep s.sentenceHasFix (counters s) (counters (encodeTerminator now c s).2) ∧
    (s.isChecksumTerm = true ∨ s.curTermNumber ≠ 0 ∨ ¬ s.curTermOffset < 15 →
      sentenceKind (encodeTerminator now c s).2 = sentenceKind s) := by
  obtain ⟨p1, p2, p3, p4⟩ := terminatorParity_ctl c s
  have q1 : (terminatorParity c s).encodedCharCount = s.encodedCharCount ∧
      (terminatorParity c s).curTermNumber = s.curTermNumber ∧
      sentenceKind (terminatorParity c s) = sentenceKind s := by
    unfold terminatorParity
    by_cases h : c = 44
    · rw [if_pos h]
      exact ⟨rfl, rfl, rfl⟩
    · rw [if_neg h]
      exact ⟨rfl, rfl, rfl⟩
  have q2 : counters (terminatorParity c s) = counters s := by
    simp only [ctl, Prod.mk.injEq] at p1
    simp only [counters, p1.2.2.1, p1.2.2.2.1, p1.2.2.2.2]
  have q3 : (terminatorParity c s).isChecksumTerm = s.isChecksumTerm := by
    simp only [ctl, Prod.mk.injEq] at p1
    exact p1.2.1
  unfold encodeTerminator
  dsimp only
  generalize terminatorParity c s = x at p2 p4 q1 q2 q3
  by_cases ho : x.curTermOffset < 15
  · rw [if_pos ho]
    obtain ⟨h1, h2⟩ := handler_scanner now (terminateTerm x)
    have h3 := handler_counters now (terminateTerm x)
    have h4 : (terminateTerm x).sentenceHasFix = s.sentenceHasFix := p4
    have h5 : counters (terminateTerm x) = counters s := q2
    rw [h4] at h3
    generalize endOfTermHandler now (terminateTerm x) = r at h1 h2 h3
    simp only [scanner, Prod.mk.injEq] at h1
    refine ⟨?_, rfl, ?_, ?_, ?_⟩
    · exact h1.1.trans q1.1
    · show (r.2.curTermNumber + 1) % 256 = _
      rw [h1.2.2.1]
      show ((x.curTermNumber) + 1) % 256 = _
      rw [q1.2.1]
    · have e : counters (nextTerm c r.2) = counters r.2 := rfl
      rw [e]
      unfold counterStep
      simp only [counters, Prod.mk.injEq] at h3 h5 ⊢
      rw [← h5.1, ← h5.2.1, ← h5.2.2]
      exact h3
    · intro hk
      have e : sentenceKind (nextTerm c r.2) = sentenceKind r.2 := rfl
      rw [e, ← q1.2.2]
      apply h2
      rcases hk with hk | hk | hk
      · left
        exact q3.trans hk
      · right
        show x.curTermNumber ≠ 0
        rw [q1.2.1]
        exact hk
      · rw [p2] at ho
        exact absurd ho hk
  · rw [if_neg ho]
    refine ⟨q1.1, rfl, ?_, ?_, fun _ => q1.2.2⟩
    · show (x.curTermNumber + 1) % 256 = _
      rw [q1.2.1]
    · left
      exact q2

theorem encodeOrdinary_count (c : Nat) (s : navic_gn_rmc_gga) :
    (encodeOrdinary c s).encodedCharCount = s.encodedCharCount := by
  unfold encodeOrdinary
  by_cases h1 : s.curTermOffset < 14 <;> by_cases h2 : s.isChecksumTerm = true <;>
    simp [h1, h2]

/-- One call of `encode`: the character count, the term offset, the counters,
and what keeps the sentence type and the candidate cursor. -/
theorem encode_step (now c : Nat) (s : navic_gn_rmc_gga) :
    (encode now c s).2.encodedCharCount = (s.encodedCharCount + 1) % 4294967296 ∧
    (encode now c s).2.curTermOffset =
      (if c = 44 ∨ c = 13 ∨ c = 10 ∨ c = 42 ∨ c = 36 then 0
        else if s.curTermOffset < 14 then s.curTermOffset + 1 else s.curTermOffset) ∧
    (encode now c s).2.curTermNumber =
      (if c = 44 ∨ c = 13 ∨ c = 10 ∨ c = 42 then (s.curTermNumber + 1) % 256
        else if c = 36 then 0 else s.curTermNumber) ∧
    counterStep s.sentenceHasFix (counters s) (counters (encode now c s).2) ∧
    (c ≠ 36 → (c = 44 ∨ c = 13 ∨ c = 10 ∨ c = 42 →
        s.isChecksumTerm = true ∨ s.curTermNumber ≠ 0 ∨ ¬ s.curTermOffset < 15) →
      sentenceKind (encode now c s).2 = sentenceKind s) := by
  unfold encode
  dsimp only
  by_cases hd : c = 44 ∨ c = 13 ∨ c = 10 ∨ c = 42
  · rw [if_pos hd, if_pos (by omega), if_pos hd]
    obtain ⟨a1, a2, a3, a4, a5⟩ := encodeTerminator_step now c (countChar s)
    exact ⟨a1, a2, a3, a4, fun _ h => a5 (h hd)⟩
  · rw [if_neg hd, if_neg hd]
    by_cases h36 : c = 36
    · rw [if_pos h36, if_pos (by omega), if_pos h36]
      exact ⟨rfl, rfl, rfl, Or.inl rfl, fun h => absurd h36 h⟩
    · rw [if_neg h36, if_neg (by omega), if_neg h36]
      obtain ⟨o1, o2, o3, o4⟩ := encodeOrdinary_sem c (countChar s)
      have o5 := encodeOrdinary_scan c (countChar s)
      have o6 : (encodeOrdinary c (countChar s)).encodedCharCount =
          (s.encodedCharCount + 1) % 4294967296 := encodeOrdinary_count c (countChar s)
      generalize encodeOrdinary c (countChar s) = y at o1 o2 o3 o4 o5 o6
      simp only [ctl, Prod.mk.injEq] at o5
      refine ⟨?_, o3, ?_, ?_, ?_⟩
      · exact o6
      · have := congrArg navic_gn_rmc_gga.curTermNumber o1
        exact this
      · left
        simp only [counters, o5.2.2.1, o5.2.2.2.1, o5.2.2.2.2]
        rfl
      · intro _ _
        have a := congrArg navic_gn_rmc_gga.curSentenceType o1
        have b := congrArg navic_gn_rmc_gga.customCandidates o1
        simp only [sentenceKind, Prod.mk.injEq]
        exact ⟨a, b⟩

/-- One call of `encode` below the wrap-around of the character count. -/
theorem encode_stats (now c : Nat) (s : navic_gn_rmc_gga) (n : Nat) (h : statsInv s n)
    (hn : n + 1 < 4294967296) :
    statsInv (encode now c s).2 (n + 1) ∧ singleCall s (encode now c s).2 := by
  obtain ⟨a1, -, -, a4, -⟩ := encode_step now c s
  obtain ⟨h1, h2, h3⟩ := h
  generalize (encode now c s).2 = y at a1 a4
  unfold statsInv singleCall
  unfold counterStep at a4
  simp only [counters, Prod.mk.injEq] at a4
  rw [h1] at a1
  rcases a4 with ⟨b1, b2, b3⟩ | ⟨b1, b2, b3⟩ | ⟨b1, b2, b3⟩
  · rw [a1, b1, b2, b3]
    refine ⟨⟨by omega, h2, by omega⟩, Or.inl rfl, Or.inl rfl, Or.inl rfl, Or.inl rfl, ?_⟩
    intro hne
    exact absurd rfl hne
  · rw [a1, b1, b2]
    by_cases hf : s.sentenceHasFix = true
    · rw [if_pos hf] at b3
      rw [b3]
      refine ⟨⟨by omega, by omega, by omega⟩, Or.inr (by omega), Or.inl rfl, Or.inr (by omega),
        Or.inr rfl, fun _ => ⟨by omega, hf⟩⟩
    · rw [if_neg hf] at b3
      rw [b3]
      refine ⟨⟨by omega, by omega, by omega⟩, Or.inr (by omega), Or.inl rfl, Or.inl rfl,
        Or.inr rfl, fun hne => absurd rfl hne⟩
  · rw [a1, b1, b2, b3]
    refine ⟨⟨by omega, h2, by omega⟩, Or.inl rfl, Or.inr (by omega), Or.inl rfl, Or.inl rfl,
      fun hne => absurd rfl hne⟩

/-- The statistics invariant along a run below the wrap-around. -/
theorem feed_stats (cs : List Nat) : ∀ (clock : Nat → Nat) (s : navic_gn_rmc_gga) (n : Nat),
    statsInv s n → n + cs.length < 4294967296 → statsInv (feed clock cs s) (n + cs.length) := by
  induction cs with
  | nil => intro clock s n h _; exact h
  | cons c cs ih =>
    intro clock s n h hn
    simp only [List.length_cons] at hn
    have h1 := (encode_stats (clock 0) c s n h (by omega)).1
    have h2 := ih (fun k => clock (k + 1)) (encode (clock 0) c s).2 (n + 1) h1 (by omega)
    have e : n + (c :: cs).length = n + 1 + cs.length := by
      simp only [List.length_cons]
      omega
    rw [e]
    exact h2

theorem statsInv_init : statsInv init 0 := ⟨rfl, le_refl _, le_refl _⟩

/-- C13 (statistics counters): from a fresh decoder, after `n < 2^32` calls of
`encode` the character count is `n`, `sentencesWithFix ≤ passedChecksum` and
`passedChecksum + failedChecksum ≤ charsProcessed`; each call of the run
leaves each of the three sentence counters unchanged or increased by exactly
one, does not change both `passedChecksum` and `failedChecksum`, and increases
`sentencesWithFix` only together with `passedChecksum` and only when the fix
flag of the current sentence is set. -/
theorem C13_statistics (clock : Nat → Nat) (cs : List Nat) (hn : cs.length < 4294967296) :
    (feed clock cs init).encodedCharCount = cs.length ∧
    (feed clock cs init).sentencesWithFixCount ≤ (feed clock cs init).passedChecksumCount ∧
    (feed clock cs init).passedChecksumCount + (feed clock cs init).failedChecksumCount ≤
      (feed clock cs init).encodedCharCount ∧
    ∀ (pre : List Nat) (c : Nat) (post : List Nat), cs = pre ++ c :: post →
      singleCall (feed clock pre init) (encode (clock pre.length) c (feed clock pre init)).2 := by
  have h := feed_stats cs clock init 0 statsInv_init (by omega)
  rw [Nat.zero_add] at h
  obtain ⟨h1, h2, h3⟩ := h
  refine ⟨h1, h2, by rw [h1]; exact h3, ?_⟩
  intro pre c post hcs
  have hlen : pre.length + 1 + post.length = cs.length := by
    rw [hcs, List.length_append, List.length_cons]
    omega
  have hp := feed_stats pre clock init 0 statsInv_init (by omega)
  rw [Nat.zero_add] at hp
  exact (encode_stats (clock pre.length) c (feed clock pre init) pre.length hp (by omega)).2

/-- Witness of C13: the worked example, 70 characters. -/
theorem C13_statistics_witness :
    exampleSentence.length < 4294967296 ∧
    (feed (fun k => k) exampleSentence init).encodedCharCount = exampleSentence.length ∧
    (feed (fun k => k) exampleSentence init).sentencesWithFixCount ≤
      (feed (fun k => k) exampleSentence init).passedChecksumCount :=
  ⟨by decide, (C13_statistics (fun k => k) exampleSentence (by decide)).1,
    (C13_statistics (fun k => k) exampleSentence (by decide)).2.1⟩

theorem offsetAfter_eq (t : List Nat) : ∀ o, o ≤ 14 → offsetAfter o t = min (o + t.length) 14 := by
  induction t with
  | nil =>
    intro o ho
    show o = min (o + 0) 14
    omega
  | cons c cs ih =>
    intro o ho
    unfold offsetAfter
    by_cases h : o < 14
    · rw [if_pos h, ih (o + 1) (by omega), List.length_cons]
      congr 1
      omega
    · rw [if_neg h, List.length_cons]
      omega

theorem written_get (t : List Nat) : ∀ (T : Nat → Nat) (o j : Nat),
    o + j < min (o + t.length) 14 → written T o t (o + j) = t.getD j 0 := by
  induction t with
  | nil =>
    intro T o j h
    simp only [List.length_nil] at h
    omega
  | cons c cs ih =>
    intro T o j h
    simp only [List.length_cons] at h
    unfold written
    rw [if_pos (by omega)]
    cases j with
    | zero =>
      have e0 : o + 0 = o := rfl
      rw [e0, written_below _ _ _ _ (by omega), Function.update_same]
      rfl
    | succ j =>
      have e : o + (j + 1) = (o + 1) + j := by omega
      rw [e, ih _ (o + 1) j (by omega), List.getD_cons_succ]

/-- The term offset never exceeds 14. -/
theorem feed_offset (cs : List Nat) : ∀ (clock : Nat → Nat) (s : navic_gn_rmc_gga),
    s.curTermOffset ≤ 14 → (feed clock cs s).curTermOffset ≤ 14 := by
  induction cs with
  | nil => intro clock s h; exact h
  | cons c cs ih =>
    intro clock s h
    apply ih (fun k => clock (k + 1)) (encode (clock 0) c s).2
    rw [(encode_step (clock 0) c s).2.1]
    split_ifs <;> omega

/-- With a term offset of at most 14, a terminator runs the handler. -/
theorem encode_runs_handler (now d : Nat) (s : navic_gn_rmc_gga)
    (hd : d = 44 ∨ d = 13 ∨ d = 10 ∨ d = 42) (h : s.curTermOffset ≤ 14) :
    encode now d s = ((endOfTermHandler now (handlerInput d s)).1,
      nextTerm d (endOfTermHandler now (handlerInput d s)).2) := by
  rw [encode_terminator_eq now d s hd]
  have ho : (terminatorParity d (countChar s)).curTermOffset < 15 := by
    rw [(terminatorParity_ctl d (countChar s)).2.1]
    show s.curTermOffset < 15
    omega
  unfold encodeTerminator handlerInput
  dsimp only
  rw [if_pos ho]

/-- The term buffer the handler reads. -/
theorem handlerInput_term (d : Nat) (s : navic_gn_rmc_gga) :
    (handlerInput d s).term = Function.update s.term s.curTermOffset 0 := by
  unfold handlerInput
  show Function.update (terminatorParity d (countChar s)).term
    (terminatorParity d (countChar s)).curTermOffset 0 = _
  rw [(terminatorParity_ctl d (countChar s)).2.1, (terminatorParity_ctl d (countChar s)).2.2.1]
  rfl

/-- A term of ordinary characters received from the start of a term: the
offset reached and the buffer the handler reads at the terminator. -/
theorem term_text (t : List Nat) (ht : ∀ c ∈ t, isOrdinary c) (clock : Nat → Nat)
    (s : navic_gn_rmc_gga) (d : Nat) (ho : s.curTermOffset = 0) :
    (feed clock t s).curTermOffset = min t.length 14 ∧
    (∀ i, i < min t.length 14 → (handlerInput d (feed clock t s)).term i = t.getD i 0) ∧
    (handlerInput d (feed clock t s)).term (min t.length 14) = 0 ∧
    ((∀ c ∈ t, c ≠ 0) → cstr (handlerInput d (feed clock t s)).term = t.take 14) := by
  obtain ⟨-, f2, f3, -, -⟩ := feed_ordinary t ht clock s
  rw [ho] at f2 f3
  have e := offsetAfter_eq t 0 (by omega)
  rw [Nat.zero_add] at e
  rw [handlerInput_term, f2, f3]
  refine ⟨e, ?_, ?_, ?_⟩
  · intro i hi
    rw [e, Function.update_noteq (by omega)]
    have := written_get t s.term 0 i (by rw [Nat.zero_add, Nat.zero_add]; exact hi)
    rw [Nat.zero_add] at this
    exact this
  · rw [e, Function.update_same]
  · intro hz
    exact (cstr_written t hz s.term).1

/-- C14 (oversized terms and buffer safety): in every state reached from the
fresh decoder the term offset is at most 14, so the NUL and the characters
`encode` writes go to indices below 15 and every `','`, `'*'`, CR, LF runs the
term-completion handler; and after a term start (`'$'` or a terminator) and a
term `t` of ordinary characters, the buffer the handler reads holds the first
`min(n, 14)` characters of `t` followed by the NUL (as a C string: `t.take 14`
when `t` has no NUL character). -/
theorem C14_term_buffer (clock : Nat → Nat) (cs : List Nat) (now b d : Nat) (t : List Nat)
    (hb : b = 36 ∨ b = 44 ∨ b = 13 ∨ b = 10 ∨ b = 42) (hd : d = 44 ∨ d = 13 ∨ d = 10 ∨ d = 42)
    (ht : ∀ c ∈ t, isOrdinary c) :
    (feed clock cs init).curTermOffset ≤ 14 ∧
    encode now d (feed clock cs init) =
      ((endOfTermHandler now (handlerInput d (feed clock cs init))).1,
        nextTerm d (endOfTermHandler now (handlerInput d (feed clock cs init))).2) ∧
    (feed clock (cs ++ b :: t) init).curTermOffset = min t.length 14 ∧
    (∀ i, i < min t.length 14 →
      (handlerInput d (feed clock (cs ++ b :: t) init)).term i = t.getD i 0) ∧
    (handlerInput d (feed clock (cs ++ b :: t) init)).term (min t.length 14) = 0 ∧
    ((∀ c ∈ t, c ≠ 0) → cstr (handlerInput d (feed clock (cs ++ b :: t) init)).term = t.take 14) := by
  have h0 : init.curTermOffset ≤ 14 := by decide
  have h1 := feed_offset cs clock init h0
  refine ⟨h1, encode_runs_handler now d _ hd h1, ?_⟩
  have e : feed clock (cs ++ b :: t) init =
      feed (fun k => clock (k + cs.length + 1)) t
        (encode (clock cs.length) b (feed clock cs init)).2 := by
    rw [feed_append]
    show feed (fun k => clock (k + 1 + cs.length)) t
      (encode (clock (0 + cs.length)) b (feed clock cs init)).2 = _
    rw [Nat.zero_add]
    have : (fun k => clock (k + 1 + cs.length)) = (fun k => clock (k + cs.length + 1)) := by
      funext k
      congr 1
      omega
    rw [this]
  rw [e]
  apply term_text t ht
  rw [(encode_step _ b _).2.1, if_pos (by omega)]

/-- Witness of C14: a term of 16 characters after the worked example and a
comma; the handler reads its first 14 characters. -/
theorem C14_term_buffer_witness :
    (∀ c ∈ [48, 48, 48, 48, 48, 48, 48, 48, 48, 48, 48, 48, 49, 50, 46, 53], isOrdinary c) ∧
    (feed (fun k => k)
      (exampleSentence ++ 44 :: [48, 48, 48, 48, 48, 48, 48, 48, 48, 48, 48, 48, 49, 50, 46, 53])
      init).curTermOffset = 14 ∧
    cstr (handlerInput 44 (feed (fun k => k)
      (exampleSentence ++ 44 :: [48, 48, 48, 48, 48, 48, 48, 48, 48, 48, 48, 48, 49, 50, 46, 53])
      init)).term = [48, 48, 48, 48, 48, 48, 48, 48, 48, 48, 48, 48, 49, 50] :=
  ⟨by decide,
    (C14_term_buffer (fun k => k) exampleSentence 0 44 44
      [48, 48, 48, 48, 48, 48, 48, 48, 48, 48, 48, 48, 49, 50, 46, 53] (by decide) (by decide)
      (by decide)).2.2.1,
    (C14_term_buffer (fun k => k) exampleSentence 0 44 44
      [48, 48, 48, 48, 48, 48, 48, 48, 48, 48, 48, 48, 49, 50, 46, 53] (by decide) (by decide)
      (by decide)).2.2.2.2.2 (by decide)⟩

/-- `strcmp` is negative exactly on lexicographically smaller strings. -/
theorem strcmp_neg_iff (a : List Nat) : ∀ b : List Nat,
    strcmp a b < 0 ↔ List.Lex (fun x y : Nat => x < y) a b := by
  induction a with
  | nil =>
    intro b
    cases b with
    | nil =>
      simp only [strcmp, lt_self_iff_false, false_iff]
      intro h
      cases h
    | cons y ys =>
      simp only [strcmp, Int.reduceNeg, Left.neg_neg_iff, zero_lt_one, true_iff]
      exact List.Lex.nil
  | cons x xs ih =>
    intro b
    cases b with
    | nil =>
      simp only [strcmp, iff_false]
      constructor
      · omega
      · intro h
        cases h
    | cons y ys =>
      unfold strcmp
      by_cases h1 : x < y
      · rw [if_pos h1]
        exact ⟨fun _ => List.Lex.rel h1, fun _ => by omega⟩
      · rw [if_neg h1]
        by_cases h2 : y < x
        · rw [if_pos h2]
          constructor
          · intro h
            omega
          · intro h
            cases h with
            | cons h => omega
            | rel h => omega
        · rw [if_neg h2]
          have e : x = y := by omega
          subst e
          rw [ih ys]
          constructor
          · intro h
            exact List.Lex.cons h
          · intro h
            cases h with
            | cons h => exact h
            | rel h => omega

theorem keyLe_iff (a b : List Nat × Int) : keyLe a b ↔ keyOrder a b := by
  unfold keyLe keyOrder
  rw [strcmp_neg_iff]

/-- What `begin` does to the registry. -/
theorem begin_customElts (navic : navic_gn_rmc_gga) (name : List Nat) (k : Int) :
    (NavIC_CUSTOM.begin navic name k).customElts =
      insertCustom (descriptorOf name k) name k navic.customElts := rfl

theorem register_snoc (regs : List (List Nat × Int)) (r : List Nat × Int) :
    register (regs ++ [r]) = insertCustom (descriptorOf r.1 r.2) r.1 r.2 (register regs) := by
  unfold register
  rw [List.foldl_append]
  rfl

/-- `insertCustom` links the new descriptor between two parts of the list. -/
theorem insertCustom_split (p : NavIC_CUSTOM) (name : List Nat) (k : Int)
    (l : List NavIC_CUSTOM) :
    ∃ A B, l = A ++ B ∧ insertCustom p name k l = A ++ p :: B ∧
      A.length = insertPos name k l ∧
      (∀ e ∈ A, keyLe (key e) (name, k)) ∧
      (∀ e, B.head? = some e → ¬ keyLe (key e) (name, k)) := by
  induction l with
  | nil =>
    refine ⟨[], [], rfl, rfl, rfl, ?_, ?_⟩
    · intro e he
      cases he
    · intro e he
      cases he
  | cons e rest ih =>
    unfold insertCustom insertPos
    dsimp only
    by_cases hc : strcmp name e.sentenceName < 0 ∨
        (strcmp name e.sentenceName = 0 ∧ k < e.termNumber)
    · rw [if_pos hc, if_pos hc]
      refine ⟨[], e :: rest, rfl, rfl, rfl, ?_, ?_⟩
      · intro x hx
        cases hx
      · intro x hx
        have hx : e = x := by simpa using hx
        subst hx
        unfold keyLe key
        dsimp only
        rintro (h | ⟨h1, h2⟩)
        · rcases hc with hc | ⟨hc, -⟩
          · have := (strcmp_swap _ _).1 hc
            omega
          · have := (strcmp_swap _ _).1 h
            omega
        · rcases hc with hc | ⟨-, hc⟩
          · rw [h1, strcmp_self] at hc
            omega
          · omega
    · rw [if_neg hc, if_neg hc]
      obtain ⟨A, B, h1, h2, h3, h4, h5⟩ := ih
      refine ⟨e :: A, B, ?_, ?_, ?_, ?_, h5⟩
      · rw [h1]
        rfl
      · rw [h2]
        rfl
      · rw [List.length_cons, h3]
      · intro x hx
        rcases List.mem_cons.1 hx with rfl | hx
        · rw [not_or, not_and_or] at hc
          obtain ⟨c1, c2⟩ := hc
          unfold keyLe key
          dsimp only
          by_cases c0 : strcmp name x.sentenceName = 0
          · rcases c2 with c2 | c2
            · exact absurd c0 c2
            · exact Or.inr ⟨((strcmp_eq_zero _ _).1 c0).symm, by omega⟩
          · exact Or.inl ((strcmp_swap _ _).2 (by omega))
        · exact h4 x hx

theorem insertCustom_perm (p : NavIC_CUSTOM) (name : List Nat) (k : Int)
    (l : List NavIC_CUSTOM) : (insertCustom p name k l).Perm (p :: l) := by
  obtain ⟨A, B, h1, h2, -⟩ := insertCustom_split p name k l
  rw [h2, h1]
  exact List.perm_middle

theorem insertCustom_sublist (p : NavIC_CUSTOM) (name : List Nat) (k : Int)
    (l : List NavIC_CUSTOM) : List.Sublist l (insertCustom p name k l) := by
  obtain ⟨A, B, h1, h2, -⟩ := insertCustom_split p name k l
  rw [h2]
  conv_lhs => rw [h1]
  exact List.Sublist.append (List.Sublist.refl A) (List.sublist_cons_self p B)

theorem register_perm (regs : List (List Nat × Int)) :
    (register regs).Perm ((regs.map (fun r => descriptorOf r.1 r.2)).reverse) := by
  induction regs using List.reverseRecOn with
  | nil => exact List.Perm.refl _
  | append_singleton rs r ih =>
    rw [register_snoc, List.map_append, List.reverse_append]
    exact (insertCustom_perm _ _ _ _).trans (List.Perm.cons _ ih)

/-- A registry built by registration is sorted in lexicographic key order. -/
theorem register_keyOrder (regs : List (List Nat × Int)) :
    (register regs).Pairwise (fun a b => keyOrder (key a) (key b)) := by
  have h := register_sorted regs
  simp only [keyLe_iff] at h
  exact h

/-- C15 (registry order invariant): after any sequence of registrations from
the empty registry, the registry is sorted in ascending lexicographic order of
(sentenceName, termIndex), it holds exactly the registered descriptors (as
many times as they were registered), and one more registration keeps the
descriptors already there in their relative order. -/
theorem C15_registry_order (regs : List (List Nat × Int)) :
    (register regs).Pairwise (fun a b => keyOrder (key a) (key b)) ∧
    (register regs).Perm (regs.map (fun r => descriptorOf r.1 r.2)) ∧
    ∀ r : List Nat × Int, List.Sublist (register regs) (register (regs ++ [r])) := by
  refine ⟨?_, ?_, ?_⟩
  · exact register_keyOrder regs
  · exact (register_perm regs).trans (List.reverse_perm _)
  · intro r
    rw [register_snoc]
    exact insertCustom_sublist _ _ _ _

/-- The place of a new descriptor in a sorted registry: after the entries
whose key is at most the new key, before those whose key is greater. -/
theorem insertCustom_place (p : NavIC_CUSTOM) (name : List Nat) (k : Int)
    (l : List NavIC_CUSTOM) (hs : l.Pairwise (fun a b => keyLe (key a) (key b))) :
    ∃ A B, l = A ++ B ∧ insertCustom p name k l = A ++ p :: B ∧
      (∀ e ∈ A, keyLe (key e) (name, k)) ∧ (∀ e ∈ B, ¬ keyLe (key e) (name, k)) := by
  obtain ⟨A, B, h1, h2, -, h4, h5⟩ := insertCustom_split p name k l
  refine ⟨A, B, h1, h2, h4, ?_⟩
  rw [h1, List.pairwise_append] at hs
  obtain ⟨-, hB, -⟩ := hs
  cases B with
  | nil =>
    intro e he
    cases he
  | cons b bs =>
    rw [List.pairwise_cons] at hB
    intro e he hle
    rcases List.mem_cons.1 he with rfl | he
    · exact h5 e rfl hle
    · exact h5 b rfl (keyLe_trans _ _ _ (hB.1 e he) hle)

/-- C16 (insertion position, amended): in a sorted registry `insertCustom`
links the new descriptor immediately before the first entry whose key is
greater than the new key, at the end when there is none: the entries in front
of it are those with a key lower than or equal to the new key, the entries
behind it those with a greater key.  An entry with an equal key stays in front
of the new descriptor. -/
theorem C16_insertion_position (p : NavIC_CUSTOM) (name : List Nat) (k : Int)
    (l : List NavIC_CUSTOM) (hs : l.Pairwise (fun a b => keyOrder (key a) (key b))) :
    ∃ A B, l = A ++ B ∧ insertCustom p name k l = A ++ p :: B ∧
      (∀ e ∈ A, keyOrder (key e) (name, k)) ∧ (∀ e ∈ B, ¬ keyOrder (key e) (name, k)) := by
  simp only [← keyLe_iff] at hs ⊢
  exact insertCustom_place p name k l hs

/-- Witness of C16: a descriptor for term 5 of "GNRMC" goes between those for
terms 3 and 7. -/
theorem C16_insertion_position_witness :
    (register [(_GNRMCterm, 7), (_GNRMCterm, 3)]).Pairwise
      (fun a b => keyOrder (key a) (key b)) ∧
    register [(_GNRMCterm, 7), (_GNRMCterm, 3)] =
      [descriptorOf _GNRMCterm 3, descriptorOf _GNRMCterm 7] ∧
    insertCustom (descriptorOf _GNRMCterm 5) _GNRMCterm 5
      (register [(_GNRMCterm, 7), (_GNRMCterm, 3)]) =
      [descriptorOf _GNRMCterm 3, descriptorOf _GNRMCterm 5, descriptorOf _GNRMCterm 7] ∧
    ∃ A B, register [(_GNRMCterm, 7), (_GNRMCterm, 3)] = A ++ B ∧
      insertCustom (descriptorOf _GNRMCterm 5) _GNRMCterm 5
        (register [(_GNRMCterm, 7), (_GNRMCterm, 3)]) = A ++ descriptorOf _GNRMCterm 5 :: B ∧
      (∀ e ∈ A, keyOrder (key e) (_GNRMCterm, 5)) ∧
      (∀ e ∈ B, ¬ keyOrder (key e) (_GNRMCterm, 5)) :=
  ⟨(register_keyOrder [(_GNRMCterm, 7), (_GNRMCterm, 3)]), by decide, by decide,
    C16_insertion_position (descriptorOf _GNRMCterm 5) _GNRMCterm 5
      (register [(_GNRMCterm, 7), (_GNRMCterm, 3)])
      (register_keyOrder [(_GNRMCterm, 7), (_GNRMCterm, 3)])⟩

/-- C16 as stated fails: the registry holds one descriptor with key ("A", 1);
a new descriptor with the same key is linked behind it, not in front of it. -/
theorem C16_counterexample :
    key filledDescriptor = key (descriptorOf [65] 1) ∧
    filledDescriptor ≠ descriptorOf [65] 1 ∧
    insertCustom (descriptorOf [65] 1) [65] 1 [filledDescriptor] =
      [filledDescriptor, descriptorOf [65] 1] := by
  decide

/-- What two states that agree up to the scanner state have in common. -/
theorem sem_views (X Y : navic_gn_rmc_gga) (h : sem X = sem Y) :
    fields X = fields Y ∧ X.sentenceHasFix = Y.sentenceHasFix ∧ X.customElts = Y.customElts ∧
    X.customCandidates = Y.customCandidates ∧ X.curSentenceType = Y.curSentenceType ∧
    X.curTermNumber = Y.curTermNumber ∧ counters X = counters Y := by
  have h1 := congrArg fields h
  have h2 := congrArg navic_gn_rmc_gga.sentenceHasFix h
  have h3 := congrArg navic_gn_rmc_gga.customElts h
  have h4 := congrArg navic_gn_rmc_gga.customCandidates h
  have h5 := congrArg navic_gn_rmc_gga.curSentenceType h
  have h6 := congrArg navic_gn_rmc_gga.curTermNumber h
  have h7 := congrArg counters h
  exact ⟨h1, h2, h3, h4, h5, h6, h7⟩

/-- A terminator that completes a data term (neither the checksum term nor the
first term): the built-in dispatch and the custom staging on the C string in
the term buffer. -/
theorem encode_data_term (now d : Nat) (s : navic_gn_rmc_gga)
    (hd : d = 44 ∨ d = 13 ∨ d = 10 ∨ d = 42) (hc : s.isChecksumTerm = false)
    (hn : s.curTermNumber ≠ 0) (ho : s.curTermOffset < 15) :
    fields (encode now d s).2 =
      fields (dispatched (cstr (Function.update s.term s.curTermOffset 0))
        (Function.update s.term s.curTermOffset 0 0) s) ∧
    (encode now d s).2.sentenceHasFix =
      (dispatched (cstr (Function.update s.term s.curTermOffset 0))
        (Function.update s.term s.curTermOffset 0 0) s).sentenceHasFix ∧
    (encode now d s).2.customElts =
      setCustom s.curTermNumber (cstr (Function.update s.term s.curTermOffset 0))
        s.customElts s.customCandidates := by
  obtain ⟨-, t2, -, -⟩ := encodeTerminator_plain now d
    (cstr (Function.update s.term s.curTermOffset 0))
    (Function.update s.term s.curTermOffset 0 0) (countChar s) hc ho rfl rfl
  rw [← encode_terminator_eq now d s hd,
    if_neg (show ¬ (countChar s).curTermNumber = 0 from hn)] at t2
  generalize cstr (Function.update s.term s.curTermOffset 0) = a at t2 ⊢
  generalize Function.update s.term s.curTermOffset 0 0 = b at t2 ⊢
  have e : sem (nextTerm 44 (dataTerm a b (countChar s))) = sem (nextTerm 44 (dataTerm a b s)) := by
    show sem (nextTerm 44 (sem (dataTerm a b (countChar s)))) =
      sem (nextTerm 44 (sem (dataTerm a b s)))
    rw [dataTerm_sem a b (countChar s), dataTerm_sem a b s]
    rfl
  rw [e] at t2
  obtain ⟨v1, v2, v3, -⟩ := sem_views _ _ t2
  obtain ⟨u1, u2, u3, u4, -⟩ := dispatched_frame a b s
  refine ⟨v1, v2, v3.trans ?_⟩
  show setCustom (dispatched a b s).curTermNumber a (dispatched a b s).customElts
    (dispatched a b s).customCandidates = _
  rw [u1, u3, u4]

/-- The term buffer of an empty term: the C string is empty and its first
byte is the NUL. -/
theorem empty_term_buffer (T : Nat → Nat) :
    cstr (Function.update T 0 0) = [] ∧ Function.update T 0 0 0 = 0 := by
  refine ⟨?_, Function.update_same _ _ _⟩
  unfold cstr cstrFrom
  rw [if_pos (Function.update_same _ _ _)]

/-- C17 (empty built-in term is a no-op): outside the checksum term and for a
term index other than 0, a `','`, `'*'`, CR or LF that arrives with term
length 0 leaves every built-in field (its pending value, and its committed
side too) and the fix flag of the sentence unchanged, whatever the sentence
type. -/
theorem C17_empty_term (now d : Nat) (s : navic_gn_rmc_gga)
    (hd : d = 44 ∨ d = 13 ∨ d = 10 ∨ d = 42) (hc : s.isChecksumTerm = false)
    (hn : s.curTermNumber ≠ 0) (ho : s.curTermOffset = 0) :
    fields (encode now d s).2 = fields s ∧
    (encode now d s).2.sentenceHasFix = s.sentenceHasFix := by
  obtain ⟨a1, a2, -⟩ := encode_data_term now d s hd hc hn (by omega)
  rw [ho, (empty_term_buffer s.term).1, (empty_term_buffer s.term).2] at a1 a2
  have e : dispatched [] 0 s = s := by
    unfold dispatched
    rw [if_neg (fun h => h.2 rfl)]
  rw [e] at a1 a2
  exact ⟨a1, a2⟩

/-- Witness of C17: the empty term 1 of a sentence "$GNRMC,," after the worked
example. -/
theorem C17_empty_term_witness :
    (feed (fun k => k) (exampleSentence ++ [36, 71, 78, 82, 77, 67, 44]) init).isChecksumTerm =
      false ∧
    (feed (fun k => k) (exampleSentence ++ [36, 71, 78, 82, 77, 67, 44]) init).curTermNumber ≠ 0 ∧
    (feed (fun k => k) (exampleSentence ++ [36, 71, 78, 82, 77, 67, 44]) init).curTermOffset = 0 ∧
    fields (encode 77 44
      (feed (fun k => k) (exampleSentence ++ [36, 71, 78, 82, 77, 67, 44]) init)).2 =
      fields (feed (fun k => k) (exampleSentence ++ [36, 71, 78, 82, 77, 67, 44]) init) :=
  ⟨by decide, by decide, by decide,
    (C17_empty_term 77 44
      (feed (fun k => k) (exampleSentence ++ [36, 71, 78, 82, 77, 67, 44]) init)
      (by decide) (by decide) (by decide) (by decide)).1⟩

/-- The staging loop at an empty term of a sentence named `name`, the registry
being sorted: the empty text is staged in every descriptor of this name and of
the current term number. -/
theorem encode_empty_custom (now d : Nat) (s : navic_gn_rmc_gga) (name : List Nat)
    (hs : s.customElts.Pairwise (fun a b => keyLe (key a) (key b)))
    (hcand : s.customCandidates = findCandidates name s.customElts)
    (hd : d = 44 ∨ d = 13 ∨ d = 10 ∨ d = 42) (hc : s.isChecksumTerm = false)
    (hn : s.curTermNumber ≠ 0) (ho : s.curTermOffset = 0) :
    (encode now d s).2.customElts = s.customElts.map (stageAt name s.curTermNumber []) := by
  obtain ⟨-, -, a3⟩ := encode_data_term now d s hd hc hn (by omega)
  rw [ho, (empty_term_buffer s.term).1] at a3
  rw [a3]
  apply setCustom_map name _ _ _ _ hs
  rw [hcand]
  exact find_spec name s.customElts hs

/-- C18 (empty term and custom fields, amended): the registry holding
descriptors registered in any order and the candidate cursor being that of a
sentence named `name`, completing an empty term of index `k` (a terminator
arriving with term length 0, outside the checksum term, `k` not 0) stages the
empty text in every descriptor (`name`, `k`): its staging buffer becomes
empty; every other descriptor is unchanged. -/
theorem C18_empty_custom (now d : Nat) (s : navic_gn_rmc_gga) (regs : List (List Nat × Int))
    (name : List Nat) (hreg : s.customElts.map key = (register regs).map key)
    (hcand : s.customCandidates = findCandidates name s.customElts)
    (hd : d = 44 ∨ d = 13 ∨ d = 10 ∨ d = 42) (hc : s.isChecksumTerm = false)
    (hn : s.curTermNumber ≠ 0) (ho : s.curTermOffset = 0) :
    (encode now d s).2.customElts.length = s.customElts.length ∧
    ∀ (i : Nat) (p q : NavIC_CUSTOM), s.customElts[i]? = some p →
      (encode now d s).2.customElts[i]? = some q →
      (p.sentenceName = name ∧ p.termNumber = (s.curTermNumber : Int) →
        q = { p with stagingBuffer := [] }) ∧
      (¬ (p.sentenceName = name ∧ p.termNumber = (s.curTermNumber : Int)) → q = p) := by
  rw [encode_empty_custom now d s name (sorted_of_keys _ regs hreg) hcand hd hc hn ho]
  refine ⟨List.length_map _ _, ?_⟩
  intro i p q hp hq
  rw [List.getElem?_map, hp] at hq
  have hq : stageAt name s.curTermNumber [] p = q := Option.some.inj hq
  rw [← hq]
  unfold stageAt
  refine ⟨fun h => ?_, fun h => ?_⟩
  · rw [if_pos h]
    rfl
  · rw [if_neg h]

/-- Witness of C18: a descriptor for term 1 of "GNRMC" whose staging buffer
holds "7"; the empty term 1 of the next "GNRMC" sentence empties it. -/
theorem C18_empty_custom_witness :
    (feed (fun k => k) stagedThenName (NavIC_CUSTOM.begin init _GNRMCterm 1)).customElts.map key =
      (register [(_GNRMCterm, 1)]).map key ∧
    (feed (fun k => k) stagedThenName (NavIC_CUSTOM.begin init _GNRMCterm 1)).customCandidates =
      findCandidates _GNRMCterm
        (feed (fun k => k) stagedThenName (NavIC_CUSTOM.begin init _GNRMCterm 1)).customElts ∧
    (feed (fun k => k) stagedThenName (NavIC_CUSTOM.begin init _GNRMCterm 1)).isChecksumTerm =
      false ∧
    (feed (fun k => k) stagedThenName (NavIC_CUSTOM.begin init _GNRMCterm 1)).curTermNumber ≠ 0 ∧
    (feed (fun k => k) stagedThenName (NavIC_CUSTOM.begin init _GNRMCterm 1)).curTermOffset = 0 ∧
    ((encode 16 44 (feed (fun k => k) stagedThenName (NavIC_CUSTOM.begin init _GNRMCterm 1))).2.customElts.length =
      (feed (fun k => k) stagedThenName (NavIC_CUSTOM.begin init _GNRMCterm 1)).customElts.length ∧
    ∀ (i : Nat) (p q : NavIC_CUSTOM),
      (feed (fun k => k) stagedThenName (NavIC_CUSTOM.begin init _GNRMCterm 1)).customElts[i]? =
        some p →
      (encode 16 44 (feed (fun k => k) stagedThenName (NavIC_CUSTOM.begin init _GNRMCterm 1))).2.customElts[i]? = some q →
      (p.sentenceName = _GNRMCterm ∧ p.termNumber =
          ((feed (fun k => k) stagedThenName (NavIC_CUSTOM.begin init _GNRMCterm 1)).curTermNumber :
            Int) →
        q = { p with stagingBuffer := [] }) ∧
      (¬ (p.sentenceName = _GNRMCterm ∧ p.termNumber =
          ((feed (fun k => k) stagedThenName (NavIC_CUSTOM.begin init _GNRMCterm 1)).curTermNumber :
            Int)) → q = p)) :=
  ⟨by decide, by decide, by decide, by decide, by decide,
    C18_empty_custom 16 44 (feed (fun k => k) stagedThenName (NavIC_CUSTOM.begin init _GNRMCterm 1)) [(_GNRMCterm, 1)] _GNRMCterm (by decide)
      (by decide) (by decide) (by decide) (by decide) (by decide)⟩

/-- C18 as stated fails: after "$GNRMC,7,$GNRMC," the descriptor registered for
term 1 of "GNRMC" has the staging buffer "7"; the comma that completes the
empty term 1 leaves it with an empty staging buffer. -/
theorem C18_counterexample :
    (feed (fun k => k) stagedThenName (NavIC_CUSTOM.begin init _GNRMCterm 1)).isChecksumTerm =
      false ∧
    (feed (fun k => k) stagedThenName (NavIC_CUSTOM.begin init _GNRMCterm 1)).curTermNumber = 1 ∧
    (feed (fun k => k) stagedThenName (NavIC_CUSTOM.begin init _GNRMCterm 1)).curTermOffset = 0 ∧
    (feed (fun k => k) stagedThenName (NavIC_CUSTOM.begin init _GNRMCterm 1)).curSentenceType =
      NAVIC_SENTENCE_GNRMC ∧
    (feed (fun k => k) stagedThenName (NavIC_CUSTOM.begin init _GNRMCterm 1)).customElts.map
      (fun p => (p.sentenceName, p.termNumber, p.stagingBuffer)) = [(_GNRMCterm, 1, [55])] ∧
    (encode 16 44 (feed (fun k => k) stagedThenName
      (NavIC_CUSTOM.begin init _GNRMCterm 1))).2.customElts.map
      (fun p => (p.sentenceName, p.termNumber, p.stagingBuffer)) = [(_GNRMCterm, 1, [])] := by
  decide

set_option maxRecDepth 100000 in
/-- The keys of the dispatch `switch` for the term indices that are neither 1
to 9 nor 33 to 41 are no case labels. -/
theorem COMBINE_unlisted : ∀ k, k < 256 →
    ((1 ≤ k ∧ k ≤ 9) ∨ (33 ≤ k ∧ k ≤ 41) ∨
    ((¬ (1 ≤ COMBINE NAVIC_SENTENCE_GNRMC k ∧ COMBINE NAVIC_SENTENCE_GNRMC k ≤ 9) ∧
      ¬ (33 ≤ COMBINE NAVIC_SENTENCE_GNRMC k ∧ COMBINE NAVIC_SENTENCE_GNRMC k ≤ 41)) ∧
    (¬ (1 ≤ COMBINE NAVIC_SENTENCE_GNGGA k ∧ COMBINE NAVIC_SENTENCE_GNGGA k ≤ 9) ∧
      ¬ (33 ≤ COMBINE NAVIC_SENTENCE_GNGGA k ∧ COMBINE NAVIC_SENTENCE_GNGGA k ≤ 41)))) := by
  decide

/-- A key that is no case label: the dispatch `switch` does nothing. -/
theorem dispatchKey_unlisted (key : Nat) (a : List Nat) (b : Nat) (s : navic_gn_rmc_gga)
    (h1 : ¬ (1 ≤ key ∧ key ≤ 9)) (h2 : ¬ (33 ≤ key ∧ key ≤ 41)) :
    dispatchKey key a b s = s :=
  dispatchKey_cases (fun x => x = s) _ _ _ s (fun _ _ => rfl)
    (fun h => by omega) (fun h => by omega) (fun h => by omega) (fun h => by omega)
    (fun h => by omega) (fun h => by omega) (fun h => by omega) (fun h => by omega)
    (fun h => by omega) (fun h => by omega) (fun h => by omega) (fun h => by omega)
    (fun h => by omega)

/-- Where the key of the dispatch `switch` is no case label: for a sentence of
type RMC, GGA or OTHER and a term index from 1 to 255 that, for RMC and GGA,
is neither one of 1 to 9 nor one of 33 to 41, completing a term outside the
checksum term leaves every built-in field and the fix flag of the sentence
unchanged, whatever the term text. -/
theorem unlisted_term_noop (now d : Nat) (s : navic_gn_rmc_gga)
    (hd : d = 44 ∨ d = 13 ∨ d = 10 ∨ d = 42) (hc : s.isChecksumTerm = false)
    (ho : s.curTermOffset < 15)
    (htype : s.curSentenceType = NAVIC_SENTENCE_GNRMC ∨
      s.curSentenceType = NAVIC_SENTENCE_GNGGA ∨ s.curSentenceType = NAVIC_SENTENCE_OTHER)
    (h1 : 1 ≤ s.curTermNumber) (h255 : s.curTermNumber ≤ 255)
    (hk : s.curSentenceType ≠ NAVIC_SENTENCE_OTHER →
      ¬ (1 ≤ s.curTermNumber ∧ s.curTermNumber ≤ 9) ∧
      ¬ (33 ≤ s.curTermNumber ∧ s.curTermNumber ≤ 41)) :
    fields (encode now d s).2 = fields s ∧
    (encode now d s).2.sentenceHasFix = s.sentenceHasFix := by
  obtain ⟨a1, a2, -⟩ := encode_data_term now d s hd hc (by omega) ho
  have e : dispatched (cstr (Function.update s.term s.curTermOffset 0))
      (Function.update s.term s.curTermOffset 0 0) s = s := by
    unfold dispatched
    by_cases hg : s.curSentenceType ≠ NAVIC_SENTENCE_OTHER ∧
        Function.update s.term s.curTermOffset 0 0 ≠ 0
    · rw [if_pos hg]
      obtain ⟨k1, k2⟩ := hk hg.1
      obtain ⟨c1, c2⟩ : (¬ (1 ≤ COMBINE NAVIC_SENTENCE_GNRMC s.curTermNumber ∧
            COMBINE NAVIC_SENTENCE_GNRMC s.curTermNumber ≤ 9) ∧
          ¬ (33 ≤ COMBINE NAVIC_SENTENCE_GNRMC s.curTermNumber ∧
            COMBINE NAVIC_SENTENCE_GNRMC s.curTermNumber ≤ 41)) ∧
          (¬ (1 ≤ COMBINE NAVIC_SENTENCE_GNGGA s.curTermNumber ∧
            COMBINE NAVIC_SENTENCE_GNGGA s.curTermNumber ≤ 9) ∧
          ¬ (33 ≤ COMBINE NAVIC_SENTENCE_GNGGA s.curTermNumber ∧
            COMBINE NAVIC_SENTENCE_GNGGA s.curTermNumber ≤ 41)) := by
        rcases COMBINE_unlisted s.curTermNumber (by omega) with h | h | h
        · exact absurd h k1
        · exact absurd h k2
        · exact h
      unfold dispatch
      rcases htype with ht | ht | ht
      · rw [ht]
        exact dispatchKey_unlisted _ _ _ _ c1.1 c1.2
      · rw [ht]
        exact dispatchKey_unlisted _ _ _ _ c2.1 c2.2
      · exact absurd ht hg.1
    · rw [if_neg hg]
  rw [e] at a1 a2
  exact ⟨a1, a2⟩

set_option maxRecDepth 100000 in
/-- Term 10 ("003.1") of the worked example, the comma that completes it: no
built-in field changes. -/
theorem unlisted_term_noop_example :
    (feed (fun k => k) (exampleSentence.take 63) init).isChecksumTerm = false ∧
    (feed (fun k => k) (exampleSentence.take 63) init).curTermOffset < 15 ∧
    (feed (fun k => k) (exampleSentence.take 63) init).curSentenceType = NAVIC_SENTENCE_GNRMC ∧
    (feed (fun k => k) (exampleSentence.take 63) init).curTermNumber = 10 ∧
    cstr (handlerInput 44 (feed (fun k => k) (exampleSentence.take 63) init)).term = [48, 48, 51, 46, 49] ∧
    fields (encode 63 44 (feed (fun k => k) (exampleSentence.take 63) init)).2 =
      fields (feed (fun k => k) (exampleSentence.take 63) init) :=
  ⟨by decide, by decide, by decide, by decide, by decide,
    (unlisted_term_noop 63 44 (feed (fun k => k) (exampleSentence.take 63) init) (by decide)
      (by decide) (by decide) (by decide) (by decide) (by decide) (by decide)).1⟩

set_option maxRecDepth 100000 in
/-- C19 (unknown combinations are no-ops), the code at a term index the case
labels of the dispatch `switch` do not list: in the GGA sentence
"$GNGGA,,, ... ,1," the text "1" is term 33, yet the comma that completes it
sets the pending time (to 100, as the label "Time in both sentences" does for
term 1); in "$GNGGA,,, ... ,A," the text "A" is term 34, yet the comma that
completes it sets the fix flag of the sentence (as the label "GNRMC validity"
does for term 2 of an RMC sentence). `COMBINE` keeps 5 bits for the term
index: the keys of terms 33 and 34 of a GGA sentence are the labels
`COMBINE(NAVIC_SENTENCE_GNRMC, 1)` and `COMBINE(NAVIC_SENTENCE_GNRMC, 2)`. -/
theorem C19_key_collision :
    (COMBINE NAVIC_SENTENCE_GNGGA 33 = COMBINE NAVIC_SENTENCE_GNRMC 1 ∧
      COMBINE NAVIC_SENTENCE_GNGGA 34 = COMBINE NAVIC_SENTENCE_GNRMC 2) ∧
    ((feed (fun k => k) termThirtyThree init).isChecksumTerm = false ∧
      (feed (fun k => k) termThirtyThree init).curSentenceType = NAVIC_SENTENCE_GNGGA ∧
      (feed (fun k => k) termThirtyThree init).curTermNumber = 33 ∧
      cstr (handlerInput 44 (feed (fun k => k) termThirtyThree init)).term = [49] ∧
      (feed (fun k => k) termThirtyThree init).time.newTime = 0 ∧
      (encode 40 44 (feed (fun k => k) termThirtyThree init)).2.time.newTime = 100 ∧
      fields (encode 40 44 (feed (fun k => k) termThirtyThree init)).2 ≠
        fields (feed (fun k => k) termThirtyThree init)) ∧
    ((feed (fun k => k) termThirtyFour init).isChecksumTerm = false ∧
      (feed (fun k => k) termThirtyFour init).curSentenceType = NAVIC_SENTENCE_GNGGA ∧
      (feed (fun k => k) termThirtyFour init).curTermNumber = 34 ∧
      cstr (handlerInput 44 (feed (fun k => k) termThirtyFour init)).term = [65] ∧
      (feed (fun k => k) termThirtyFour init).sentenceHasFix = false ∧
      (encode 41 44 (feed (fun k => k) termThirtyFour init)).2.sentenceHasFix = true) := by
  refine ⟨by decide, ⟨by decide, by decide, by decide, by decide, by decide, by decide, ?_⟩,
    by decide⟩
  intro h
  have h2 := congrArg (fun f => f.2.2.1.newTime) h
  revert h2
  decide

/-- Without a `'$'` and below the wrap-around of the 8-bit term number, the
sentence type and the candidate cursor stay as they are. -/
theorem feed_kind (cs : List Nat) : ∀ (clock : Nat → Nat) (s : navic_gn_rmc_gga) (n : Nat),
    s.curTermNumber = n % 256 → 1 ≤ n → n + terminatorCount cs ≤ 256 → 36 ∉ cs →
    sentenceKind (feed clock cs s) = sentenceKind s := by
  induction cs with
  | nil => intro clock s n _ _ _ _; rfl
  | cons c cs ih =>
    intro clock s n hn h1 hk h36
    obtain ⟨-, -, a3, -, a5⟩ := encode_step (clock 0) c s
    have hc36 : c ≠ 36 := fun h => h36 (by rw [h]; exact List.mem_cons_self _ _)
    have h36b : 36 ∉ cs := fun h => h36 (List.mem_cons_of_mem _ h)
    show sentenceKind (feed (fun k => clock (k + 1)) cs (encode (clock 0) c s).2) = _
    by_cases hd : c = 44 ∨ c = 13 ∨ c = 10 ∨ c = 42
    · have hcount : terminatorCount (c :: cs) = terminatorCount cs + 1 := by
        unfold terminatorCount
        rw [List.filter_cons_of_pos (by simpa using hd), List.length_cons]
      rw [hcount] at hk
      rw [if_pos hd] at a3
      have hne : s.curTermNumber ≠ 0 := by omega
      rw [ih (fun k => clock (k + 1)) (encode (clock 0) c s).2 (n + 1) (by omega) (by omega)
        (by omega) h36b]
      exact a5 hc36 (fun _ => Or.inr (Or.inl hne))
    · have hcount : terminatorCount (c :: cs) = terminatorCount cs := by
        unfold terminatorCount
        rw [List.filter_cons_of_neg (by simpa using hd)]
      rw [hcount] at hk
      rw [if_neg hd, if_neg hc36] at a3
      rw [ih (fun k => clock (k + 1)) (encode (clock 0) c s).2 n (by omega) h1 hk h36b]
      exact a5 hc36 (fun h => absurd h hd)

/-- The term number is 1 after a `'$'`, a name of ordinary characters and the
terminator that ends it. -/
theorem name_term_number (clock : Nat → Nat) (s : navic_gn_rmc_gga) (name : List Nat) (d : Nat)
    (hname : ∀ c ∈ name, isOrdinary c) (hd : d = 44 ∨ d = 13 ∨ d = 10 ∨ d = 42) :
    (feed clock (36 :: (name ++ [d])) s).curTermNumber = 1 := by
  show (feed (fun k => clock (k + 1)) (name ++ [d]) (encode (clock 0) 36 s).2).curTermNumber = 1
  rw [feed_snoc, (encode_step _ d _).2.2.1, if_pos hd]
  obtain ⟨f1, -⟩ := feed_ordinary name hname (fun k => clock (k + 1)) (encode (clock 0) 36 s).2
  have f2 := (sem_views _ _ f1).2.2.2.2.2.1
  rw [f2, (encode_step (clock 0) 36 s).2.2.1, if_neg (by omega), if_pos rfl]

/-- Below the wrap-around of the 8-bit term number: after a `'$'`, a name and
the first term-ending character, the characters that follow, as long as they
hold no `'$'` and at most 255 term-ending characters, leave the sentence type
and the candidate cursor as the first term-ending character set them. -/
theorem sentence_kind_fixed (clock : Nat → Nat) (s : navic_gn_rmc_gga) (name : List Nat) (d : Nat)
    (rest : List Nat) (hname : ∀ c ∈ name, isOrdinary c)
    (hd : d = 44 ∨ d = 13 ∨ d = 10 ∨ d = 42) (h36 : 36 ∉ rest)
    (hk : terminatorCount rest ≤ 255) :
    (feed clock (36 :: (name ++ [d]) ++ rest) s).curSentenceType =
      (feed clock (36 :: (name ++ [d])) s).curSentenceType ∧
    (feed clock (36 :: (name ++ [d]) ++ rest) s).customCandidates =
      (feed clock (36 :: (name ++ [d])) s).customCandidates := by
  have h1 := name_term_number clock s name d hname hd
  rw [feed_append]
  have h2 := feed_kind rest (fun k => clock (k + (36 :: (name ++ [d])).length))
    (feed clock (36 :: (name ++ [d])) s) 1 (by rw [h1]) (le_refl _) (by omega) h36
  simp only [sentenceKind, Prod.mk.injEq] at h2
  exact h2

/-- The worked example, "GNRMC" and the comma that ends it, then the rest of
the sentence: the type stays RMC. -/
theorem sentence_kind_fixed_example :
    (∀ c ∈ _GNRMCterm, isOrdinary c) ∧ 36 ∉ exampleSentence.drop 7 ∧
    terminatorCount (exampleSentence.drop 7) ≤ 255 ∧
    36 :: (_GNRMCterm ++ [44]) ++ exampleSentence.drop 7 = exampleSentence ∧
    (feed (fun k => k) (36 :: (_GNRMCterm ++ [44]) ++ exampleSentence.drop 7) init).curSentenceType
      = (feed (fun k => k) (36 :: (_GNRMCterm ++ [44])) init).curSentenceType :=
  ⟨by decide, by decide, by decide, by decide,
    (sentence_kind_fixed (fun k => k) init _GNRMCterm 44 (exampleSentence.drop 7) (by decide)
      (by decide) (by decide) (by decide)).1⟩

/-- A run of commas from a term start outside the checksum term: as many
empty terms. -/
theorem commas_run (k : Nat) : ∀ (clock : Nat → Nat) (s : navic_gn_rmc_gga) (n : Nat),
    s.curTermNumber = n % 256 → s.isChecksumTerm = false → s.curTermOffset = 0 →
    (feed clock (List.replicate k 44) s).curTermNumber = (n + k) % 256 ∧
    (feed clock (List.replicate k 44) s).isChecksumTerm = false ∧
    (feed clock (List.replicate k 44) s).curTermOffset = 0 := by
  induction k with
  | zero => intro clock s n hn hc ho; exact ⟨hn, hc, ho⟩
  | succ k ih =>
    intro clock s n hn hc ho
    obtain ⟨-, a2, a3, -, -⟩ := encode_step (clock 0) 44 s
    obtain ⟨-, b2⟩ := encode_body_scan (clock 0) 44 s hc (by omega) (by omega) (by omega)
      (by omega)
    rw [if_pos (Or.inl rfl)] at a2 a3
    have b3 : (encode (clock 0) 44 s).2.isChecksumTerm = false := by
      have := congrArg (fun q => q.2.1) b2
      exact this
    obtain ⟨c1, c2, c3⟩ := ih (fun j => clock (j + 1)) (encode (clock 0) 44 s).2 (n + 1)
      (by omega) b3 a2
    have e : feed clock (List.replicate (k + 1) 44) s =
        feed (fun j => clock (j + 1)) (List.replicate k 44) (encode (clock 0) 44 s).2 := rfl
    rw [e, c1]
    exact ⟨by congr 1; omega, c2, c3⟩

/-- A terminator at term number 0, outside the checksum term, with an empty
term buffer: the empty name gives the sentence type OTHER. -/
theorem empty_name_type (now d : Nat) (s : navic_gn_rmc_gga)
    (hd : d = 44 ∨ d = 13 ∨ d = 10 ∨ d = 42) (hc : s.isChecksumTerm = false)
    (hn : s.curTermNumber = 0) (ho : s.curTermOffset = 0) :
    (encode now d s).2.curSentenceType = NAVIC_SENTENCE_OTHER := by
  obtain ⟨-, t2, -, -⟩ := encodeTerminator_plain now d [] 0 (countChar s) hc
    (by show s.curTermOffset < 15; omega)
    (by
      show cstr (Function.update s.term s.curTermOffset 0) = []
      rw [ho]
      exact (empty_term_buffer s.term).1)
    (by
      show Function.update s.term s.curTermOffset 0 0 = 0
      rw [ho]
      exact (empty_term_buffer s.term).2)
  rw [← encode_terminator_eq now d s hd, if_pos (show (countChar s).curTermNumber = 0 from hn)] at t2
  have h := (sem_views _ _ t2).2.2.2.2.1
  rw [h]
  rfl

/-- C20 (sentence type fixed once per sentence), the code on a sentence of more
than 255 terms: after "$GNRMC," the type is RMC and the term number 1; 255
commas later, without any `'$'`, the 8-bit term number has wrapped around to
0; the next comma then runs the block "the first term determines the sentence
type" a second time in the same sentence, takes the empty term for the name
and leaves the type OTHER. -/
theorem C20_term_number_wrap :
    36 ∉ List.replicate 256 44 ∧
    ((feed (fun k => k) (36 :: (_GNRMCterm ++ [44])) init).curSentenceType =
        NAVIC_SENTENCE_GNRMC ∧
      (feed (fun k => k) (36 :: (_GNRMCterm ++ [44])) init).curTermNumber = 1) ∧
    (feed (fun k => k) (36 :: (_GNRMCterm ++ [44]) ++ List.replicate 255 44) init).curTermNumber
      = 0 ∧
    (feed (fun k => k) (36 :: (_GNRMCterm ++ [44]) ++ List.replicate 256 44) init).curSentenceType
      = NAVIC_SENTENCE_OTHER := by
  have e : List.replicate 256 44 = List.replicate 255 44 ++ [44] :=
    List.replicate_add 255 1 44
  obtain ⟨c1, c2, c3⟩ := commas_run 255
    (fun k => (fun k => k) (k + (36 :: (_GNRMCterm ++ [44])).length))
    (feed (fun k => k) (36 :: (_GNRMCterm ++ [44])) init) 1 (by decide) (by decide)
    (by decide)
  refine ⟨?_, ⟨by decide, by decide⟩, ?_, ?_⟩
  · intro h
    have := List.eq_of_mem_replicate h
    omega
  · rw [feed_append]
    exact c1
  · rw [e, ← List.append_assoc, feed_snoc, feed_append]
    exact empty_name_type _ 44 _ (Or.inl rfl) c2 c1 c3

/-- The refinement of `sentence_sem` for any two ordinary checksum characters
whose decoded value is the XOR of the body, hexadecimal digits or not. -/
theorem sentence_decoded (clock : Nat → Nat) (s : navic_gn_rmc_gga) (name : List Nat)
    (ts : List (List Nat)) (h1 h2 : Nat) (hname : isField name) (hts : ∀ t ∈ ts, isField t)
    (o1 : isOrdinary h1) (o2 : isOrdinary h2)
    (hk : ((16 * fromHex h1 + fromHex h2) % 256 : Int) = (xorAll (bodyOf name ts) : Int)) :
    results clock (sentence name ts h1 h2) s =
      List.replicate ((bodyOf name ts).length + 4) false ++ [true] ∧
    ∃ now, sem (feed clock (sentence name ts h1 h2) s) =
      sem (nextTerm 13 (commitSentence now (runTerms (encodeBegin s) (name :: ts)))) := by
  have hchars := bodyOf_chars ts name hname hts
  have e0 : encode (clock 0) 36 s = (false, encodeBegin (countChar s)) := by
    unfold encode
    dsimp only
    rw [if_neg (by omega), if_pos rfl]
  obtain ⟨a1, a2, a3, a4⟩ := feed_terms ts name (fun k => clock (k + 1))
    (encodeBegin (countChar s)) hname hts rfl rfl
  have hpar := parity_at_marker (fun k => clock (k + 1)) (encodeBegin (countChar s))
    (bodyOf name ts) hchars rfl rfl
  have esent : sentence name ts h1 h2 =
      36 :: ((bodyOf name ts ++ [42]) ++ ([h1, h2] ++ [13])) := by
    simp [sentence]
  have ef : ∀ l, feed clock (36 :: l) s =
      feed (fun k => clock (k + 1)) l (encodeBegin (countChar s)) := by
    intro l
    show feed (fun k => clock (k + 1)) l (encode (clock 0) 36 s).2 = _
    rw [e0]
  have er : ∀ l, results clock (36 :: l) s =
      false :: results (fun k => clock (k + 1)) l (encodeBegin (countChar s)) := by
    intro l
    show (encode (clock 0) 36 s).1 :: results (fun k => clock (k + 1)) l
      (encode (clock 0) 36 s).2 = _
    rw [e0]
  rw [esent, ef, er, feed_append, results_append, a4]
  generalize feed (fun k => clock (k + 1)) (bodyOf name ts ++ [42])
    (encodeBegin (countChar s)) = sB at a1 a2 a3 hpar
  obtain ⟨t1, now, t2⟩ := checksum_commit
    (fun k => clock (k + (bodyOf name ts ++ [42]).length + 1)) sB h1 h2 o1 o2 a3 a2
    (by rw [hpar]; exact hk)
  rw [t1]
  constructor
  · have hrep : ∀ (n : Nat) (l : List Bool),
        List.replicate n false ++ false :: l = false :: (List.replicate n false ++ l) := by
      intro n l
      induction n with
      | zero => rfl
      | succ n ih => rw [List.replicate_succ, List.cons_append, ih, List.cons_append]
    rw [hrep, hrep, List.replicate_succ, List.replicate_succ, List.replicate_succ,
      List.replicate_succ, List.replicate_succ]
    rfl
  · refine ⟨now, ?_⟩
    have hs : sem sB = sem (runTerms (encodeBegin s) (name :: ts)) := by
      rw [a1]
      exact runTerms_congr _ _ _ rfl
    rw [t2]
    show sem (nextTerm 13 (sem (commitSentence now (sem sB)))) =
      sem (nextTerm 13 (sem (commitSentence now (runTerms (encodeBegin s) (name :: ts)))))
    rw [commitSentence_sem, commitSentence_sem now (runTerms _ _),
      show sem (sem sB) = sem sB from rfl, hs]

/-- The three cases of `fromHex`. -/
theorem fromHex_cases (a : Nat) :
    (65 ≤ a ∧ a ≤ 70 → fromHex a = (a : Int) - 55 ∧ 10 ≤ fromHex a ∧ fromHex a ≤ 15) ∧
    (97 ≤ a ∧ a ≤ 102 → fromHex a = (a : Int) - 87 ∧ 10 ≤ fromHex a ∧ fromHex a ≤ 15) ∧
    (¬ (65 ≤ a ∧ a ≤ 70) → ¬ (97 ≤ a ∧ a ≤ 102) → fromHex a = (a : Int) - 48) := by
  unfold fromHex
  refine ⟨?_, ?_, ?_⟩
  · intro h
    rw [if_pos h]
    omega
  · intro h
    rw [if_neg (by omega), if_pos h]
    omega
  · intro h1 h2
    rw [if_neg h1, if_neg h2]

/-- The byte decoded from the two hexadecimal digits of a byte value, in
either case, is that value. -/
theorem fromHex_byte (v c1 c2 : Nat) (hv : v < 256) (hh1 : isHexOf (v / 16) c1)
    (hh2 : isHexOf (v % 16) c2) : ((16 * fromHex c1 + fromHex c2) % 256 : Int) = (v : Int) := by
  rw [(isHexOf_fromHex _ _ hh1).1, (isHexOf_fromHex _ _ hh2).1]
  omega

/-- The sentence "$J*4:" followed by CR, on any decoder: the checksum term
"4:" decodes to 0x4A, the parity of the body "J". -/
theorem colon_sentence (clock : Nat → Nat) (s : navic_gn_rmc_gga) :
    results clock [36, 74, 42, 52, 58, 13] s = [false, false, false, false, false, true] ∧
    (feed clock [36, 74, 42, 52, 58, 13] s).passedChecksumCount =
      (s.passedChecksumCount + 1) % 4294967296 ∧
    (feed clock [36, 74, 42, 52, 58, 13] s).failedChecksumCount = s.failedChecksumCount ∧
    ∃ now, sem (feed clock [36, 74, 42, 52, 58, 13] s) =
      sem (nextTerm 13 (commitSentence now (runTerms (encodeBegin s) [[74]]))) := by
  obtain ⟨r1, now, r2⟩ := sentence_decoded clock s [74] [] 52 58 (by decide) (by decide)
    (by decide) (by decide) (by decide)
  have es : sentence [74] [] 52 58 = [36, 74, 42, 52, 58, 13] := rfl
  rw [es] at r1 r2
  obtain ⟨-, -, -, -, -, -, v7⟩ := sem_views _ _ r2
  obtain ⟨-, -, -, -, -, -, w7⟩ := termStep_first [74] (encodeBegin s) rfl
  have hrun : runTerms (encodeBegin s) [[74]] = termStep [74] (encodeBegin s) := rfl
  have hc := (commitSentence_frame now (runTerms (encodeBegin s) [[74]])).1
  rw [hrun] at hc
  obtain ⟨x1, x2, x3⟩ := counters_proj _ _ _ _ w7
  rw [x1, x2] at hc
  have v8 : counters (feed clock [36, 74, 42, 52, 58, 13] s) =
      counters (commitSentence now (runTerms (encodeBegin s) [[74]])) := v7
  rw [hrun, hc] at v8
  obtain ⟨y1, y2, -⟩ := counters_proj _ _ _ _ v8
  exact ⟨r1, y1, y2, now, r2⟩

/-- C21 (checksum text is decoded without validation): whatever the decoder
state, for a body of bytes without `'$'`, `'*'`, CR, LF and any two checksum
characters other than `','`, CR, LF, `'*'`, `'$'`, `encode` returns on the CR
that follows them whether `(16 * fromHex(first) + fromHex(second)) mod 256` is
the XOR of the body bytes, and counts the sentence as passed or failed
accordingly; `fromHex` maps `'A'..'F'` and `'a'..'f'` to 10..15 and every other
character `c` to `c - '0'`; every byte value is recovered from its two
hexadecimal digits in either case; and on "$J*4:" followed by CR, where `':'`
is no hexadecimal digit and decodes to 10 and the body parity is 0x4A, `encode`
returns true on the CR, the sentence counts as passed and the decoder is in
the state the commit of the sentence "J" gives. -/
theorem C21_checksum_decoding (clock : Nat → Nat) (s : navic_gn_rmc_gga) (body : List Nat)
    (h1 h2 : Nat) (hb : ∀ c ∈ body, c < 256 ∧ c ≠ 36 ∧ c ≠ 42 ∧ c ≠ 13 ∧ c ≠ 10)
    (o1 : isOrdinary h1) (o2 : isOrdinary h2) :
    (results clock (36 :: (body ++ [42, h1, h2, 13, 10])) s =
      false :: (List.replicate body.length false ++ [false, false, false,
        decide (((16 * fromHex h1 + fromHex h2) % 256 : Int) = (xorAll body : Int)), false]) ∧
    (feed clock (36 :: (body ++ [42, h1, h2, 13, 10])) s).passedChecksumCount =
      (if ((16 * fromHex h1 + fromHex h2) % 256 : Int) = (xorAll body : Int)
        then (s.passedChecksumCount + 1) % 4294967296 else s.passedChecksumCount) ∧
    (feed clock (36 :: (body ++ [42, h1, h2, 13, 10])) s).failedChecksumCount =
      (if ((16 * fromHex h1 + fromHex h2) % 256 : Int) = (xorAll body : Int)
        then s.failedChecksumCount else (s.failedChecksumCount + 1) % 4294967296)) ∧
    (∀ a : Nat,
      (65 ≤ a ∧ a ≤ 70 → fromHex a = (a : Int) - 55 ∧ 10 ≤ fromHex a ∧ fromHex a ≤ 15) ∧
      (97 ≤ a ∧ a ≤ 102 → fromHex a = (a : Int) - 87 ∧ 10 ≤ fromHex a ∧ fromHex a ≤ 15) ∧
      (¬ (65 ≤ a ∧ a ≤ 70) → ¬ (97 ≤ a ∧ a ≤ 102) → fromHex a = (a : Int) - 48)) ∧
    (∀ v c1 c2 : Nat, v < 256 → isHexOf (v / 16) c1 → isHexOf (v % 16) c2 →
      ((16 * fromHex c1 + fromHex c2) % 256 : Int) = (v : Int)) ∧
    ((∀ v : Nat, ¬ isHexOf v 58) ∧ fromHex 58 = 10 ∧ xorAll [74] = 74 ∧
      results clock [36, 74, 42, 52, 58, 13] s = [false, false, false, false, false, true] ∧
      (feed clock [36, 74, 42, 52, 58, 13] s).passedChecksumCount =
        (s.passedChecksumCount + 1) % 4294967296 ∧
      (feed clock [36, 74, 42, 52, 58, 13] s).failedChecksumCount = s.failedChecksumCount ∧
      ∃ now, sem (feed clock [36, 74, 42, 52, 58, 13] s) =
        sem (nextTerm 13 (commitSentence now (runTerms (encodeBegin s) [[74]])))) := by
  obtain ⟨r1, r2, r3, -⟩ := sentence_scan clock s body h1 h2 hb o1 o2
  refine ⟨⟨r1, r2, r3⟩, fromHex_cases, fromHex_byte, ?_, by decide, by decide,
    colon_sentence clock s⟩
  intro v hv
  unfold isHexOf at hv
  omega

/-- Witness of C21: the sentence "$J*4:" with CR and LF on a decoder with a
custom descriptor for "J": the CR returns true, one sentence has passed, and
the custom field, never valid before, is valid and updated. -/
theorem C21_checksum_decoding_witness :
    (∀ c ∈ [74], c < 256 ∧ c ≠ 36 ∧ c ≠ 42 ∧ c ≠ 13 ∧ c ≠ 10) ∧ isOrdinary 52 ∧ isOrdinary 58 ∧
    results (fun k => k) (36 :: ([74] ++ [42, 52, 58, 13, 10])) checksumDecoder =
      [false, false, false, false, false, true, false] ∧
    (feed (fun k => k) (36 :: ([74] ++ [42, 52, 58, 13, 10])) checksumDecoder).passedChecksumCount
      = 1 ∧
    checksumDecoder.customElts.map (fun p => (p.valid, p.updated)) = [(false, false)] ∧
    (feed (fun k => k) [36, 74, 42, 52, 58, 13] checksumDecoder).customElts.map
      (fun p => (p.valid, p.updated)) = [(true, true)] :=
  ⟨by decide, by decide, by decide,
    (C21_checksum_decoding (fun k => k) checksumDecoder [74] 52 58 (by decide) (by decide)
      (by decide)).1.1.trans (by decide),
    (C21_checksum_decoding (fun k => k) checksumDecoder [74] 52 58 (by decide) (by decide)
      (by decide)).1.2.1.trans (by decide),
    by decide, by decide⟩

/-- The last assignment of `parseDegrees`: `billionths` from the variable
`tenMillionthsOfMinutes`, in 32-bit unsigned arithmetic. -/
theorem parseDegrees_billionths (term : List Nat) :
    (parseDegrees term).billionths =
      ((5 * tenMillionthsOfMinutes term + 1) % 4294967296) / 3 := rfl

/-- The weighted sum of decimal fraction digits stays below one minute. -/
theorem fractionWeight_lt (f : List Nat) : allDigits f → ∀ i, 1 ≤ i → i ≤ 8 →
    fractionWeight f i < 100000000 / 10 ^ i := by
  induction f with
  | nil =>
    intro _ i h1 h8
    unfold fractionWeight
    interval_cases i <;> norm_num
  | cons c cs ih =>
    intro hf i h1 h8
    have hc : isdigit c = true := hf c (List.mem_cons_self _ _)
    have hc2 : c - 48 ≤ 9 := by
      unfold isdigit at hc
      simp only [Bool.and_eq_true, decide_eq_true_eq] at hc
      omega
    have hcs : allDigits cs := fun d hd => hf d (List.mem_cons_of_mem _ hd)
    unfold fractionWeight
    by_cases h : i = 8
    · subst h
      rw [fractionWeight_zero cs 9 (by omega)]
      norm_num
    · have hi := ih hcs (i + 1) (by omega) (by omega)
      generalize fractionWeight cs (i + 1) = w at hi
      generalize c - 48 = d at hc2
      interval_cases i <;> norm_num at hi ⊢ <;> omega

/-- The variable `tenMillionthsOfMinutes` on a text `L [. F]`: no 32-bit
wrap-around occurs while it is accumulated. -/
theorem tenMillionths_text (L : List Nat) (F : Option (List Nat)) (hL : allDigits L)
    (hF : ∀ f, F = some f → allDigits f) (hv : decimalValue L < 2147483648) :
    tenMillionthsOfMinutes (decimalText false L F) = degreesMinutes L F ∧
    degreesMinutes L F < (decimalValue L % 100 + 1) * 10000000 := by
  have hrest : ∀ c, (match F with | none => [] | some f => 46 :: f).head? = some c → c = 46 := by
    intro c hc
    cases F with
    | none => simp at hc
    | some f => simpa using hc.symm
  have hrest2 : ∀ c, (match F with | none => [] | some f => 46 :: f).head? = some c →
      isdigit c = false := by
    intro c hc
    rw [hrest c hc]
    rfl
  have htext : decimalText false L F = L ++ (match F with | none => [] | some f => 46 :: f) := by
    rw [decimalText_eq]
    rfl
  have hat : toUint32 (atol (decimalText false L F)) = decimalValue L := by
    rw [htext, atol_digits L hL _ hrest]
    unfold toUint32
    omega
  have hdw : (decimalText false L F).dropWhile isdigit =
      (match F with | none => [] | some f => 46 :: f) := by
    rw [htext]
    exact dropWhile_digits L hL _ hrest2
  have hw : fractionWeight (F.getD []) 1 < 10000000 := by
    have h := fractionWeight_lt (F.getD []) (by
      cases F with
      | none => intro c hc; simp at hc
      | some f => exact hF f rfl) 1 (le_refl _) (by norm_num)
    norm_num at h
    exact h
  have hmin : decimalValue L % 100 % 65536 = decimalValue L % 100 := by omega
  have hlt : decimalValue L % 100 < 100 := Nat.mod_lt _ (by norm_num)
  refine ⟨?_, ?_⟩
  · unfold tenMillionthsOfMinutes degreesMinutes
    simp only [hat, hdw]
    rw [hmin]
    cases F with
    | none =>
      simp only [List.getD_nil, Option.getD_none, fractionWeight]
      rw [if_neg (by decide)]
      omega
    | some f =>
      simp only [List.getD_cons_zero, Option.getD_some, List.tail_cons, if_true]
      have h0 : (10000000 : Nat) = 10000000 / 10 ^ 0 := by norm_num
      rw [h0, parseDegreesLoop_eq f (hF f rfl) 0 _ (Nat.mod_lt _ (by norm_num))]
      simp only [pow_zero, Nat.div_one, Nat.zero_add]
      simp only [Option.getD_some] at hw
      generalize fractionWeight f 1 = b at hw
      omega
  · unfold degreesMinutes
    generalize fractionWeight (F.getD []) 1 = b at hw
    omega

/-- C22 (minutes-to-degrees conversion is exact rounding without overflow for
real coordinates): on a text `L [. f1 ... fn]`, `L` a string of decimal digits
of value below 2^31 whose whole minutes `value(L) mod 100` are below 60, the
variable `tenMillionthsOfMinutes` ends as
`t = (value(L) mod 100) * 10^7 + Σ fi * floor(10^7 / 10^i)`, `5 * t + 1` is
below 2^32, `billionths` is `floor((5 * t + 1) / 3)`, which is within 1 of
`5 * t / 3` after multiplication by 3, and `billionths` is below 10^9; on the
text "86" (whole minutes 86) `5 * t + 1` is 2^32 or more and `billionths` is
1677568, not `floor((5 * t + 1) / 3) = 1433333333`. -/
theorem C22_minutes_conversion (L : List Nat) (F : Option (List Nat)) (hL : allDigits L)
    (hF : ∀ f, F = some f → allDigits f) (hv : decimalValue L < 2147483648)
    (hm : decimalValue L % 100 < 60) :
    (tenMillionthsOfMinutes (decimalText false L F) = degreesMinutes L F ∧
      5 * degreesMinutes L F + 1 < 4294967296 ∧
      (parseDegrees (decimalText false L F)).billionths = (5 * degreesMinutes L F + 1) / 3 ∧
      3 * (parseDegrees (decimalText false L F)).billionths ≤ 5 * degreesMinutes L F + 1 ∧
      5 * degreesMinutes L F ≤ 3 * (parseDegrees (decimalText false L F)).billionths + 1 ∧
      (parseDegrees (decimalText false L F)).billionths < 1000000000) ∧
    (86 ≤ toUint32 (atol [56, 54]) % 100 ∧
      tenMillionthsOfMinutes [56, 54] = 860000000 ∧
      4294967296 ≤ 5 * tenMillionthsOfMinutes [56, 54] + 1 ∧
      (parseDegrees [56, 54]).billionths = 1677568 ∧
      (5 * tenMillionthsOfMinutes [56, 54] + 1) / 3 = 1433333333) := by
  obtain ⟨e1, e2⟩ := tenMillionths_text L F hL hF hv
  have hb := parseDegrees_billionths (decimalText false L F)
  rw [e1] at hb
  refine ⟨?_, by decide, by decide, by decide, by decide, by decide⟩
  rw [hb]
  generalize degreesMinutes L F = t at e1 e2
  generalize decimalValue L % 100 = m at hm e2
  have ht : 5 * t + 1 < 4294967296 := by omega
  rw [Nat.mod_eq_of_lt ht]
  refine ⟨e1, ht, rfl, ?_, ?_, ?_⟩ <;> omega

/-- Witness of C22: "4807.038" has 7 whole minutes, `t = 70380000`, and
117300000 billionths. -/
theorem C22_minutes_conversion_witness :
    allDigits [52, 56, 48, 55] ∧ decimalValue [52, 56, 48, 55] < 2147483648 ∧
    decimalValue [52, 56, 48, 55] % 100 < 60 ∧
    tenMillionthsOfMinutes (decimalText false [52, 56, 48, 55] (some [48, 51, 56])) = 70380000 ∧
    (parseDegrees (decimalText false [52, 56, 48, 55] (some [48, 51, 56]))).billionths =
      117300000 :=
  ⟨by decide, by decide, by decide,
    (C22_minutes_conversion [52, 56, 48, 55] (some [48, 51, 56]) (by decide) (by decide)
      (by decide) (by decide)).1.1.trans (by decide),
    (C22_minutes_conversion [52, 56, 48, 55] (some [48, 51, 56]) (by decide) (by decide)
      (by decide) (by decide)).1.2.2.1.trans (by decide)⟩

end NavIC
